import Mathlib

/-!
# downman: the resumable download engine (`src/src/downloaditem.cpp`)

A shallow embedding of `DownloadItem`.  The engine's private members, the
storage it touches and the things an observer can see (signals raised, requests
sent) are the fields of one record; every member function of the class is a
function on that record.

Conventions of the embedding.

* `qint64` values are integers; additions are performed with `add64`, which
  wraps to 64-bit two's complement.
* A slot that reads something off the reply object (`readAll()`, an
  attribute, a header, `error()`, `errorString()`) takes the value read as an
  argument.
* `reply_->abort()` marks the reply as aborted.  The cancellation error and the
  completion that the transport raises afterwards are separate slot
  invocations (`handleError`, then `handleFinished`).
* Storage: `disk` maps a path to the bytes of the file stored there, `openable`
  tells whether a path can be opened for writing, `deviceLimit` is the largest
  size a file can grow to (a write beyond it is cut short), `stateFile` is the
  content of `resume.json` and `configWritable` tells whether that file
  can be opened for writing.
* `QUrl` is represented by its text; `urlValid` and `resolved` stand for
  `QUrl::isValid` and `QUrl::resolved`.
-/

namespace Downman

/-! ## Constants and machine arithmetic -/

abbrev Byte := UInt8

abbrev QByteArray := List Byte

/-- The 1 GiB cap, `kMaxDownloadBytes` in the source. -/
def kMaxDownloadBytes : Int := 1024 * 1024 * 1024

/-- The redirect cap, `kMaxRedirects` in the source. -/
def kMaxRedirects : Int := 5

def kUserAgent : String :=
  "Mozilla/5.0 (Windows NT 10.0; Win64; x64) AppleWebKit/537.36 (KHTML, like Gecko) Chrome/119.0 Safari/537.36"

/-- Reduction of an integer to the 64-bit two's complement range. -/
def wrap64 (x : Int) : Int := (x + 2 ^ 63) % 2 ^ 64 - 2 ^ 63

/-- Addition of two `qint64` as the machine performs it. -/
def add64 (a b : Int) : Int := wrap64 (a + b)

/-- The nearest value with a 53-bit significand, ties to even. -/
def roundToDoubleNat (m : Nat) : Nat :=
  if m < 2 ^ 53 then m
  else
    let e := Nat.log2 m - 52
    let q := m / 2 ^ e
    let r := m % 2 ^ e
    let half := 2 ^ (e - 1)
    (if half < r ∨ (r = half ∧ q % 2 = 1) then q + 1 else q) * 2 ^ e

/-- The conversion `static_cast<double>(qint64)`; the result is an integral double. -/
def toDouble (x : Int) : Int :=
  if x < 0 then -(roundToDoubleNat x.natAbs : Int) else (roundToDoubleNat x.natAbs : Int)

/-- The conversion `static_cast<qint64>(double)` of an integral double; a value out of
range yields the smallest `qint64`, as the x86-64 conversion does. -/
def doubleToInt64 (d : Int) : Int :=
  if -(2 : Int) ^ 63 ≤ d ∧ d < 2 ^ 63 then d else -(2 : Int) ^ 63

/-! ## Paths (`QFileInfo::isAbsolute`, `QDir::cleanPath`, `QString::startsWith`) -/

/-- The segments of a path between its separators, empty segments included. -/
def splitSlash : List Char → List (List Char)
  | [] => [[]]
  | c :: cs =>
    if c = '/' then [] :: splitSlash cs
    else
      match splitSlash cs with
      | [] => [[c]]
      | seg :: rest => (c :: seg) :: rest

/-- Resolution of `.` and `..` over the segments of a path; `acc` is the stack of
segments kept so far, innermost first.  Above the root `..` is dropped; in a relative
path a leading `..` is kept. -/
def normalizeSegments (absolute : Bool) : List (List Char) → List (List Char) → List (List Char)
  | acc, [] => acc.reverse
  | acc, seg :: rest =>
    if seg = [] ∨ seg = ['.'] then normalizeSegments absolute acc rest
    else if seg = ['.', '.'] then
      match acc with
      | [] =>
        if absolute then normalizeSegments absolute [] rest
        else normalizeSegments absolute [seg] rest
      | top :: below =>
        if top = ['.', '.'] then normalizeSegments absolute (seg :: acc) rest
        else normalizeSegments absolute below rest
    else normalizeSegments absolute (seg :: acc) rest

def cleanChars (p : List Char) : List Char :=
  if p = [] then []
  else
    let absolute := p.head? = some '/'
    let segs := normalizeSegments absolute [] (splitSlash p)
    if absolute then '/' :: List.intercalate ['/'] segs
    else if segs = [] then ['.']
    else List.intercalate ['/'] segs

/-- The function `QDir::cleanPath`: separators collapsed, `.` and `..` resolved, no
trailing separator except for the root. -/
def cleanPath (p : String) : String := String.mk (cleanChars p.data)

/-- The test `QFileInfo::isAbsolute` on a Unix path. -/
def isAbsolute (p : String) : Bool := p.data.head? = some '/'

/-- The test `QString::startsWith`. -/
def startsWith (s t : String) : Bool := t.data.isPrefixOf s.data

/-! ## Data model -/

inductive NetworkError
  | NoError
  | ConnectionRefusedError
  | RemoteHostClosedError
  | HostNotFoundError
  | TimeoutError
  | OperationCanceledError
  | SslHandshakeFailedError
  | UnknownNetworkError
  deriving DecidableEq, Repr

/-- The signals of `DownloadItem`.  `speedUpdated` carries the byte count whose
quotient by 1024.0 is the rate the source emits. -/
inductive Signal
  | progressChanged (bytesReceived bytesTotal : Int)
  | speedUpdated (bytes : Int)
  | statusTextChanged (text : String)
  | downloadFinished (filePath : String)
  | downloadFailed (errorText : String)
  | paused
  deriving DecidableEq, Repr

structure QNetworkRequest where
  url : String
  userAgent : String
  manualRedirect : Bool
  range : Option String
  deriving DecidableEq, Repr

structure QNetworkReply where
  request : QNetworkRequest
  aborted : Bool
  deriving DecidableEq, Repr

structure ResumeData where
  url : String := ""
  filePath : String := ""
  bytesDownloaded : Int := 0
  deriving DecidableEq, Repr

/-- A value read from a JSON object by `QJsonObject::value`. -/
inductive JsonValue
  | undefined
  | string (s : String)
  | number (v : Int)
  | other
  deriving DecidableEq, Repr

/-- The function `QJsonValue::toString`: the empty string unless the value is a string. -/
def JsonValue.toString : JsonValue → String
  | .string s => s
  | _ => ""

/-- The function `QJsonValue::toDouble`: zero unless the value is a number. -/
def JsonValue.toDouble : JsonValue → Int
  | .number v => v
  | _ => 0

/-- What `resume.json` holds: nothing that can be opened, something that is not a JSON
object, or an object of which the three keys the engine reads are given. -/
inductive StateFile
  | missing
  | malformed
  | object (url filePath bytesDownloaded : JsonValue)
  deriving DecidableEq, Repr

/-- The engine together with the storage it works on and what it has raised and sent.

Members of the class: `reply_` to `bytesThisSecond_` (`fileOpen` and `fileName` are the
state of `file_`, `timerRunning` that of `speedTimer_`).  Storage and platform:
`disk` to `resolved`.  Observations: `signals` (every signal emitted, oldest first) and
`sent` (every request handed to the network manager, oldest first). -/
structure DownloadItem where
  reply_ : Option QNetworkReply
  fileOpen : Bool
  fileName : String
  url_ : String
  targetPath_ : String
  downloaded_ : Int
  startOffset_ : Int
  totalBytes_ : Int
  paused_ : Bool
  redirectCount_ : Int
  suppressErrors_ : Bool
  timerRunning : Bool
  bytesThisSecond_ : Int
  disk : String → Option QByteArray
  openable : String → Bool
  deviceLimit : Nat
  stateFile : StateFile
  configWritable : Bool
  homePath : String
  downloadLocation : String
  urlValid : String → Bool
  resolved : String → String → String
  signals : List Signal
  sent : List QNetworkRequest

/-- The disk with the file at `path` replaced by `content`. -/
def setFile (disk : String → Option QByteArray) (path : String) (content : QByteArray) :
    String → Option QByteArray :=
  fun q => if q = path then some content else disk q

/-- The test `QFileInfo::exists` for a path. -/
def fileExists (s : DownloadItem) (path : String) : Bool := (s.disk path).isSome

/-- The value `QFileInfo::size` for a path: the length of the file, zero when there is none. -/
def fileSize (s : DownloadItem) (path : String) : Int := (((s.disk path).getD []).length : Int)

/-- Emission of a signal. -/
def emit (sig : Signal) (s : DownloadItem) : DownloadItem :=
  { s with signals := s.signals ++ [sig] }

/-- The call `reply_->abort()` on a reply that is there. -/
def abort (s : DownloadItem) : DownloadItem :=
  { s with reply_ := s.reply_.map (fun r => { r with aborted := true }) }

/-- The member `isActive`. -/
def isActive (s : DownloadItem) : Bool := s.reply_.isSome

/-- The member `isPaused`. -/
def isPaused (s : DownloadItem) : Bool := s.paused_

/-- The member `ResumeData::isValid`. -/
def ResumeData.isValid (valid : String → Bool) (d : ResumeData) : Bool :=
  valid d.url && !(d.filePath == "")

/-- The member `currentState`. -/
def currentState (s : DownloadItem) : ResumeData :=
  { url := s.url_, filePath := s.targetPath_, bytesDownloaded := s.downloaded_ }

/-- The member `resetReply`. -/
def resetReply (s : DownloadItem) : DownloadItem :=
  { s with reply_ := none, suppressErrors_ := false }

/-- The member `persistResumeData`: nothing is stored when `resume.json` cannot be
opened for writing. -/
def persistResumeData (s : DownloadItem) : DownloadItem :=
  if !s.configWritable then s
  else
    let obj : StateFile :=
      StateFile.object (JsonValue.string s.url_) (JsonValue.string s.targetPath_)
        (JsonValue.number (toDouble s.downloaded_))
    { s with stateFile := obj }

/-- The member `clearSavedState`. -/
def clearSavedState (s : DownloadItem) : DownloadItem :=
  { s with stateFile := StateFile.missing }

/-- The test the source applies to a cleaned path and a cleaned directory:
`cleaned.startsWith(dir + '/') || cleaned == dir`. -/
def isUnder (cleanDir cleaned : String) : Bool :=
  startsWith cleaned (cleanDir ++ "/") || cleaned == cleanDir

/-- The directory that stands for the downloads location: the home directory when the
platform reports no downloads location. -/
def downloadDirOf (s : DownloadItem) : String :=
  if s.downloadLocation == "" then s.homePath else s.downloadLocation

/-- The member `loadSavedState`. -/
def loadSavedState (s : DownloadItem) : ResumeData :=
  match s.stateFile with
  | StateFile.missing => {}
  | StateFile.malformed => {}
  | StateFile.object u f b =>
    let data : ResumeData :=
      { url := u.toString, filePath := f.toString, bytesDownloaded := doubleToInt64 b.toDouble }
    if !isAbsolute data.filePath then {}
    else
      let homeDir := s.homePath
      let cleaned := cleanPath data.filePath
      let cleanHome := cleanPath homeDir
      let cleanDownload := cleanPath (downloadDirOf s)
      let underHome := isUnder cleanHome cleaned
      let underDownload := isUnder cleanDownload cleaned
      if !underHome && !underDownload then {}
      else
        if fileExists s data.filePath then { data with bytesDownloaded := fileSize s data.filePath }
        else data

/-- The member `openFile`.  The returned flag is the result of the call. -/
def openFile (truncate : Bool) (s : DownloadItem) : Bool × DownloadItem :=
  let s1 : DownloadItem := if s.fileOpen then { s with fileOpen := false } else s
  let s2 : DownloadItem := { s1 with fileName := s1.targetPath_ }
  if !s2.openable s2.fileName then (false, s2)
  else
    let content : QByteArray := if truncate then [] else (s2.disk s2.fileName).getD []
    let s3 : DownloadItem :=
      { s2 with fileOpen := true, disk := setFile s2.disk s2.fileName content }
    if !truncate && decide (s3.downloaded_ > 0) then (true, s3)
    else (true, { s3 with downloaded_ := 0 })

/-- The value of the raw header `Range` that `startRequest` sets, if it sets one. -/
def rangeHeader (downloaded : Int) : Option String :=
  if downloaded > 0 then some ("bytes=" ++ toString downloaded ++ "-") else none

/-- The request that `startRequest` builds: the current url, the fixed user agent, manual
redirect policy, and a `Range` header when `downloaded_` is positive. -/
def buildRequest (s : DownloadItem) : QNetworkRequest :=
  { url := s.url_, userAgent := kUserAgent, manualRedirect := true,
    range := rangeHeader s.downloaded_ }

/-- The member `startRequest`. -/
def startRequest (s : DownloadItem) : DownloadItem :=
  if !s.fileOpen then emit (Signal.downloadFailed "File is not open.") s
  else
    let s1 : DownloadItem :=
      { s with startOffset_ := s.downloaded_, bytesThisSecond_ := 0, paused_ := false,
               suppressErrors_ := false }
    let request := buildRequest s1
    { s1 with reply_ := some { request := request, aborted := false },
              sent := s1.sent ++ [request], timerRunning := true }

/-- The member `startNew`. -/
def startNew (url filePath : String) (s : DownloadItem) : DownloadItem :=
  let s1 := resetReply s
  let s2 : DownloadItem :=
    { s1 with url_ := url, targetPath_ := filePath, downloaded_ := 0, totalBytes_ := -1,
              paused_ := false, redirectCount_ := 0 }
  let opened := openFile true s2
  if !opened.1 then emit (Signal.downloadFailed "Cannot open file for writing.") opened.2
  else emit (Signal.statusTextChanged "Downloading...") (startRequest (persistResumeData opened.2))

/-- The member `resumeFromSaved`. -/
def resumeFromSaved (s : DownloadItem) : DownloadItem :=
  let s1 := resetReply s
  let saved := loadSavedState s1
  if !saved.isValid s1.urlValid then emit (Signal.downloadFailed "No download to resume.") s1
  else
    let s2 : DownloadItem := { s1 with url_ := saved.url, targetPath_ := saved.filePath }
    let onDisk : Int := if fileExists s2 s2.targetPath_ then fileSize s2 s2.targetPath_ else 0
    let s3 : DownloadItem :=
      { s2 with downloaded_ := onDisk, totalBytes_ := -1, paused_ := false, redirectCount_ := 0 }
    let opened := openFile false s3
    if !opened.1 then emit (Signal.downloadFailed "Cannot open file for writing.") opened.2
    else emit (Signal.statusTextChanged "Resuming...") (startRequest opened.2)

/-- The member `pause`. -/
def pause (s : DownloadItem) : DownloadItem :=
  if s.reply_.isNone then s
  else
    let s1 : DownloadItem := { s with paused_ := true, timerRunning := false, bytesThisSecond_ := 0 }
    let s2 := abort (persistResumeData s1)
    emit (Signal.statusTextChanged "Paused") (emit (Signal.speedUpdated 0) s2)

/-- The call `file_.write(data)`: the bytes go to the end of the file, as many of them as
the device has room for; the second component is the count `write` returns. -/
def writeFile (data : QByteArray) (s : DownloadItem) : DownloadItem × Int :=
  let old : QByteArray := (s.disk s.fileName).getD []
  let part : QByteArray := data.take (s.deviceLimit - old.length)
  ({ s with disk := setFile s.disk s.fileName (old ++ part) }, (part.length : Int))

/-- The calls `file_.flush(); file_.close()` guarded by `file_.isOpen()`. -/
def closeFile (s : DownloadItem) : DownloadItem :=
  if s.fileOpen then { s with fileOpen := false } else s

/-- The member `checkSizeLimit`.  The returned flag is the result of the call. -/
def checkSizeLimit (nextChunkBytes : Int) (s : DownloadItem) : Bool × DownloadItem :=
  if kMaxDownloadBytes ≤ 0 then (true, s)
  else
    let projected := add64 s.downloaded_ nextChunkBytes
    if projected > kMaxDownloadBytes then
      let s1 := emit (Signal.downloadFailed "Exceeded maximum download size")
        (emit (Signal.statusTextChanged "Aborted: file too large") s)
      let s2 : DownloadItem :=
        if s1.reply_.isSome then abort { s1 with suppressErrors_ := true } else s1
      (false, s2)
    else (true, s)

/-- The slot `handleReadyRead`; `data` is what `reply_->readAll()` returns. -/
def handleReadyRead (data : QByteArray) (s : DownloadItem) : DownloadItem :=
  if s.reply_.isNone || !s.fileOpen then s
  else if data.isEmpty then s
  else
    let checked := checkSizeLimit (data.length : Int) s
    if !checked.1 then abort checked.2
    else
      let written := writeFile data checked.2
      if written.2 ≠ (data.length : Int) then
        pause (emit (Signal.downloadFailed "Failed to write to file.") written.1)
      else
        let s1 : DownloadItem :=
          { written.1 with
              downloaded_ := add64 written.1.downloaded_ (data.length : Int),
              bytesThisSecond_ := add64 written.1.bytesThisSecond_ (data.length : Int) }
        persistResumeData s1

/-- The slot `handleDownloadProgress`. -/
def handleDownloadProgress (bytesReceived bytesTotal : Int) (s : DownloadItem) : DownloadItem :=
  let receivedOverall := add64 s.startOffset_ bytesReceived
  let totalOverall0 := if bytesTotal > 0 then add64 s.startOffset_ bytesTotal else s.totalBytes_
  let totalOverall :=
    if bytesTotal < 0 ∧ s.totalBytes_ < 0 then -1
    else if bytesTotal < 0 then s.totalBytes_
    else totalOverall0
  emit (Signal.progressChanged receivedOverall totalOverall) s

/-- The slot `handleFinished`; `redirectTarget` is the redirection attribute of the reply
(`none` when the attribute is not valid) and `error` is `reply_->error()`. -/
def handleFinished (redirectTarget : Option String) (error : NetworkError)
    (s : DownloadItem) : DownloadItem :=
  let s0 : DownloadItem := { s with timerRunning := false, bytesThisSecond_ := 0 }
  if s0.reply_.isNone then s0
  else
    match redirectTarget with
    | some target =>
      if s0.redirectCount_ ≥ kMaxRedirects then
        let s1 := emit (Signal.downloadFailed "Redirect limit reached")
          (emit (Signal.statusTextChanged "Error: too many redirects") s0)
        let s2 := resetReply s1
        emit (Signal.speedUpdated 0) { s2 with timerRunning := false }
      else
        let s1 : DownloadItem :=
          { s0 with redirectCount_ := s0.redirectCount_ + 1, url_ := s0.resolved s0.url_ target }
        startRequest (resetReply s1)
    | none =>
      if s0.suppressErrors_ then resetReply (emit (Signal.speedUpdated 0) (closeFile s0))
      else
        let s1 : DownloadItem :=
          if error = NetworkError.NoError then
            emit (Signal.downloadFinished s0.targetPath_)
              (emit (Signal.statusTextChanged "Completed") (clearSavedState (closeFile s0)))
          else if s0.paused_ ∧ error = NetworkError.OperationCanceledError then
            persistResumeData (closeFile s0)
          else closeFile s0
        resetReply (emit (Signal.speedUpdated 0) s1)

/-- The slot `handleError`; `errorString` is `reply_->errorString()`. -/
def handleError (error : NetworkError) (errorString : String) (s : DownloadItem) : DownloadItem :=
  if s.suppressErrors_ ∧ error = NetworkError.OperationCanceledError then
    { s with suppressErrors_ := false }
  else if s.paused_ ∧ error = NetworkError.OperationCanceledError then emit Signal.paused s
  else
    let s1 : DownloadItem := { s with timerRunning := false, bytesThisSecond_ := 0 }
    persistResumeData
      (emit (Signal.downloadFailed errorString)
        (emit (Signal.statusTextChanged ("Error: " ++ errorString))
          (emit (Signal.speedUpdated 0) s1)))

/-- The slot `handleSslErrors`; `errors` are the descriptions of the errors reported. -/
def handleSslErrors (errors : List String) (s : DownloadItem) : DownloadItem :=
  let combined := String.intercalate "; " errors
  let s1 := emit (Signal.downloadFailed combined)
    (emit (Signal.statusTextChanged ("SSL error: " ++ combined)) s)
  if s1.reply_.isSome then abort s1 else s1

/-- The slot `handleMetaDataChanged`; `status` is the status attribute of the reply
converted by `toInt()` and `lengthHeader` its Content-Length header (`none` when the header
is not valid). -/
def handleMetaDataChanged (status : Int) (lengthHeader : Option Int)
    (s : DownloadItem) : DownloadItem :=
  if s.reply_.isNone then s
  else
    let s1 : DownloadItem :=
      if status = 200 ∧ s.startOffset_ > 0 then
        let t : DownloadItem :=
          if s.fileOpen then { s with disk := setFile s.disk s.fileName [] } else s
        persistResumeData { t with downloaded_ := 0, startOffset_ := 0 }
      else s
    match lengthHeader with
    | none => s1
    | some declared =>
      let s2 : DownloadItem := { s1 with totalBytes_ := add64 s1.startOffset_ declared }
      if s2.totalBytes_ > kMaxDownloadBytes then
        let s3 := emit (Signal.downloadFailed "Content length exceeds limit")
          (emit (Signal.statusTextChanged "Aborted: file too large") s2)
        abort { s3 with suppressErrors_ := true }
      else s2

/-- The slot `updateSpeed`. -/
def updateSpeed (s : DownloadItem) : DownloadItem :=
  { emit (Signal.speedUpdated s.bytesThisSecond_) s with bytesThisSecond_ := 0 }

/-! ## Runs of the engine -/

/-- What can happen to the engine: a call of a public operation, or a signal of the
reply or of the timer reaching its slot. -/
inductive Action
  | startNew (url filePath : String)
  | resumeFromSaved
  | pause
  | clearSavedState
  | readyRead (data : QByteArray)
  | downloadProgress (bytesReceived bytesTotal : Int)
  | metaDataChanged (status : Int) (lengthHeader : Option Int)
  | finished (redirectTarget : Option String) (error : NetworkError)
  | errorOccurred (error : NetworkError) (errorString : String)
  | sslErrors (errors : List String)
  | timeout

/-- One action.  The slots of the reply run only while a reply is connected, the timer
slot only while the timer runs. -/
def step (a : Action) (s : DownloadItem) : DownloadItem :=
  match a with
  | Action.startNew url filePath => startNew url filePath s
  | Action.resumeFromSaved => resumeFromSaved s
  | Action.pause => pause s
  | Action.clearSavedState => clearSavedState s
  | Action.readyRead data => if s.reply_.isSome then handleReadyRead data s else s
  | Action.downloadProgress r t => if s.reply_.isSome then handleDownloadProgress r t s else s
  | Action.metaDataChanged st len => if s.reply_.isSome then handleMetaDataChanged st len s else s
  | Action.finished target err => if s.reply_.isSome then handleFinished target err s else s
  | Action.errorOccurred err text => if s.reply_.isSome then handleError err text s else s
  | Action.sslErrors errs => if s.reply_.isSome then handleSslErrors errs s else s
  | Action.timeout => if s.timerRunning then updateSpeed s else s

/-- A sequence of actions, the first of the list first. -/
def run (actions : List Action) (s : DownloadItem) : DownloadItem :=
  actions.foldl (fun acc a => step a acc) s

/-- The engine as constructed, on a given storage and platform. -/
def fresh (disk : String → Option QByteArray) (openable : String → Bool) (deviceLimit : Nat)
    (stateFile : StateFile) (configWritable : Bool) (homePath downloadLocation : String)
    (urlValid : String → Bool) (resolved : String → String → String) : DownloadItem :=
  { reply_ := none, fileOpen := false, fileName := "", url_ := "", targetPath_ := "",
    downloaded_ := 0, startOffset_ := 0, totalBytes_ := -1, paused_ := false,
    redirectCount_ := 0, suppressErrors_ := false, timerRunning := false,
    bytesThisSecond_ := 0, disk := disk, openable := openable, deviceLimit := deviceLimit,
    stateFile := stateFile, configWritable := configWritable, homePath := homePath,
    downloadLocation := downloadLocation, urlValid := urlValid, resolved := resolved,
    signals := [], sent := [] }

/-! ## Invariants and sample runs -/

/-- The invariant behind the redirect bound. -/
def RedirectInv (s : DownloadItem) : Prop :=
  s.redirectCount_ ≤ kMaxRedirects ∧ (s.reply_.isSome = true → s.fileOpen = true)

/-- An engine as constructed on an empty disk where every path can be opened; the home
directory is `/home/u`. -/
def emptyHome : DownloadItem :=
  fresh (fun _ => none) (fun _ => true) (2 ^ 40) StateFile.missing true "/home/u"
    "/home/u/Downloads" (fun u => u != "") (fun _ target => target)

/-- A download that has been redirected five times. -/
def fiveRedirects : List Action :=
  [Action.startNew "https://a.example/f.bin" "/home/u/Downloads/f.bin",
   Action.finished (some "https://b.example/f.bin") NetworkError.NoError,
   Action.finished (some "https://c.example/f.bin") NetworkError.NoError,
   Action.finished (some "https://d.example/f.bin") NetworkError.NoError,
   Action.finished (some "https://e.example/f.bin") NetworkError.NoError,
   Action.finished (some "https://f.example/f.bin") NetworkError.NoError]

/-! ## The size cap: invariant and sample storage -/

/-- A chunk delivered by the transport is shorter than 2^62 bytes. -/
def ChunkBounded : Action → Prop
  | Action.readyRead data => (data.length : Int) < 2 ^ 62
  | _ => True

/-- The length, 2^62 bytes, below which files and chunks are taken to stay. -/
def wideBound : Int := 2 ^ 62

/-- The storage invariant behind the size cap and behind the order of start offset and
counter: no file on the disk is longer than 2^62 bytes, an active engine has its file
open, and while the file is open the counter is not negative and not above the length of
the file, and falls short of it only when the device is full. -/
def WideInv (s : DownloadItem) : Prop :=
  (∀ p c, s.disk p = some c → (c.length : Int) ≤ wideBound) ∧
  (s.reply_.isSome = true → s.fileOpen = true) ∧
  (s.fileOpen = true → ∃ c, s.disk s.fileName = some c ∧ 0 ≤ s.downloaded_ ∧
      s.downloaded_ ≤ (c.length : Int) ∧
      (s.downloaded_ = (c.length : Int) ∨ s.deviceLimit ≤ c.length))

/-- A file of one byte more than the cap. -/
def oversize : QByteArray := List.replicate (2 ^ 30 + 1) 0

/-- An engine as constructed on a disk that already holds `/home/u/big.bin`, one byte
larger than the cap, with a well-formed record naming that file. -/
def oversizeHome : DownloadItem :=
  fresh (fun p => if p = "/home/u/big.bin" then some oversize else none) (fun _ => true)
    (2 ^ 40)
    (StateFile.object (JsonValue.string "https://a.example/big.bin")
      (JsonValue.string "/home/u/big.bin") (JsonValue.number 0))
    true "/home/u" "/home/u/Downloads" (fun u => u != "") (fun _ target => target)

/-- A download of three bytes under way. -/
def threeBytes : List Action :=
  [Action.startNew "https://a.example/f.bin" "/home/u/Downloads/f.bin",
   Action.readyRead [1, 2, 3]]

/-! ## Sample runs with a resumed download -/

/-- A download paused after three bytes. -/
def pausedAtThree : List Action :=
  [Action.startNew "https://a.example/f.bin" "/home/u/Downloads/f.bin",
   Action.readyRead [1, 2, 3],
   Action.pause,
   Action.errorOccurred NetworkError.OperationCanceledError "Operation canceled",
   Action.finished none NetworkError.OperationCanceledError]

/-- The engine after that download has been resumed. -/
def resumedAtThree : DownloadItem := run (pausedAtThree ++ [Action.resumeFromSaved]) emptyHome

/-! ## The path policy in the words of the specification -/

/-- The components of a path: its non-empty segments between separators. -/
def components (p : String) : List (List Char) :=
  (splitSlash p.data).filter (fun seg => !seg.isEmpty)

/-- The path validation policy in the words of the specification: after canonicalizing,
the path is equal to the directory or nested under it, component by component. -/
def nestedUnder (dir path : String) : Bool :=
  (components (cleanPath dir)).isPrefixOf (components (cleanPath path))

/-- An engine whose record file names a path outside the home directory. -/
def strayRecord : DownloadItem :=
  { emptyHome with
    stateFile := StateFile.object (JsonValue.string "https://a.example/f.bin")
      (JsonValue.string "/etc/passwd") (JsonValue.number 7) }

/-! ## Sample run resumed after one byte -/

/-- A download paused after one byte. -/
def pausedAtOne : List Action :=
  [Action.startNew "https://a.example/f.bin" "/home/u/Downloads/f.bin",
   Action.readyRead [1],
   Action.pause,
   Action.errorOccurred NetworkError.OperationCanceledError "Operation canceled",
   Action.finished none NetworkError.OperationCanceledError]

/-- The engine after that download has been resumed: the start offset is 1. -/
def resumedAtOne : DownloadItem := run (pausedAtOne ++ [Action.resumeFromSaved]) emptyHome

/-! ## Sample runs with a rejected download -/

/-- A download rejected for its declared length; the cancellation has not arrived yet. -/
def rejectedByLength : List Action :=
  [Action.startNew "https://a.example/f.bin" "/home/u/Downloads/f.bin",
   Action.metaDataChanged 200 (some 2147483648)]

/-- The cancellation that follows an abort: the error event, then the completion. -/
def cancellation : List Action :=
  [Action.errorOccurred NetworkError.OperationCanceledError "Operation canceled",
   Action.finished none NetworkError.OperationCanceledError]

/-! ## Downloads without data, and a redirect after data -/

/-- An action that can raise the downloaded counter: a data event or a resume. -/
def movesCounter : Action → Bool
  | Action.readyRead _ => true
  | Action.resumeFromSaved => true
  | _ => false

/-- The invariant of a download in which no data has been written: the counter is zero
and no request sent so far carries a Range header. -/
def NoRangeInv (s : DownloadItem) : Prop :=
  s.downloaded_ = 0 ∧ ∀ r ∈ s.sent, r.range = none

/-- A download begun by `startNew` that writes three bytes and is then redirected. -/
def redirectAfterData : List Action :=
  [Action.startNew "https://a.example/f.bin" "/home/u/Downloads/f.bin",
   Action.readyRead [1, 2, 3],
   Action.finished (some "https://b.example/f.bin") NetworkError.NoError]

/-! ## The order of start offset and counter -/

/-- The order of start offset and counter: the start offset is at most the counter
whenever the engine is active or every path can be opened. -/
def OffsetInv (s : DownloadItem) : Prop :=
  (s.reply_.isSome = true ∨ ∀ p, s.openable p = true) → s.startOffset_ ≤ s.downloaded_

/-- An engine as constructed on an empty disk where `/home/u/locked.bin` cannot be opened
for writing. -/
def lockedHome : DownloadItem :=
  fresh (fun _ => none) (fun p => p != "/home/u/locked.bin") (2 ^ 40) StateFile.missing true
    "/home/u" "/home/u/Downloads" (fun u => u != "") (fun _ target => target)

/-- A download is paused after three bytes and resumed, then a new download is started
whose destination cannot be opened. -/
def startAfterResumeFails : List Action :=
  pausedAtThree ++ [Action.resumeFromSaved,
    Action.startNew "https://a.example/g.bin" "/home/u/locked.bin"]

/-! ## Policy rejections and their report -/

/-- Whether a signal is a failure event, `downloadFailed`. -/
def isFailure : Signal → Bool
  | Signal.downloadFailed _ => true
  | _ => false

/-- The number of failure events among the signals emitted. -/
def failures (signals : List Signal) : Nat := signals.countP isFailure

/-- The conditions under which a connection event makes the engine abort its own
connection for the size policy: a data event whose chunk fails `checkSizeLimit`, or a
metadata event whose Content-Length, added to the start offset in force after the reset
for status 200, exceeds the cap. -/
def Rejects : Action → DownloadItem → Prop
  | Action.readyRead data, s =>
      s.fileOpen = true ∧ data ≠ [] ∧ kMaxDownloadBytes < add64 s.downloaded_ (data.length : Int)
  | Action.metaDataChanged status (some declared), s =>
      kMaxDownloadBytes <
        add64 (if status = 200 ∧ s.startOffset_ > 0 then 0 else s.startOffset_) declared
  | _, _ => False

/-- A download whose first response is a redirect that declares 2 GiB: the metadata
event makes the engine abort its connection. -/
def oversizeRedirect : List Action :=
  [Action.startNew "https://a.example/f.bin" "/home/u/Downloads/f.bin",
   Action.metaDataChanged 302 (some 2147483648)]

/-- The cancellation that follows the abort when the completion carries the redirect
target of the response: the error event, then the completion. -/
def cancellationWithTarget : List Action :=
  [Action.errorOccurred NetworkError.OperationCanceledError "Operation canceled",
   Action.finished (some "https://g.example/f.bin") NetworkError.OperationCanceledError]

/-- The same redirect response after five redirects have been followed. -/
def oversizeSixthRedirect : List Action :=
  fiveRedirects ++ [Action.metaDataChanged 302 (some 2147483648)]

/-! ## A home directory that is the root -/

/-- An engine whose home directory is the root of the file system and whose platform
reports no downloads location, with a record file that names `/data/f.bin`. -/
def rootHomeRecord : DownloadItem :=
  fresh (fun _ => none) (fun _ => true) (2 ^ 40)
    (StateFile.object (JsonValue.string "https://a.example/f.bin")
      (JsonValue.string "/data/f.bin") (JsonValue.number 7))
    true "/" "" (fun u => u != "") (fun _ target => target)

/-! ## The events of a partial response -/

/-- The chunks that the data events of a run deliver, in order. -/
def chunksOf : List Action → List QByteArray
  | [] => []
  | Action.readyRead data :: rest => data :: chunksOf rest
  | _ :: rest => chunksOf rest

/-- An event of a partial response to a request for the bytes from `offset` on: a data
event, a progress notification, a tick of the speed timer, or a metadata event whose
status is not 200 and whose Content-Length, when there is one, is not negative and keeps
the total `offset + length` within the cap. -/
def PartialResponseEvent (offset : Int) : Action → Prop
  | Action.readyRead _ => True
  | Action.downloadProgress _ _ => True
  | Action.timeout => True
  | Action.metaDataChanged status len =>
      status ≠ 200 ∧ ∀ declared, len = some declared →
        0 ≤ declared ∧ offset + declared ≤ kMaxDownloadBytes
  | _ => False

/-! ## A pause during a redirect response -/

/-- A pause while the response to the first request, a redirect, is being received. -/
def pauseDuringRedirect : List Action :=
  [Action.startNew "https://a.example/f.bin" "/home/u/Downloads/f.bin",
   Action.metaDataChanged 302 none,
   Action.pause]

/-- A pause while the response to the request of the fifth redirect, again a redirect,
is being received. -/
def pauseDuringSixthRedirect : List Action :=
  fiveRedirects ++ [Action.metaDataChanged 302 none, Action.pause]

/-! ## Downloads that fail after three bytes -/

/-- An engine as constructed on an empty disk when the home directory is the root of
the file system and the platform reports no downloads location. -/
def rootHome : DownloadItem :=
  fresh (fun _ => none) (fun _ => true) (2 ^ 40) StateFile.missing true "/" ""
    (fun u => u != "") (fun _ target => target)

/-- A download to a given destination that streams three bytes and then fails with a
refused connection. -/
def failsAfterThree (dest : String) : List Action :=
  [Action.startNew "https://a.example/f.bin" dest, Action.readyRead [1, 2, 3],
   Action.errorOccurred NetworkError.ConnectionRefusedError "Connection refused"]

/-! ## A redirect response with a body -/

/-- A download whose first response is a redirect with a body of three bytes, followed
at the target by a partial response of two bytes that completes without error. -/
def redirectBodyThenPartial : List Action :=
  [Action.startNew "https://a.example/f.bin" "/home/u/Downloads/f.bin",
   Action.metaDataChanged 302 (some 3),
   Action.readyRead [60, 104, 62],
   Action.finished (some "https://b.example/f.bin") NetworkError.NoError,
   Action.metaDataChanged 206 (some 2),
   Action.readyRead [9, 9],
   Action.finished none NetworkError.NoError]

/-! # Theorems -/

set_option maxRecDepth 20000

/-! ## Frame lemmas: the fields after each elementary operation -/

/-- The fields after `emit`. -/
@[simp] theorem emit_frame (sig : Signal) (s : DownloadItem) :
    (emit sig s).reply_ = s.reply_ ∧
    (emit sig s).fileOpen = s.fileOpen ∧
    (emit sig s).fileName = s.fileName ∧
    (emit sig s).url_ = s.url_ ∧
    (emit sig s).targetPath_ = s.targetPath_ ∧
    (emit sig s).downloaded_ = s.downloaded_ ∧
    (emit sig s).startOffset_ = s.startOffset_ ∧
    (emit sig s).totalBytes_ = s.totalBytes_ ∧
    (emit sig s).paused_ = s.paused_ ∧
    (emit sig s).redirectCount_ = s.redirectCount_ ∧
    (emit sig s).suppressErrors_ = s.suppressErrors_ ∧
    (emit sig s).timerRunning = s.timerRunning ∧
    (emit sig s).bytesThisSecond_ = s.bytesThisSecond_ ∧
    (emit sig s).disk = s.disk ∧
    (emit sig s).openable = s.openable ∧
    (emit sig s).deviceLimit = s.deviceLimit ∧
    (emit sig s).stateFile = s.stateFile ∧
    (emit sig s).configWritable = s.configWritable ∧
    (emit sig s).homePath = s.homePath ∧
    (emit sig s).downloadLocation = s.downloadLocation ∧
    (emit sig s).urlValid = s.urlValid ∧
    (emit sig s).resolved = s.resolved ∧
    (emit sig s).signals = s.signals ++ [sig] ∧
    (emit sig s).sent = s.sent := by
  simp [emit]

/-- The fields after `abort`. -/
@[simp] theorem abort_frame (s : DownloadItem) :
    (abort s).reply_ = s.reply_.map (fun r => QNetworkReply.mk r.request true) ∧
    (abort s).fileOpen = s.fileOpen ∧
    (abort s).fileName = s.fileName ∧
    (abort s).url_ = s.url_ ∧
    (abort s).targetPath_ = s.targetPath_ ∧
    (abort s).downloaded_ = s.downloaded_ ∧
    (abort s).startOffset_ = s.startOffset_ ∧
    (abort s).totalBytes_ = s.totalBytes_ ∧
    (abort s).paused_ = s.paused_ ∧
    (abort s).redirectCount_ = s.redirectCount_ ∧
    (abort s).suppressErrors_ = s.suppressErrors_ ∧
    (abort s).timerRunning = s.timerRunning ∧
    (abort s).bytesThisSecond_ = s.bytesThisSecond_ ∧
    (abort s).disk = s.disk ∧
    (abort s).openable = s.openable ∧
    (abort s).deviceLimit = s.deviceLimit ∧
    (abort s).stateFile = s.stateFile ∧
    (abort s).configWritable = s.configWritable ∧
    (abort s).homePath = s.homePath ∧
    (abort s).downloadLocation = s.downloadLocation ∧
    (abort s).urlValid = s.urlValid ∧
    (abort s).resolved = s.resolved ∧
    (abort s).signals = s.signals ∧
    (abort s).sent = s.sent := by
  simp [abort]

/-- The fields after `resetReply`. -/
@[simp] theorem resetReply_frame (s : DownloadItem) :
    (resetReply s).reply_ = none ∧
    (resetReply s).fileOpen = s.fileOpen ∧
    (resetReply s).fileName = s.fileName ∧
    (resetReply s).url_ = s.url_ ∧
    (resetReply s).targetPath_ = s.targetPath_ ∧
    (resetReply s).downloaded_ = s.downloaded_ ∧
    (resetReply s).startOffset_ = s.startOffset_ ∧
    (resetReply s).totalBytes_ = s.totalBytes_ ∧
    (resetReply s).paused_ = s.paused_ ∧
    (resetReply s).redirectCount_ = s.redirectCount_ ∧
    (resetReply s).suppressErrors_ = false ∧
    (resetReply s).timerRunning = s.timerRunning ∧
    (resetReply s).bytesThisSecond_ = s.bytesThisSecond_ ∧
    (resetReply s).disk = s.disk ∧
    (resetReply s).openable = s.openable ∧
    (resetReply s).deviceLimit = s.deviceLimit ∧
    (resetReply s).stateFile = s.stateFile ∧
    (resetReply s).configWritable = s.configWritable ∧
    (resetReply s).homePath = s.homePath ∧
    (resetReply s).downloadLocation = s.downloadLocation ∧
    (resetReply s).urlValid = s.urlValid ∧
    (resetReply s).resolved = s.resolved ∧
    (resetReply s).signals = s.signals ∧
    (resetReply s).sent = s.sent := by
  simp [resetReply]

/-- The fields after `clearSavedState`. -/
@[simp] theorem clearSavedState_frame (s : DownloadItem) :
    (clearSavedState s).reply_ = s.reply_ ∧
    (clearSavedState s).fileOpen = s.fileOpen ∧
    (clearSavedState s).fileName = s.fileName ∧
    (clearSavedState s).url_ = s.url_ ∧
    (clearSavedState s).targetPath_ = s.targetPath_ ∧
    (clearSavedState s).downloaded_ = s.downloaded_ ∧
    (clearSavedState s).startOffset_ = s.startOffset_ ∧
    (clearSavedState s).totalBytes_ = s.totalBytes_ ∧
    (clearSavedState s).paused_ = s.paused_ ∧
    (clearSavedState s).redirectCount_ = s.redirectCount_ ∧
    (clearSavedState s).suppressErrors_ = s.suppressErrors_ ∧
    (clearSavedState s).timerRunning = s.timerRunning ∧
    (clearSavedState s).bytesThisSecond_ = s.bytesThisSecond_ ∧
    (clearSavedState s).disk = s.disk ∧
    (clearSavedState s).openable = s.openable ∧
    (clearSavedState s).deviceLimit = s.deviceLimit ∧
    (clearSavedState s).stateFile = StateFile.missing ∧
    (clearSavedState s).configWritable = s.configWritable ∧
    (clearSavedState s).homePath = s.homePath ∧
    (clearSavedState s).downloadLocation = s.downloadLocation ∧
    (clearSavedState s).urlValid = s.urlValid ∧
    (clearSavedState s).resolved = s.resolved ∧
    (clearSavedState s).signals = s.signals ∧
    (clearSavedState s).sent = s.sent := by
  simp [clearSavedState]

/-- The fields after `persistResumeData`. -/
@[simp] theorem persistResumeData_frame (s : DownloadItem) :
    (persistResumeData s).reply_ = s.reply_ ∧
    (persistResumeData s).fileOpen = s.fileOpen ∧
    (persistResumeData s).fileName = s.fileName ∧
    (persistResumeData s).url_ = s.url_ ∧
    (persistResumeData s).targetPath_ = s.targetPath_ ∧
    (persistResumeData s).downloaded_ = s.downloaded_ ∧
    (persistResumeData s).startOffset_ = s.startOffset_ ∧
    (persistResumeData s).totalBytes_ = s.totalBytes_ ∧
    (persistResumeData s).paused_ = s.paused_ ∧
    (persistResumeData s).redirectCount_ = s.redirectCount_ ∧
    (persistResumeData s).suppressErrors_ = s.suppressErrors_ ∧
    (persistResumeData s).timerRunning = s.timerRunning ∧
    (persistResumeData s).bytesThisSecond_ = s.bytesThisSecond_ ∧
    (persistResumeData s).disk = s.disk ∧
    (persistResumeData s).openable = s.openable ∧
    (persistResumeData s).deviceLimit = s.deviceLimit ∧
    (persistResumeData s).stateFile = (if s.configWritable = true then StateFile.object
      (JsonValue.string s.url_) (JsonValue.string s.targetPath_) (JsonValue.number (toDouble
      s.downloaded_)) else s.stateFile) ∧
    (persistResumeData s).configWritable = s.configWritable ∧
    (persistResumeData s).homePath = s.homePath ∧
    (persistResumeData s).downloadLocation = s.downloadLocation ∧
    (persistResumeData s).urlValid = s.urlValid ∧
    (persistResumeData s).resolved = s.resolved ∧
    (persistResumeData s).signals = s.signals ∧
    (persistResumeData s).sent = s.sent := by
  unfold persistResumeData; split_ifs <;> simp_all

/-- The fields after `closeFile`. -/
@[simp] theorem closeFile_frame (s : DownloadItem) :
    (closeFile s).reply_ = s.reply_ ∧
    (closeFile s).fileOpen = false ∧
    (closeFile s).fileName = s.fileName ∧
    (closeFile s).url_ = s.url_ ∧
    (closeFile s).targetPath_ = s.targetPath_ ∧
    (closeFile s).downloaded_ = s.downloaded_ ∧
    (closeFile s).startOffset_ = s.startOffset_ ∧
    (closeFile s).totalBytes_ = s.totalBytes_ ∧
    (closeFile s).paused_ = s.paused_ ∧
    (closeFile s).redirectCount_ = s.redirectCount_ ∧
    (closeFile s).suppressErrors_ = s.suppressErrors_ ∧
    (closeFile s).timerRunning = s.timerRunning ∧
    (closeFile s).bytesThisSecond_ = s.bytesThisSecond_ ∧
    (closeFile s).disk = s.disk ∧
    (closeFile s).openable = s.openable ∧
    (closeFile s).deviceLimit = s.deviceLimit ∧
    (closeFile s).stateFile = s.stateFile ∧
    (closeFile s).configWritable = s.configWritable ∧
    (closeFile s).homePath = s.homePath ∧
    (closeFile s).downloadLocation = s.downloadLocation ∧
    (closeFile s).urlValid = s.urlValid ∧
    (closeFile s).resolved = s.resolved ∧
    (closeFile s).signals = s.signals ∧
    (closeFile s).sent = s.sent := by
  unfold closeFile; split_ifs <;> simp_all

/-- The fields after `writeFile`. -/
@[simp] theorem writeFile_frame (data : QByteArray) (s : DownloadItem) :
    (writeFile data s).1.reply_ = s.reply_ ∧
    (writeFile data s).1.fileOpen = s.fileOpen ∧
    (writeFile data s).1.fileName = s.fileName ∧
    (writeFile data s).1.url_ = s.url_ ∧
    (writeFile data s).1.targetPath_ = s.targetPath_ ∧
    (writeFile data s).1.downloaded_ = s.downloaded_ ∧
    (writeFile data s).1.startOffset_ = s.startOffset_ ∧
    (writeFile data s).1.totalBytes_ = s.totalBytes_ ∧
    (writeFile data s).1.paused_ = s.paused_ ∧
    (writeFile data s).1.redirectCount_ = s.redirectCount_ ∧
    (writeFile data s).1.suppressErrors_ = s.suppressErrors_ ∧
    (writeFile data s).1.timerRunning = s.timerRunning ∧
    (writeFile data s).1.bytesThisSecond_ = s.bytesThisSecond_ ∧
    (writeFile data s).1.disk = setFile s.disk s.fileName ((s.disk s.fileName).getD [] ++
      data.take (s.deviceLimit - ((s.disk s.fileName).getD []).length)) ∧
    (writeFile data s).1.openable = s.openable ∧
    (writeFile data s).1.deviceLimit = s.deviceLimit ∧
    (writeFile data s).1.stateFile = s.stateFile ∧
    (writeFile data s).1.configWritable = s.configWritable ∧
    (writeFile data s).1.homePath = s.homePath ∧
    (writeFile data s).1.downloadLocation = s.downloadLocation ∧
    (writeFile data s).1.urlValid = s.urlValid ∧
    (writeFile data s).1.resolved = s.resolved ∧
    (writeFile data s).1.signals = s.signals ∧
    (writeFile data s).1.sent = s.sent := by
  simp [writeFile]

/-- The fields after `openFile`. -/
@[simp] theorem openFile_frame (truncate : Bool) (s : DownloadItem) :
    (openFile truncate s).2.reply_ = s.reply_ ∧
    (openFile truncate s).2.fileOpen = s.openable s.targetPath_ ∧
    (openFile truncate s).2.fileName = s.targetPath_ ∧
    (openFile truncate s).2.url_ = s.url_ ∧
    (openFile truncate s).2.targetPath_ = s.targetPath_ ∧
    (openFile truncate s).2.downloaded_ = (if s.openable s.targetPath_ = true then (if truncate
      = false ∧ s.downloaded_ > 0 then s.downloaded_ else 0) else s.downloaded_) ∧
    (openFile truncate s).2.startOffset_ = s.startOffset_ ∧
    (openFile truncate s).2.totalBytes_ = s.totalBytes_ ∧
    (openFile truncate s).2.paused_ = s.paused_ ∧
    (openFile truncate s).2.redirectCount_ = s.redirectCount_ ∧
    (openFile truncate s).2.suppressErrors_ = s.suppressErrors_ ∧
    (openFile truncate s).2.timerRunning = s.timerRunning ∧
    (openFile truncate s).2.bytesThisSecond_ = s.bytesThisSecond_ ∧
    (openFile truncate s).2.disk = (if s.openable s.targetPath_ = true then setFile s.disk
      s.targetPath_ (if truncate = true then [] else (s.disk s.targetPath_).getD []) else
      s.disk) ∧
    (openFile truncate s).2.openable = s.openable ∧
    (openFile truncate s).2.deviceLimit = s.deviceLimit ∧
    (openFile truncate s).2.stateFile = s.stateFile ∧
    (openFile truncate s).2.configWritable = s.configWritable ∧
    (openFile truncate s).2.homePath = s.homePath ∧
    (openFile truncate s).2.downloadLocation = s.downloadLocation ∧
    (openFile truncate s).2.urlValid = s.urlValid ∧
    (openFile truncate s).2.resolved = s.resolved ∧
    (openFile truncate s).2.signals = s.signals ∧
    (openFile truncate s).2.sent = s.sent := by
  unfold openFile
  by_cases h1 : s.fileOpen = true <;> by_cases h2 : s.openable s.targetPath_ = true <;>
    by_cases h3 : 0 < s.downloaded_ <;> cases truncate <;> simp [h1, h2, h3]

/-- The fields after `startRequest`. -/
@[simp] theorem startRequest_frame (s : DownloadItem) :
    (startRequest s).reply_ = (if s.fileOpen = true then some (QNetworkReply.mk (buildRequest
      s) false) else s.reply_) ∧
    (startRequest s).fileOpen = s.fileOpen ∧
    (startRequest s).fileName = s.fileName ∧
    (startRequest s).url_ = s.url_ ∧
    (startRequest s).targetPath_ = s.targetPath_ ∧
    (startRequest s).downloaded_ = s.downloaded_ ∧
    (startRequest s).startOffset_ = (if s.fileOpen = true then s.downloaded_ else
      s.startOffset_) ∧
    (startRequest s).totalBytes_ = s.totalBytes_ ∧
    (startRequest s).paused_ = (if s.fileOpen = true then false else s.paused_) ∧
    (startRequest s).redirectCount_ = s.redirectCount_ ∧
    (startRequest s).suppressErrors_ = (if s.fileOpen = true then false else s.suppressErrors_) ∧
    (startRequest s).timerRunning = (if s.fileOpen = true then true else s.timerRunning) ∧
    (startRequest s).bytesThisSecond_ = (if s.fileOpen = true then 0 else s.bytesThisSecond_) ∧
    (startRequest s).disk = s.disk ∧
    (startRequest s).openable = s.openable ∧
    (startRequest s).deviceLimit = s.deviceLimit ∧
    (startRequest s).stateFile = s.stateFile ∧
    (startRequest s).configWritable = s.configWritable ∧
    (startRequest s).homePath = s.homePath ∧
    (startRequest s).downloadLocation = s.downloadLocation ∧
    (startRequest s).urlValid = s.urlValid ∧
    (startRequest s).resolved = s.resolved ∧
    (startRequest s).signals = (if s.fileOpen = true then s.signals else s.signals ++
      [Signal.downloadFailed "File is not open."]) ∧
    (startRequest s).sent = (if s.fileOpen = true then s.sent ++ [buildRequest s] else s.sent) := by
  unfold startRequest
  by_cases h : s.fileOpen = true <;> simp [h, emit, buildRequest]

/-- The fields after `checkSizeLimit`. -/
@[simp] theorem checkSizeLimit_frame (n : Int) (s : DownloadItem) :
    (checkSizeLimit n s).2.reply_ = (if kMaxDownloadBytes < add64 s.downloaded_ n then
      s.reply_.map (fun r => QNetworkReply.mk r.request true) else s.reply_) ∧
    (checkSizeLimit n s).2.fileOpen = s.fileOpen ∧
    (checkSizeLimit n s).2.fileName = s.fileName ∧
    (checkSizeLimit n s).2.url_ = s.url_ ∧
    (checkSizeLimit n s).2.targetPath_ = s.targetPath_ ∧
    (checkSizeLimit n s).2.downloaded_ = s.downloaded_ ∧
    (checkSizeLimit n s).2.startOffset_ = s.startOffset_ ∧
    (checkSizeLimit n s).2.totalBytes_ = s.totalBytes_ ∧
    (checkSizeLimit n s).2.paused_ = s.paused_ ∧
    (checkSizeLimit n s).2.redirectCount_ = s.redirectCount_ ∧
    (checkSizeLimit n s).2.suppressErrors_ = (if kMaxDownloadBytes < add64 s.downloaded_ n ∧
      s.reply_.isSome = true then true else s.suppressErrors_) ∧
    (checkSizeLimit n s).2.timerRunning = s.timerRunning ∧
    (checkSizeLimit n s).2.bytesThisSecond_ = s.bytesThisSecond_ ∧
    (checkSizeLimit n s).2.disk = s.disk ∧
    (checkSizeLimit n s).2.openable = s.openable ∧
    (checkSizeLimit n s).2.deviceLimit = s.deviceLimit ∧
    (checkSizeLimit n s).2.stateFile = s.stateFile ∧
    (checkSizeLimit n s).2.configWritable = s.configWritable ∧
    (checkSizeLimit n s).2.homePath = s.homePath ∧
    (checkSizeLimit n s).2.downloadLocation = s.downloadLocation ∧
    (checkSizeLimit n s).2.urlValid = s.urlValid ∧
    (checkSizeLimit n s).2.resolved = s.resolved ∧
    (checkSizeLimit n s).2.signals = (if kMaxDownloadBytes < add64 s.downloaded_ n then
      s.signals ++ [Signal.statusTextChanged "Aborted: file too large", Signal.downloadFailed
      "Exceeded maximum download size"] else s.signals) ∧
    (checkSizeLimit n s).2.sent = s.sent := by
  have hk : ¬ kMaxDownloadBytes ≤ 0 := by decide
  by_cases h : kMaxDownloadBytes < add64 s.downloaded_ n <;> cases hr : s.reply_ <;>
    simp [checkSizeLimit, hk, h, hr, emit, abort]

/-- The result of `openFile`. -/
@[simp] theorem openFile_fst (truncate : Bool) (s : DownloadItem) :
    (openFile truncate s).1 = s.openable s.targetPath_ := by
  unfold openFile
  by_cases h1 : s.fileOpen = true <;> by_cases h2 : s.openable s.targetPath_ = true <;>
    by_cases h3 : 0 < s.downloaded_ <;> cases truncate <;> simp [h1, h2, h3]

/-- The result of `checkSizeLimit`. -/
@[simp] theorem checkSizeLimit_fst (n : Int) (s : DownloadItem) :
    (checkSizeLimit n s).1 = decide (add64 s.downloaded_ n ≤ kMaxDownloadBytes) := by
  have hk : ¬ kMaxDownloadBytes ≤ 0 := by decide
  by_cases h : kMaxDownloadBytes < add64 s.downloaded_ n
  · simp [checkSizeLimit, hk, h]
  · simp [checkSizeLimit, hk, h, not_lt.mp h]

/-- The count returned by `writeFile`. -/
@[simp] theorem writeFile_snd (data : QByteArray) (s : DownloadItem) :
    (writeFile data s).2 =
      ((data.take (s.deviceLimit - ((s.disk s.fileName).getD []).length)).length : Int) := by
  simp [writeFile]

/-! ## C1: the redirect limit -/

theorem redirectInv_fresh (disk : String → Option QByteArray) (openable : String → Bool)
    (deviceLimit : Nat) (stateFile : StateFile) (configWritable : Bool)
    (homePath downloadLocation : String) (urlValid : String → Bool)
    (resolved : String → String → String) :
    RedirectInv (fresh disk openable deviceLimit stateFile configWritable homePath
      downloadLocation urlValid resolved) := by
  simp [RedirectInv, fresh, kMaxRedirects]

theorem redirectInv_pause (s : DownloadItem) (h : RedirectInv s) : RedirectInv (pause s) := by
  unfold RedirectInv at *
  simp only [pause]
  split_ifs with hr
  · exact h
  · simpa using h

theorem redirectInv_startNew (u p : String) (s : DownloadItem) :
    RedirectInv (startNew u p s) := by
  unfold RedirectInv
  simp only [startNew]
  split_ifs with ho <;> simp_all [kMaxRedirects]

theorem redirectInv_resume (s : DownloadItem) (h : RedirectInv s) :
    RedirectInv (resumeFromSaved s) := by
  unfold RedirectInv at *
  simp only [resumeFromSaved]
  split_ifs with hv ho <;> simp_all [kMaxRedirects]

theorem redirectInv_readyRead (d : QByteArray) (s : DownloadItem) (h : RedirectInv s) :
    RedirectInv (handleReadyRead d s) := by
  unfold RedirectInv at *
  simp only [handleReadyRead, pause]
  split_ifs <;> simp_all

theorem redirectInv_finished (t : Option String) (e : NetworkError) (s : DownloadItem)
    (h : RedirectInv s) : RedirectInv (handleFinished t e s) := by
  unfold RedirectInv at *
  cases t with
  | none =>
    simp only [handleFinished]
    split_ifs <;> simp_all
  | some target =>
    simp only [handleFinished]
    split_ifs with h1 h2
    · simpa using h
    · simpa using h.1
    · have h3 : s.redirectCount_ < kMaxRedirects := by simpa using h2
      have h4 : s.redirectCount_ + 1 ≤ kMaxRedirects := by omega
      simp [h4]

theorem redirectInv_error (e : NetworkError) (t : String) (s : DownloadItem)
    (h : RedirectInv s) : RedirectInv (handleError e t s) := by
  unfold RedirectInv at *
  simp only [handleError]
  split_ifs <;> simp_all

theorem redirectInv_ssl (errs : List String) (s : DownloadItem)
    (h : RedirectInv s) : RedirectInv (handleSslErrors errs s) := by
  unfold RedirectInv at *
  simp only [handleSslErrors]
  split_ifs <;> simp_all

theorem redirectInv_meta (st : Int) (len : Option Int) (s : DownloadItem)
    (h : RedirectInv s) : RedirectInv (handleMetaDataChanged st len s) := by
  unfold RedirectInv at *
  cases len <;> simp only [handleMetaDataChanged] <;> split_ifs <;> simp_all

theorem redirectInv_step (a : Action) (s : DownloadItem) (h : RedirectInv s) :
    RedirectInv (step a s) := by
  cases a with
  | startNew u p => exact redirectInv_startNew u p s
  | resumeFromSaved => exact redirectInv_resume s h
  | pause => exact redirectInv_pause s h
  | clearSavedState => simpa [step, RedirectInv] using h
  | readyRead d => simp only [step]; split_ifs; exacts [redirectInv_readyRead d s h, h]
  | downloadProgress r t =>
    simp only [step]; split_ifs
    · simpa [RedirectInv, handleDownloadProgress] using h
    · exact h
  | metaDataChanged st len => simp only [step]; split_ifs; exacts [redirectInv_meta st len s h, h]
  | finished t e => simp only [step]; split_ifs; exacts [redirectInv_finished t e s h, h]
  | errorOccurred e t => simp only [step]; split_ifs; exacts [redirectInv_error e t s h, h]
  | sslErrors errs => simp only [step]; split_ifs; exacts [redirectInv_ssl errs s h, h]
  | timeout =>
    simp only [step]; split_ifs
    · simpa [RedirectInv, updateSpeed] using h
    · exact h

theorem redirectInv_run (actions : List Action) (s : DownloadItem) (h : RedirectInv s) :
    RedirectInv (run actions s) := by
  induction actions generalizing s with
  | nil => exact h
  | cons a rest ih => exact ih (step a s) (redirectInv_step a s h)

/-- C1. In every run of the engine from its constructed state, over any storage and any
sequence of operations and connection events, the redirect count is at most 5.  When a
completion carrying a redirect target reaches an active engine whose count is 5,
`handleFinished` emits the status text, the failure "Redirect limit reached" and a zero
rate, sends no request and leaves the engine inactive with the count unchanged; when the
count is below 5 it raises the count by one, emits no signal and sends exactly one
request, for the target resolved against the current url, and stays active. -/
theorem redirect_limit_enforced (disk : String → Option QByteArray) (openable : String → Bool)
    (deviceLimit : Nat) (stateFile : StateFile) (configWritable : Bool)
    (homePath downloadLocation : String) (urlValid : String → Bool)
    (resolved : String → String → String) (actions : List Action)
    (target : String) (error : NetworkError) :
    (run actions (fresh disk openable deviceLimit stateFile configWritable homePath
        downloadLocation urlValid resolved)).redirectCount_ ≤ 5 ∧
    ∀ s : DownloadItem,
      s = run actions (fresh disk openable deviceLimit stateFile configWritable homePath
        downloadLocation urlValid resolved) →
      isActive s = true →
      (s.redirectCount_ = 5 →
        (handleFinished (some target) error s).signals =
            s.signals ++ [Signal.statusTextChanged "Error: too many redirects",
              Signal.downloadFailed "Redirect limit reached", Signal.speedUpdated 0] ∧
          (handleFinished (some target) error s).sent = s.sent ∧
          isActive (handleFinished (some target) error s) = false ∧
          (handleFinished (some target) error s).redirectCount_ = 5) ∧
      (s.redirectCount_ < 5 →
        (handleFinished (some target) error s).redirectCount_ = s.redirectCount_ + 1 ∧
          (handleFinished (some target) error s).signals = s.signals ∧
          (∃ request : QNetworkRequest,
            (handleFinished (some target) error s).sent = s.sent ++ [request] ∧
            request.url = s.resolved s.url_ target) ∧
          isActive (handleFinished (some target) error s) = true) := by
  have hinv := redirectInv_run actions _ (redirectInv_fresh disk openable deviceLimit stateFile
    configWritable homePath downloadLocation urlValid resolved)
  refine ⟨hinv.1, ?_⟩
  intro s hs hact
  subst hs
  have hopen := hinv.2 hact
  have hsome : ¬ (run actions (fresh disk openable deviceLimit stateFile configWritable homePath
        downloadLocation urlValid resolved)).reply_.isNone = true := by
    simp only [isActive] at hact
    simp [Option.isNone_iff_eq_none, Option.isSome_iff_ne_none.mp hact]
  constructor
  · intro h5
    simp only [handleFinished]
    simp [hsome, h5, kMaxRedirects, isActive]
  · intro hlt
    have hn : ¬ (run actions (fresh disk openable deviceLimit stateFile configWritable homePath
        downloadLocation urlValid resolved)).redirectCount_ ≥ kMaxRedirects := by
      simp only [kMaxRedirects]; omega
    simp only [handleFinished]
    simp [hsome, hn, hopen, isActive, buildRequest]

theorem redirect_limit_enforced_witness :
    isActive (run fiveRedirects emptyHome) = true ∧
    (run fiveRedirects emptyHome).redirectCount_ = 5 ∧
    isActive (handleFinished (some "https://g.example/f.bin") NetworkError.NoError
      (run fiveRedirects emptyHome)) = false :=
  ⟨by decide, by decide,
    (((redirect_limit_enforced (fun _ => none) (fun _ => true) (2 ^ 40) StateFile.missing true
      "/home/u" "/home/u/Downloads" (fun u => u != "") (fun _ target => target) fiveRedirects
      "https://g.example/f.bin" NetworkError.NoError).2 (run fiveRedirects emptyHome) rfl
      (by decide)).1 (by decide)).2.2.1⟩

/-! ## C2: the size cap -/

theorem wrap64_eq (x : Int) (h1 : -(2 : Int) ^ 63 ≤ x) (h2 : x < 2 ^ 63) : wrap64 x = x := by
  unfold wrap64; omega

theorem add64_eq (a b : Int) (h1 : -(2 : Int) ^ 63 ≤ a + b) (h2 : a + b < 2 ^ 63) :
    add64 a b = a + b := wrap64_eq _ h1 h2

/-- What `handleReadyRead` does with a chunk that the size check rejects. -/
theorem handleReadyRead_reject (data : QByteArray) (s : DownloadItem)
    (hr : s.reply_.isSome = true) (ho : s.fileOpen = true) (hd : data ≠ [])
    (hbig : kMaxDownloadBytes < add64 s.downloaded_ (data.length : Int)) :
    (handleReadyRead data s).disk = s.disk ∧
    (handleReadyRead data s).downloaded_ = s.downloaded_ ∧
    (handleReadyRead data s).signals =
      s.signals ++ [Signal.statusTextChanged "Aborted: file too large",
        Signal.downloadFailed "Exceeded maximum download size"] ∧
    (handleReadyRead data s).suppressErrors_ = true ∧
    (handleReadyRead data s).fileOpen = true ∧
    (handleReadyRead data s).fileName = s.fileName ∧
    (handleReadyRead data s).reply_ = s.reply_.map (fun r => QNetworkReply.mk r.request true) ∧
    (handleReadyRead data s).stateFile = s.stateFile := by
  have hn : ¬ add64 s.downloaded_ (data.length : Int) ≤ kMaxDownloadBytes := not_le.mpr hbig
  have hrn : ¬ s.reply_ = none := by
    intro h; simp [h] at hr
  simp only [handleReadyRead]
  simp [hr, hrn, ho, hd, hbig, hn]
  cases s.reply_ <;> rfl

/-- What `handleReadyRead` does with a chunk that passes the size check and that the
device stores in full. -/
theorem handleReadyRead_accept (data : QByteArray) (s : DownloadItem)
    (hr : s.reply_.isSome = true) (ho : s.fileOpen = true) (hd : data ≠ [])
    (hfit : add64 s.downloaded_ (data.length : Int) ≤ kMaxDownloadBytes)
    (hroom : ((s.disk s.fileName).getD []).length + data.length ≤ s.deviceLimit) :
    (handleReadyRead data s).disk =
      setFile s.disk s.fileName ((s.disk s.fileName).getD [] ++ data) ∧
    (handleReadyRead data s).downloaded_ = add64 s.downloaded_ (data.length : Int) ∧
    (handleReadyRead data s).signals = s.signals ∧
    (handleReadyRead data s).suppressErrors_ = s.suppressErrors_ ∧
    (handleReadyRead data s).fileOpen = true ∧
    (handleReadyRead data s).fileName = s.fileName ∧
    (handleReadyRead data s).reply_ = s.reply_ ∧
    (handleReadyRead data s).stateFile =
      (if s.configWritable = true then
        StateFile.object (JsonValue.string s.url_) (JsonValue.string s.targetPath_)
          (JsonValue.number (toDouble (add64 s.downloaded_ (data.length : Int))))
       else s.stateFile) := by
  have hlen : data.length ≤ s.deviceLimit - ((s.disk s.fileName).getD []).length := by omega
  have htake : List.take (s.deviceLimit - ((s.disk s.fileName).getD []).length) data = data :=
    List.take_of_length_le hlen
  have hnb : ¬ kMaxDownloadBytes < add64 s.downloaded_ (data.length : Int) := not_lt.mpr hfit
  have hrn : ¬ s.reply_ = none := by
    intro h; simp [h] at hr
  simp only [handleReadyRead]
  simp [hr, hrn, ho, hd, hfit, hnb, htake, hlen]

/-- What `handleReadyRead` does with a chunk that passes the size check and that the
device cuts short. -/
theorem handleReadyRead_short (data : QByteArray) (s : DownloadItem)
    (hr : s.reply_.isSome = true) (ho : s.fileOpen = true) (hd : data ≠ [])
    (hfit : add64 s.downloaded_ (data.length : Int) ≤ kMaxDownloadBytes)
    (hroom : s.deviceLimit < ((s.disk s.fileName).getD []).length + data.length) :
    (handleReadyRead data s).disk =
      setFile s.disk s.fileName ((s.disk s.fileName).getD [] ++
        data.take (s.deviceLimit - ((s.disk s.fileName).getD []).length)) ∧
    (handleReadyRead data s).downloaded_ = s.downloaded_ ∧
    (handleReadyRead data s).fileOpen = true ∧
    (handleReadyRead data s).fileName = s.fileName ∧
    (handleReadyRead data s).reply_.isSome = true := by
  have hpos : 0 < data.length := List.length_pos.mpr hd
  have hlen : s.deviceLimit - ((s.disk s.fileName).getD []).length < data.length := by omega
  have hnb : ¬ kMaxDownloadBytes < add64 s.downloaded_ (data.length : Int) := not_lt.mpr hfit
  have hrn : ¬ s.reply_ = none := by
    intro h; simp [h] at hr
  have hmin : ¬ data.length ≤ s.deviceLimit - ((s.disk s.fileName).getD []).length :=
    not_le.mpr hlen
  simp only [handleReadyRead, pause]
  simp [hr, hrn, ho, hd, hfit, hnb, hlen, hmin]

@[simp] theorem setFile_same (disk : String → Option QByteArray) (p : String) (c : QByteArray) :
    setFile disk p c p = some c := by
  simp [setFile]

theorem setFile_other (disk : String → Option QByteArray) (p q : String) (c : QByteArray)
    (h : q ≠ p) : setFile disk p c q = disk q := by
  simp [setFile, h]

/-- The record that `loadSavedState` returns depends on the record file, the disk and the
two allow-listed directories only. -/
theorem loadSavedState_congr (s t : DownloadItem) (h1 : s.stateFile = t.stateFile)
    (h2 : s.disk = t.disk) (h3 : s.homePath = t.homePath)
    (h4 : s.downloadLocation = t.downloadLocation) : loadSavedState s = loadSavedState t := by
  simp only [loadSavedState, downloadDirOf, fileExists, fileSize, h1, h2, h3, h4]

@[simp] theorem loadSavedState_resetReply (s : DownloadItem) :
    loadSavedState (resetReply s) = loadSavedState s :=
  loadSavedState_congr _ _ (by simp) (by simp) (by simp) (by simp)

theorem fileSize_nonneg (s : DownloadItem) (path : String) : 0 ≤ fileSize s path := by
  unfold fileSize; exact Int.ofNat_nonneg _

/-- The size the engine takes for a path is the size of the file, zero when absent. -/
theorem onDisk_eq (s : DownloadItem) (path : String) :
    (if fileExists s path = true then fileSize s path else 0) = fileSize s path := by
  unfold fileExists fileSize
  cases s.disk path <;> simp

/-- What `resumeFromSaved` does when the record is valid and the file opens. -/
theorem resumeFromSaved_ok (s : DownloadItem)
    (hv : (loadSavedState s).isValid s.urlValid = true)
    (ho : s.openable (loadSavedState s).filePath = true) :
    (resumeFromSaved s).reply_ = some (QNetworkReply.mk
      { url := (loadSavedState s).url, userAgent := kUserAgent, manualRedirect := true,
        range := rangeHeader (fileSize s (loadSavedState s).filePath) } false) ∧
    (resumeFromSaved s).sent = s.sent ++
      [{ url := (loadSavedState s).url, userAgent := kUserAgent, manualRedirect := true,
         range := rangeHeader (fileSize s (loadSavedState s).filePath) }] ∧
    (resumeFromSaved s).signals = s.signals ++ [Signal.statusTextChanged "Resuming..."] ∧
    (resumeFromSaved s).fileOpen = true ∧
    (resumeFromSaved s).fileName = (loadSavedState s).filePath ∧
    (resumeFromSaved s).url_ = (loadSavedState s).url ∧
    (resumeFromSaved s).targetPath_ = (loadSavedState s).filePath ∧
    (resumeFromSaved s).downloaded_ = fileSize s (loadSavedState s).filePath ∧
    (resumeFromSaved s).startOffset_ = fileSize s (loadSavedState s).filePath ∧
    (resumeFromSaved s).disk = setFile s.disk (loadSavedState s).filePath
      ((s.disk (loadSavedState s).filePath).getD []) ∧
    (resumeFromSaved s).stateFile = s.stateFile ∧
    (resumeFromSaved s).redirectCount_ = 0 ∧
    (resumeFromSaved s).suppressErrors_ = false ∧
    (resumeFromSaved s).paused_ = false ∧
    (resumeFromSaved s).deviceLimit = s.deviceLimit ∧
    (resumeFromSaved s).configWritable = s.configWritable := by
  have hn := fileSize_nonneg s (loadSavedState s).filePath
  have hsz : ∀ t : DownloadItem, t.disk = s.disk →
      (if fileExists t (loadSavedState s).filePath = true then
        fileSize t (loadSavedState s).filePath else 0) = fileSize s (loadSavedState s).filePath := by
    intro t ht
    rw [onDisk_eq]; unfold fileSize; rw [ht]
  simp only [resumeFromSaved]
  by_cases hz : 0 < fileSize s (loadSavedState s).filePath
  · simp [hv, ho, hsz, hz, buildRequest]
  · have h0 : fileSize s (loadSavedState s).filePath = 0 := by omega
    simp [hv, ho, hsz, h0, buildRequest]

/-- What `resumeFromSaved` does when the record is not valid. -/
theorem resumeFromSaved_invalid (s : DownloadItem)
    (hv : ¬ (loadSavedState s).isValid s.urlValid = true) :
    resumeFromSaved s = emit (Signal.downloadFailed "No download to resume.") (resetReply s) := by
  simp only [resumeFromSaved]
  simp [hv]

/-- What `resumeFromSaved` does when the record is valid and the file does not open. -/
theorem resumeFromSaved_unopened (s : DownloadItem)
    (hv : (loadSavedState s).isValid s.urlValid = true)
    (ho : ¬ s.openable (loadSavedState s).filePath = true) :
    (resumeFromSaved s).reply_ = none ∧ (resumeFromSaved s).fileOpen = false ∧
    (resumeFromSaved s).disk = s.disk ∧ (resumeFromSaved s).sent = s.sent ∧
    (resumeFromSaved s).signals =
      s.signals ++ [Signal.downloadFailed "Cannot open file for writing."] ∧
    (resumeFromSaved s).redirectCount_ = 0 ∧
    (resumeFromSaved s).deviceLimit = s.deviceLimit := by
  simp only [resumeFromSaved]
  simp [hv, ho]

theorem oversize_length : oversize.length = 2 ^ 30 + 1 := by
  unfold oversize; exact List.length_replicate _ _

theorem run_nil (s : DownloadItem) : run [] s = s := rfl

theorem run_cons (a : Action) (rest : List Action) (s : DownloadItem) :
    run (a :: rest) s = run rest (step a s) := rfl

theorem step_resumeFromSaved (s : DownloadItem) :
    step Action.resumeFromSaved s = resumeFromSaved s := rfl

/-- The record `loadSavedState` returns for a record file that is an object whose path is
absolute and passes one of the two directory tests. -/
theorem loadSavedState_accept (s : DownloadItem) (u f b : JsonValue)
    (hs : s.stateFile = StateFile.object u f b) (habs : isAbsolute f.toString = true)
    (hunder : isUnder (cleanPath s.homePath) (cleanPath f.toString) = true ∨
      isUnder (cleanPath (downloadDirOf s)) (cleanPath f.toString) = true) :
    loadSavedState s =
      { url := u.toString, filePath := f.toString,
        bytesDownloaded := if fileExists s f.toString = true then fileSize s f.toString
          else doubleToInt64 b.toDouble } := by
  simp only [loadSavedState, hs]
  rcases hunder with h | h <;> simp [habs, h] <;> split_ifs <;> rfl

/-- The record `loadSavedState` returns for a record file that is an object whose path is
not absolute or fails both directory tests. -/
theorem loadSavedState_reject (s : DownloadItem) (u f b : JsonValue)
    (hs : s.stateFile = StateFile.object u f b)
    (h : isAbsolute f.toString = false ∨
      (isUnder (cleanPath s.homePath) (cleanPath f.toString) = false ∧
        isUnder (cleanPath (downloadDirOf s)) (cleanPath f.toString) = false)) :
    loadSavedState s = {} := by
  simp only [loadSavedState, hs]
  rcases h with h | ⟨h1, h2⟩
  · simp [h]
  · simp [h1, h2]

theorem loadSavedState_oversizeHome : loadSavedState oversizeHome =
    { url := "https://a.example/big.bin", filePath := "/home/u/big.bin",
      bytesDownloaded := (oversize.length : Int) } := by
  rw [loadSavedState_accept oversizeHome (JsonValue.string "https://a.example/big.bin")
    (JsonValue.string "/home/u/big.bin") (JsonValue.number 0) rfl (by decide)
    (Or.inl (by decide))]
  simp [JsonValue.toString, fileExists, fileSize, oversizeHome, fresh]

/-- After `resumeFromSaved` on a disk that holds a file of 2^30 + 1 bytes named by a
well-formed record, the engine is active with that file open. -/
theorem resume_adopts_oversize_file :
    isActive (run [Action.resumeFromSaved] oversizeHome) = true ∧
    (run [Action.resumeFromSaved] oversizeHome).fileOpen = true ∧
    (run [Action.resumeFromSaved] oversizeHome).fileName = "/home/u/big.bin" ∧
    (run [Action.resumeFromSaved] oversizeHome).disk "/home/u/big.bin" = some oversize ∧
    kMaxDownloadBytes < (oversize.length : Int) := by
  have hv : (loadSavedState oversizeHome).isValid oversizeHome.urlValid = true := by
    rw [loadSavedState_oversizeHome]
    simp [ResumeData.isValid, oversizeHome, fresh]
  have ho : oversizeHome.openable (loadSavedState oversizeHome).filePath = true := by
    simp [oversizeHome, fresh]
  obtain ⟨e1, -, -, e4, e5, -, -, -, -, e10, -⟩ := resumeFromSaved_ok oversizeHome hv ho
  rw [loadSavedState_oversizeHome] at e1 e5 e10
  have hrun : run [Action.resumeFromSaved] oversizeHome = resumeFromSaved oversizeHome := by
    rw [run_cons, run_nil, step_resumeFromSaved]
  rw [hrun]
  refine ⟨?_, e4, e5, ?_, ?_⟩
  · simp [isActive, e1]
  · rw [e10]
    exact setFile_same _ _ _
  · rw [oversize_length]; decide

theorem handleReadyRead_nil (s : DownloadItem) : handleReadyRead [] s = s := by
  simp only [handleReadyRead]
  split_ifs <;> simp_all

/-- The slot `handleReadyRead` leaves the device limit alone. -/
theorem handleReadyRead_deviceLimit (data : QByteArray) (s : DownloadItem) :
    (handleReadyRead data s).deviceLimit = s.deviceLimit := by
  simp only [handleReadyRead, pause]
  split_ifs <;> simp

/-- The storage fields after `handleMetaDataChanged` on an active engine. -/
theorem handleMetaDataChanged_storage (st : Int) (len : Option Int) (s : DownloadItem)
    (hr : s.reply_.isSome = true) :
    (handleMetaDataChanged st len s).disk =
      (if st = 200 ∧ s.startOffset_ > 0 ∧ s.fileOpen = true then setFile s.disk s.fileName []
       else s.disk) ∧
    (handleMetaDataChanged st len s).downloaded_ =
      (if st = 200 ∧ s.startOffset_ > 0 then 0 else s.downloaded_) ∧
    (handleMetaDataChanged st len s).startOffset_ =
      (if st = 200 ∧ s.startOffset_ > 0 then 0 else s.startOffset_) ∧
    (handleMetaDataChanged st len s).fileOpen = s.fileOpen ∧
    (handleMetaDataChanged st len s).fileName = s.fileName ∧
    (handleMetaDataChanged st len s).deviceLimit = s.deviceLimit ∧
    (handleMetaDataChanged st len s).reply_.isSome = true := by
  have hrn : ¬ s.reply_ = none := by
    intro hn; simp [hn] at hr
  by_cases hreset : st = 200 ∧ s.startOffset_ > 0 <;> by_cases ho : s.fileOpen = true <;>
    cases len <;> simp only [handleMetaDataChanged] <;> split_ifs <;>
    simp_all

/-- What `startNew` does when the file opens. -/
theorem startNew_ok (url filePath : String) (s : DownloadItem)
    (ho : s.openable filePath = true) :
    (startNew url filePath s).reply_.isSome = true ∧
    (startNew url filePath s).fileOpen = true ∧
    (startNew url filePath s).fileName = filePath ∧
    (startNew url filePath s).url_ = url ∧
    (startNew url filePath s).targetPath_ = filePath ∧
    (startNew url filePath s).downloaded_ = 0 ∧
    (startNew url filePath s).startOffset_ = 0 ∧
    (startNew url filePath s).disk = setFile s.disk filePath [] ∧
    (startNew url filePath s).sent = s.sent ++
      [{ url := url, userAgent := kUserAgent, manualRedirect := true, range := none }] ∧
    (startNew url filePath s).openable = s.openable ∧
    (startNew url filePath s).deviceLimit = s.deviceLimit ∧
    (startNew url filePath s).configWritable = s.configWritable ∧
    (startNew url filePath s).homePath = s.homePath ∧
    (startNew url filePath s).downloadLocation = s.downloadLocation ∧
    (startNew url filePath s).urlValid = s.urlValid := by
  simp only [startNew]
  simp [ho, buildRequest, rangeHeader]

/-- What `startNew` does when the file does not open. -/
theorem startNew_unopened (url filePath : String) (s : DownloadItem)
    (ho : ¬ s.openable filePath = true) :
    (startNew url filePath s).reply_ = none ∧
    (startNew url filePath s).fileOpen = false ∧
    (startNew url filePath s).disk = s.disk ∧
    (startNew url filePath s).downloaded_ = 0 ∧
    (startNew url filePath s).startOffset_ = s.startOffset_ ∧
    (startNew url filePath s).sent = s.sent ∧
    (startNew url filePath s).signals =
      s.signals ++ [Signal.downloadFailed "Cannot open file for writing."] ∧
    (startNew url filePath s).openable = s.openable := by
  simp only [startNew]
  simp [ho]

theorem wide_setFile (disk : String → Option QByteArray) (q : String) (content : QByteArray)
    (h : ∀ p c, disk p = some c → (c.length : Int) ≤ wideBound)
    (hc : (content.length : Int) ≤ wideBound) :
    ∀ p c, setFile disk q content p = some c → (c.length : Int) ≤ wideBound := by
  intro p c hp
  by_cases hpq : p = q
  · subst hpq
    rw [setFile_same] at hp
    cases hp
    exact hc
  · rw [setFile_other _ _ _ _ hpq] at hp
    exact h p c hp

theorem wideInv_startNew (u p : String) (s : DownloadItem) (h : WideInv s) :
    WideInv (startNew u p s) := by
  obtain ⟨hall, -, -⟩ := h
  have h0 : ((([] : QByteArray).length : Nat) : Int) ≤ wideBound := by decide
  unfold WideInv
  simp only [startNew]
  by_cases ho : s.openable p = true
  · simp [ho]
    exact wide_setFile _ _ _ hall h0
  · simp [ho]
    exact hall

theorem wideInv_resume (s : DownloadItem) (h : WideInv s) : WideInv (resumeFromSaved s) := by
  obtain ⟨hall, hro, hfile⟩ := h
  by_cases hv : (loadSavedState s).isValid s.urlValid = true
  · by_cases ho : s.openable (loadSavedState s).filePath = true
    · obtain ⟨e1, -, -, e4, e5, -, -, e8, -, e10, -, -, -, -, e15, -⟩ := resumeFromSaved_ok s hv ho
      have hb : ((((s.disk (loadSavedState s).filePath).getD []).length : Nat) : Int)
          ≤ wideBound := by
        cases hd : s.disk (loadSavedState s).filePath with
        | none => simp [wideBound]
        | some c => simpa using hall _ _ hd
      refine ⟨?_, fun _ => e4, fun _ => ?_⟩
      · rw [e10]; exact wide_setFile _ _ _ hall hb
      · refine ⟨(s.disk (loadSavedState s).filePath).getD [], ?_, ?_, ?_, ?_⟩
        · rw [e10, e5]; exact setFile_same _ _ _
        · rw [e8]; exact fileSize_nonneg _ _
        · rw [e8]; exact le_refl _
        · left; rw [e8]; rfl
    · obtain ⟨e1, e2, e3, -⟩ := resumeFromSaved_unopened s hv ho
      refine ⟨?_, ?_, ?_⟩
      · rw [e3]; exact hall
      · intro hr; rw [e1] at hr; exact absurd hr (by simp)
      · intro hf; rw [e2] at hf; exact absurd hf (by simp)
  · rw [resumeFromSaved_invalid s hv]
    unfold WideInv
    simpa using ⟨hall, hfile⟩

theorem wideInv_pause (s : DownloadItem) (h : WideInv s) : WideInv (pause s) := by
  unfold WideInv at *
  simp only [pause]
  split_ifs with hr
  · exact h
  · simpa using h

theorem wideInv_readyRead (data : QByteArray) (s : DownloadItem) (h : WideInv s)
    (hb : (data.length : Int) < 2 ^ 62) : WideInv (handleReadyRead data s) := by
  by_cases hr : s.reply_.isSome = true
  swap
  · have : handleReadyRead data s = s := by
      simp only [handleReadyRead]
      simp [Option.not_isSome_iff_eq_none.mp hr]
    rw [this]; exact h
  by_cases ho : s.fileOpen = true
  swap
  · have : handleReadyRead data s = s := by
      simp only [handleReadyRead]
      simp [ho]
    rw [this]; exact h
  by_cases hd : data = []
  · have : handleReadyRead data s = s := by
      simp only [handleReadyRead]
      simp [hd]
    rw [this]; exact h
  obtain ⟨hall, hro, hfile⟩ := h
  obtain ⟨c, hc, h0, hle, hdisj⟩ := hfile ho
  have hcap := hall _ _ hc
  have hk : kMaxDownloadBytes = 2 ^ 30 := by decide
  have hw : wideBound = 2 ^ 62 := by decide
  have hadd : add64 s.downloaded_ (data.length : Int) = s.downloaded_ + (data.length : Int) :=
    add64_eq _ _ (by omega) (by omega)
  have hgetD : (s.disk s.fileName).getD [] = c := by simp [hc]
  have hdl := handleReadyRead_deviceLimit data s
  by_cases hfit : add64 s.downloaded_ (data.length : Int) ≤ kMaxDownloadBytes
  · by_cases hroom : ((s.disk s.fileName).getD []).length + data.length ≤ s.deviceLimit
    · obtain ⟨e1, e2, -, -, e5, e6, e7, -⟩ := handleReadyRead_accept data s hr ho hd hfit hroom
      have hpos : 0 < data.length := List.length_pos.mpr hd
      have heq : s.downloaded_ = (c.length : Int) := by
        rcases hdisj with h1 | h2
        · exact h1
        · rw [hgetD] at hroom; omega
      refine ⟨?_, ?_, ?_⟩
      · rw [e1, hgetD]
        refine wide_setFile _ _ _ hall ?_
        rw [List.length_append]; push_cast; omega
      · intro _; exact e5
      · intro _
        refine ⟨c ++ data, ?_, ?_, ?_, ?_⟩
        · rw [e1, e6, hgetD]; simp
        · rw [e2, hadd]; omega
        · rw [e2, hadd, List.length_append]; push_cast; omega
        · left; rw [e2, hadd, List.length_append]; push_cast; omega
    · obtain ⟨e1, e2, e3, e4, e5⟩ := handleReadyRead_short data s hr ho hd hfit (by omega)
      rw [hgetD] at e1 hroom
      have hlen : (c ++ List.take (s.deviceLimit - c.length) data).length
          = c.length + min (s.deviceLimit - c.length) data.length := by
        rw [List.length_append, List.length_take]
      refine ⟨?_, ?_, ?_⟩
      · rw [e1]
        refine wide_setFile _ _ _ hall ?_
        rw [hlen]; push_cast; omega
      · intro _; exact e3
      · intro _
        refine ⟨c ++ List.take (s.deviceLimit - c.length) data, ?_, ?_, ?_, ?_⟩
        · rw [e1, e4]; simp
        · rw [e2]; exact h0
        · rw [e2, hlen]; push_cast; omega
        · right; rw [hlen, hdl]; omega
  · obtain ⟨e1, e2, -, -, e5, e6, e7, -⟩ := handleReadyRead_reject data s hr ho hd (not_le.mp hfit)
    refine ⟨?_, ?_, ?_⟩
    · rw [e1]; exact hall
    · intro _; exact e5
    · intro _
      refine ⟨c, ?_, ?_, ?_, ?_⟩
      · rw [e1, e6]; exact hc
      · rw [e2]; exact h0
      · rw [e2]; exact hle
      · rw [e2, hdl]; exact hdisj

theorem wideInv_finished (t : Option String) (e : NetworkError) (s : DownloadItem)
    (h : WideInv s) : WideInv (handleFinished t e s) := by
  unfold WideInv at *
  obtain ⟨hall, hro, hfile⟩ := h
  cases t with
  | none =>
    simp only [handleFinished]
    split_ifs <;> simp <;> first | exact hall | exact ⟨hall, hro, hfile⟩
  | some target =>
    simp only [handleFinished]
    split_ifs with h1 h2
    · simpa using ⟨hall, hro, hfile⟩
    · simpa using ⟨hall, hfile⟩
    · by_cases ho : s.fileOpen = true
      · simpa [ho] using ⟨hall, hfile ho⟩
      · simpa [ho] using hall

theorem wideInv_error (e : NetworkError) (t : String) (s : DownloadItem)
    (h : WideInv s) : WideInv (handleError e t s) := by
  unfold WideInv at *
  simp only [handleError]
  split_ifs <;> simpa using h

theorem wideInv_ssl (errs : List String) (s : DownloadItem)
    (h : WideInv s) : WideInv (handleSslErrors errs s) := by
  unfold WideInv at *
  simp only [handleSslErrors]
  split_ifs <;> simpa using h

theorem wideInv_meta (st : Int) (len : Option Int) (s : DownloadItem)
    (h : WideInv s) : WideInv (handleMetaDataChanged st len s) := by
  by_cases hr : s.reply_.isSome = true
  swap
  · have : handleMetaDataChanged st len s = s := by
      simp only [handleMetaDataChanged]
      simp [Option.not_isSome_iff_eq_none.mp hr]
    rw [this]; exact h
  obtain ⟨hall, hro, hfile⟩ := h
  have ho := hro hr
  obtain ⟨e1, e2, -, e4, e5, e6, e7⟩ := handleMetaDataChanged_storage st len s hr
  obtain ⟨c, hc, h0, hle, hdisj⟩ := hfile ho
  have hempty : ∀ p c, setFile s.disk s.fileName [] p = some c →
      (c.length : Int) ≤ wideBound := wide_setFile _ _ _ hall (by decide)
  refine ⟨?_, fun _ => by rw [e4]; exact ho, fun _ => ?_⟩
  · rw [e1]; split_ifs
    · exact hempty
    · exact hall
  · rw [e2, e5, e6]
    by_cases hreset : st = 200 ∧ s.startOffset_ > 0
    · rw [e1, if_pos ⟨hreset.1, hreset.2, ho⟩, if_pos hreset]
      exact ⟨[], setFile_same _ _ _, le_refl _, by simp, Or.inl (by simp)⟩
    · rw [e1, if_neg (fun hc3 => hreset ⟨hc3.1, hc3.2.1⟩), if_neg hreset]
      exact ⟨c, hc, h0, hle, hdisj⟩

theorem wideInv_step (a : Action) (s : DownloadItem) (h : WideInv s) (hb : ChunkBounded a) :
    WideInv (step a s) := by
  cases a with
  | startNew u p => exact wideInv_startNew u p s h
  | resumeFromSaved => exact wideInv_resume s h
  | pause => exact wideInv_pause s h
  | clearSavedState => simpa [step, WideInv] using h
  | readyRead d => simp only [step]; split_ifs; exacts [wideInv_readyRead d s h hb, h]
  | downloadProgress r t =>
    simp only [step]; split_ifs
    · simpa [WideInv, handleDownloadProgress] using h
    · exact h
  | metaDataChanged st len => simp only [step]; split_ifs; exacts [wideInv_meta st len s h, h]
  | finished t e => simp only [step]; split_ifs; exacts [wideInv_finished t e s h, h]
  | errorOccurred e t => simp only [step]; split_ifs; exacts [wideInv_error e t s h, h]
  | sslErrors errs => simp only [step]; split_ifs; exacts [wideInv_ssl errs s h, h]
  | timeout =>
    simp only [step]; split_ifs
    · simpa [WideInv, updateSpeed] using h
    · exact h

theorem wideInv_run (actions : List Action) (s : DownloadItem) (h : WideInv s)
    (hb : ∀ a ∈ actions, ChunkBounded a) : WideInv (run actions s) := by
  induction actions generalizing s with
  | nil => exact h
  | cons a rest ih =>
    exact ih (step a s) (wideInv_step a s h (hb a (List.mem_cons_self a rest)))
      (fun b hmem => hb b (List.mem_cons_of_mem a hmem))

theorem wideInv_fresh (disk : String → Option QByteArray) (openable : String → Bool)
    (deviceLimit : Nat) (stateFile : StateFile) (configWritable : Bool)
    (homePath downloadLocation : String) (urlValid : String → Bool)
    (resolved : String → String → String)
    (h : ∀ p c, disk p = some c → (c.length : Int) ≤ wideBound) :
    WideInv (fresh disk openable deviceLimit stateFile configWritable homePath
      downloadLocation urlValid resolved) := by
  refine ⟨h, ?_, ?_⟩ <;> simp [fresh]

/-- A file written by `setFile` is within the cap, or no longer than the file it
replaces, when its content is. -/
theorem capped_setFile (disk : String → Option QByteArray) (q : String) (content : QByteArray)
    (hc : (content.length : Int) ≤ kMaxDownloadBytes ∨
      ∃ old, disk q = some old ∧ content.length ≤ old.length) :
    ∀ p c, setFile disk q content p = some c →
      (c.length : Int) ≤ kMaxDownloadBytes ∨ ∃ old, disk p = some old ∧ c.length ≤ old.length := by
  intro p c hp
  by_cases hpq : p = q
  · subst hpq
    rw [setFile_same] at hp
    cases hp
    exact hc
  · rw [setFile_other _ _ _ _ hpq] at hp
    exact Or.inr ⟨c, hp, le_refl _⟩

/-- A step that leaves the disk alone. -/
theorem capped_of_same (d1 d2 : String → Option QByteArray) (h : d2 = d1) :
    ∀ p c, d2 p = some c →
      (c.length : Int) ≤ kMaxDownloadBytes ∨ ∃ old, d1 p = some old ∧ c.length ≤ old.length := by
  intro p c hp
  rw [h] at hp
  exact Or.inr ⟨c, hp, le_refl _⟩

/-- What `handleReadyRead` does to the disk: a file it has written to is within the cap
or no longer than it was. -/
theorem handleReadyRead_capped (data : QByteArray) (s : DownloadItem) (h : WideInv s)
    (hb : (data.length : Int) < 2 ^ 62) :
    ∀ p c, (handleReadyRead data s).disk p = some c →
      (c.length : Int) ≤ kMaxDownloadBytes ∨
        ∃ old, s.disk p = some old ∧ c.length ≤ old.length := by
  by_cases hr : s.reply_.isSome = true
  swap
  · have : handleReadyRead data s = s := by
      simp only [handleReadyRead]
      simp [Option.not_isSome_iff_eq_none.mp hr]
    rw [this]; exact capped_of_same _ _ rfl
  by_cases ho : s.fileOpen = true
  swap
  · have : handleReadyRead data s = s := by
      simp only [handleReadyRead]
      simp [ho]
    rw [this]; exact capped_of_same _ _ rfl
  by_cases hd : data = []
  · rw [hd, handleReadyRead_nil]; exact capped_of_same _ _ rfl
  obtain ⟨hall, hro, hfile⟩ := h
  obtain ⟨c0, hc, h0, hle, hdisj⟩ := hfile ho
  have hcap := hall _ _ hc
  have hk : kMaxDownloadBytes = 2 ^ 30 := by decide
  have hwb : wideBound = 2 ^ 62 := by decide
  have hadd : add64 s.downloaded_ (data.length : Int) = s.downloaded_ + (data.length : Int) :=
    add64_eq _ _ (by omega) (by omega)
  have hgetD : (s.disk s.fileName).getD [] = c0 := by simp [hc]
  by_cases hfit : add64 s.downloaded_ (data.length : Int) ≤ kMaxDownloadBytes
  · by_cases hroom : ((s.disk s.fileName).getD []).length + data.length ≤ s.deviceLimit
    · obtain ⟨e1, -⟩ := handleReadyRead_accept data s hr ho hd hfit hroom
      have hpos : 0 < data.length := List.length_pos.mpr hd
      have heq : s.downloaded_ = (c0.length : Int) := by
        rcases hdisj with h1 | h2
        · exact h1
        · rw [hgetD] at hroom; omega
      rw [e1, hgetD]
      refine capped_setFile _ _ _ (Or.inl ?_)
      rw [List.length_append]; push_cast; omega
    · obtain ⟨e1, -⟩ := handleReadyRead_short data s hr ho hd hfit (by omega)
      rw [hgetD] at e1 hroom
      have hlen : (c0 ++ List.take (s.deviceLimit - c0.length) data).length
          = c0.length + min (s.deviceLimit - c0.length) data.length := by
        rw [List.length_append, List.length_take]
      rw [e1]
      refine capped_setFile _ _ _ ?_
      rcases hdisj with h1 | h2
      · left; rw [hlen]; push_cast; omega
      · right; exact ⟨c0, hc, by rw [hlen]; omega⟩
  · obtain ⟨e1, -⟩ := handleReadyRead_reject data s hr ho hd (not_le.mp hfit)
    exact capped_of_same _ _ e1

/-- No operation and no slot makes a file longer than the cap: after a step every file is
within the cap or no longer than it was before the step. -/
theorem step_capped (a : Action) (s : DownloadItem) (h : WideInv s) (hb : ChunkBounded a) :
    ∀ p c, (step a s).disk p = some c →
      (c.length : Int) ≤ kMaxDownloadBytes ∨
        ∃ old, s.disk p = some old ∧ c.length ≤ old.length := by
  have hnil : ((([] : QByteArray).length : Nat) : Int) ≤ kMaxDownloadBytes := by decide
  cases a with
  | startNew u p =>
    by_cases ho : s.openable p = true
    · have e := (startNew_ok u p s ho).2.2.2.2.2.2.2.1
      simp only [step]
      rw [e]
      exact capped_setFile _ _ _ (Or.inl hnil)
    · have e := (startNew_unopened u p s ho).2.2.1
      simp only [step]
      exact capped_of_same _ _ e
  | resumeFromSaved =>
    simp only [step]
    by_cases hv : (loadSavedState s).isValid s.urlValid = true
    · by_cases ho : s.openable (loadSavedState s).filePath = true
      · obtain ⟨-, -, -, -, -, -, -, -, -, e10, -⟩ := resumeFromSaved_ok s hv ho
        rw [e10]
        refine capped_setFile _ _ _ ?_
        cases hd : s.disk (loadSavedState s).filePath with
        | none => left; simpa using hnil
        | some c => right; exact ⟨c, rfl, by simp⟩
      · obtain ⟨-, -, e3, -⟩ := resumeFromSaved_unopened s hv ho
        exact capped_of_same _ _ e3
    · rw [resumeFromSaved_invalid s hv]
      exact capped_of_same _ _ (by simp)
  | pause =>
    refine capped_of_same _ _ ?_
    simp only [step, pause]
    split_ifs <;> simp
  | clearSavedState => exact capped_of_same _ _ (by simp [step])
  | readyRead d =>
    simp only [step]
    split_ifs
    · exact handleReadyRead_capped d s h hb
    · exact capped_of_same _ _ rfl
  | downloadProgress r t =>
    refine capped_of_same _ _ ?_
    simp only [step, handleDownloadProgress]
    split_ifs <;> simp
  | metaDataChanged st len =>
    simp only [step]
    split_ifs with hr
    · obtain ⟨g1, -⟩ := handleMetaDataChanged_storage st len s hr
      rw [g1]
      split_ifs
      · exact capped_setFile _ _ _ (Or.inl hnil)
      · exact capped_of_same _ _ rfl
    · exact capped_of_same _ _ rfl
  | finished t e =>
    refine capped_of_same _ _ ?_
    cases t <;> simp only [step, handleFinished] <;> split_ifs <;> simp
  | errorOccurred e t =>
    refine capped_of_same _ _ ?_
    simp only [step, handleError]
    split_ifs <;> simp
  | sslErrors errs =>
    refine capped_of_same _ _ ?_
    simp only [step, handleSslErrors]
    split_ifs <;> simp
  | timeout =>
    refine capped_of_same _ _ ?_
    simp only [step, updateSpeed]
    split_ifs <;> simp

/-- Over a run: every file is within the cap or no longer than it was at the start. -/
theorem run_capped (actions : List Action) (s : DownloadItem) (h : WideInv s)
    (hb : ∀ a ∈ actions, ChunkBounded a) :
    ∀ p c, (run actions s).disk p = some c →
      (c.length : Int) ≤ kMaxDownloadBytes ∨
        ∃ old, s.disk p = some old ∧ c.length ≤ old.length := by
  induction actions generalizing s with
  | nil => exact capped_of_same _ _ rfl
  | cons a rest ih =>
    intro p c hp
    rw [run_cons] at hp
    have ha := hb a (List.mem_cons_self a rest)
    rcases ih (step a s) (wideInv_step a s h ha)
      (fun b hmem => hb b (List.mem_cons_of_mem a hmem)) p c hp with h1 | ⟨mid, hm, hlen⟩
    · exact Or.inl h1
    · rcases step_capped a s h ha p mid hm with h2 | ⟨old, ho, hlen2⟩
      · left
        have : (c.length : Int) ≤ (mid.length : Int) := by exact_mod_cast hlen
        omega
      · exact Or.inr ⟨old, ho, le_trans hlen hlen2⟩

/-- C2, amended.  First part: on an active engine with an open file and a counter that is
not negative, for a non-empty chunk whose length added to the counter stays below 2^63:
if counter + length exceeds 2^30, `handleReadyRead` leaves the disk and the counter as
they are and emits the status text and the failure "Exceeded maximum download size";
otherwise, if the device has room for the whole chunk, it appends exactly the chunk to the
open file, adds the length to the counter and emits nothing.  Second part: the engine
never makes a file longer than the cap.  If no file on the disk is longer than 2^62 bytes
when the engine is constructed and every chunk delivered is shorter than 2^62 bytes, then
after any sequence of operations and events every file on the disk is at most 2^30 bytes
long or no longer than the file that was at its path when the engine was constructed. -/
theorem size_cap_enforced :
    (∀ (s : DownloadItem) (data : QByteArray),
      isActive s = true → s.fileOpen = true → data ≠ [] →
      0 ≤ s.downloaded_ → s.downloaded_ + (data.length : Int) < 2 ^ 63 →
      (kMaxDownloadBytes < s.downloaded_ + (data.length : Int) →
        (handleReadyRead data s).disk = s.disk ∧
        (handleReadyRead data s).downloaded_ = s.downloaded_ ∧
        (handleReadyRead data s).signals =
          s.signals ++ [Signal.statusTextChanged "Aborted: file too large",
            Signal.downloadFailed "Exceeded maximum download size"]) ∧
      (s.downloaded_ + (data.length : Int) ≤ kMaxDownloadBytes →
        fileSize s s.fileName + (data.length : Int) ≤ (s.deviceLimit : Int) →
        (handleReadyRead data s).disk =
          setFile s.disk s.fileName ((s.disk s.fileName).getD [] ++ data) ∧
        (handleReadyRead data s).downloaded_ = s.downloaded_ + (data.length : Int) ∧
        (handleReadyRead data s).signals = s.signals)) ∧
    (∀ (disk : String → Option QByteArray) (openable : String → Bool) (deviceLimit : Nat)
      (stateFile : StateFile) (configWritable : Bool) (homePath downloadLocation : String)
      (urlValid : String → Bool) (resolved : String → String → String)
      (actions : List Action),
      (∀ p c, disk p = some c → (c.length : Int) ≤ wideBound) →
      (∀ a ∈ actions, ChunkBounded a) →
      ∀ p c, (run actions (fresh disk openable deviceLimit stateFile configWritable homePath
          downloadLocation urlValid resolved)).disk p = some c →
        (c.length : Int) ≤ kMaxDownloadBytes ∨
          ∃ initial, disk p = some initial ∧ c.length ≤ initial.length) := by
  constructor
  · intro s data hact ho hd h0 hlt
    have hadd : add64 s.downloaded_ (data.length : Int) = s.downloaded_ + (data.length : Int) :=
      add64_eq _ _ (by omega) hlt
    constructor
    · intro hbig
      obtain ⟨e1, e2, e3, -⟩ := handleReadyRead_reject data s hact ho hd (by rw [hadd]; exact hbig)
      exact ⟨e1, e2, e3⟩
    · intro hfit hroom
      have hroom2 : ((s.disk s.fileName).getD []).length + data.length ≤ s.deviceLimit := by
        unfold fileSize at hroom; omega
      obtain ⟨e1, e2, e3, -⟩ :=
        handleReadyRead_accept data s hact ho hd (by rw [hadd]; exact hfit) hroom2
      exact ⟨e1, by rw [e2, hadd], e3⟩
  · intro disk openable deviceLimit stateFile configWritable homePath downloadLocation urlValid
      resolved actions h0 hb
    exact run_capped actions _ (wideInv_fresh disk openable deviceLimit stateFile configWritable
      homePath downloadLocation urlValid resolved h0) hb

theorem size_cap_enforced_witness :
    isActive (run threeBytes emptyHome) = true ∧
    kMaxDownloadBytes < (run threeBytes emptyHome).downloaded_ + (oversize.length : Int) ∧
    (handleReadyRead oversize (run threeBytes emptyHome)).disk = (run threeBytes emptyHome).disk ∧
    (handleReadyRead oversize (run threeBytes emptyHome)).downloaded_ = 3 ∧
    (handleReadyRead [4, 5] (run threeBytes emptyHome)).downloaded_ =
      (run threeBytes emptyHome).downloaded_ + 2 ∧
    oversizeHome.disk "/home/u/big.bin" = some oversize ∧
    (∀ p c, (run [Action.resumeFromSaved, Action.readyRead [1]] oversizeHome).disk p = some c →
      (c.length : Int) ≤ kMaxDownloadBytes ∨
        ∃ initial, oversizeHome.disk p = some initial ∧ c.length ≤ initial.length) := by
  have hdl : (run threeBytes emptyHome).downloaded_ = 3 := by decide
  have hne : oversize ≠ [] := by
    intro h
    have := oversize_length
    rw [h] at this
    exact absurd this (by decide)
  have hbig : kMaxDownloadBytes <
      (run threeBytes emptyHome).downloaded_ + (oversize.length : Int) := by
    rw [hdl, oversize_length]; decide
  have hrej := (size_cap_enforced.1 (run threeBytes emptyHome) oversize (by decide) (by decide) hne
    (by decide) (by rw [hdl, oversize_length]; decide)).1 hbig
  have hacc := ((size_cap_enforced.1 (run threeBytes emptyHome) [4, 5] (by decide) (by decide) (by decide)
    (by decide) (by decide)).2 (by decide) (by decide)).2.1
  have hfiles : ∀ p c,
      (fun p => if p = "/home/u/big.bin" then some oversize else none) p = some c →
      (c.length : Int) ≤ wideBound := by
    intro p c h
    by_cases hp : p = "/home/u/big.bin"
    · simp only [hp, if_true] at h
      have hc : c = oversize := (Option.some.inj h).symm
      rw [hc, oversize_length]; decide
    · simp [hp] at h
  have hrun := size_cap_enforced.2 (fun p => if p = "/home/u/big.bin" then some oversize else none)
    (fun _ => true) (2 ^ 40)
    (StateFile.object (JsonValue.string "https://a.example/big.bin")
      (JsonValue.string "/home/u/big.bin") (JsonValue.number 0))
    true "/home/u" "/home/u/Downloads" (fun u => u != "") (fun _ target => target)
    [Action.resumeFromSaved, Action.readyRead [1]] hfiles
    (by
      intro a ha
      simp only [List.mem_cons, List.mem_singleton, List.not_mem_nil, or_false] at ha
      rcases ha with rfl | rfl <;> simp [ChunkBounded])
  have hO : oversizeHome =
      fresh (fun p => if p = "/home/u/big.bin" then some oversize else none) (fun _ => true)
        (2 ^ 40)
        (StateFile.object (JsonValue.string "https://a.example/big.bin")
          (JsonValue.string "/home/u/big.bin") (JsonValue.number 0))
        true "/home/u" "/home/u/Downloads" (fun u => u != "") (fun _ target => target) := rfl
  refine ⟨by decide, hbig, hrej.1, ?_, hacc, ?_, ?_⟩
  · rw [hrej.2.1, hdl]
  · simp [oversizeHome, fresh]
  · intro p c h
    rw [hO] at h
    rcases hrun p c h with h1 | ⟨initial, hi, hl⟩
    · exact Or.inl h1
    · refine Or.inr ⟨initial, ?_, hl⟩
      simpa [oversizeHome, fresh] using hi

/-! ## C3: a full response to a resumed request -/

/-- The fields that `handleReadyRead` leaves alone when it stores a chunk. -/
theorem handleReadyRead_accept_frame (data : QByteArray) (s : DownloadItem)
    (hr : s.reply_.isSome = true) (ho : s.fileOpen = true) (hd : data ≠ [])
    (hfit : add64 s.downloaded_ (data.length : Int) ≤ kMaxDownloadBytes)
    (hroom : ((s.disk s.fileName).getD []).length + data.length ≤ s.deviceLimit) :
    (handleReadyRead data s).url_ = s.url_ ∧
    (handleReadyRead data s).targetPath_ = s.targetPath_ ∧
    (handleReadyRead data s).startOffset_ = s.startOffset_ ∧
    (handleReadyRead data s).totalBytes_ = s.totalBytes_ ∧
    (handleReadyRead data s).paused_ = s.paused_ ∧
    (handleReadyRead data s).redirectCount_ = s.redirectCount_ ∧
    (handleReadyRead data s).sent = s.sent ∧
    (handleReadyRead data s).openable = s.openable ∧
    (handleReadyRead data s).deviceLimit = s.deviceLimit ∧
    (handleReadyRead data s).configWritable = s.configWritable ∧
    (handleReadyRead data s).homePath = s.homePath ∧
    (handleReadyRead data s).downloadLocation = s.downloadLocation ∧
    (handleReadyRead data s).urlValid = s.urlValid ∧
    (handleReadyRead data s).resolved = s.resolved := by
  have hlen : data.length ≤ s.deviceLimit - ((s.disk s.fileName).getD []).length := by omega
  have hnb : ¬ kMaxDownloadBytes < add64 s.downloaded_ (data.length : Int) := not_lt.mpr hfit
  have hrn : ¬ s.reply_ = none := by
    intro h; simp [h] at hr
  simp only [handleReadyRead]
  simp [hr, hrn, ho, hd, hfit, hnb, hlen]

theorem step_readyRead (data : QByteArray) (s : DownloadItem) (hr : s.reply_.isSome = true) :
    step (Action.readyRead data) s = handleReadyRead data s := by
  simp [step, hr]

/-- Streaming: chunks that keep the file within the cap and within the room of the device
are appended in order, and the counter follows the length of the file. -/
theorem stream_appends (chunks : List QByteArray) (s : DownloadItem) (c : QByteArray)
    (hr : s.reply_.isSome = true) (ho : s.fileOpen = true)
    (hc : s.disk s.fileName = some c) (hd : s.downloaded_ = (c.length : Int))
    (hcap : ((c.length + chunks.flatten.length : Nat) : Int) ≤ kMaxDownloadBytes)
    (hdev : c.length + chunks.flatten.length ≤ s.deviceLimit) :
    (run (chunks.map Action.readyRead) s).disk s.fileName = some (c ++ chunks.flatten) ∧
    (∀ q, q ≠ s.fileName → (run (chunks.map Action.readyRead) s).disk q = s.disk q) ∧
    (run (chunks.map Action.readyRead) s).downloaded_ =
      ((c.length + chunks.flatten.length : Nat) : Int) ∧
    (run (chunks.map Action.readyRead) s).reply_ = s.reply_ ∧
    (run (chunks.map Action.readyRead) s).fileOpen = true ∧
    (run (chunks.map Action.readyRead) s).fileName = s.fileName ∧
    (run (chunks.map Action.readyRead) s).signals = s.signals ∧
    (run (chunks.map Action.readyRead) s).url_ = s.url_ ∧
    (run (chunks.map Action.readyRead) s).targetPath_ = s.targetPath_ ∧
    (run (chunks.map Action.readyRead) s).startOffset_ = s.startOffset_ ∧
    (run (chunks.map Action.readyRead) s).paused_ = s.paused_ ∧
    (run (chunks.map Action.readyRead) s).sent = s.sent ∧
    (run (chunks.map Action.readyRead) s).openable = s.openable ∧
    (run (chunks.map Action.readyRead) s).deviceLimit = s.deviceLimit ∧
    (run (chunks.map Action.readyRead) s).configWritable = s.configWritable ∧
    (run (chunks.map Action.readyRead) s).homePath = s.homePath ∧
    (run (chunks.map Action.readyRead) s).downloadLocation = s.downloadLocation ∧
    (run (chunks.map Action.readyRead) s).urlValid = s.urlValid := by
  induction chunks generalizing s c with
  | nil => simp [run_nil, hc, hd, ho]
  | cons d rest ih =>
    rw [List.map_cons, run_cons, step_readyRead d s hr]
    have hk : kMaxDownloadBytes = 2 ^ 30 := by decide
    simp only [List.flatten_cons, List.length_append] at hcap hdev
    by_cases hdn : d = []
    · subst hdn
      rw [handleReadyRead_nil]
      simpa using ih s c hr ho hc hd (by simpa using hcap) (by simpa using hdev)
    · have hgetD : (s.disk s.fileName).getD [] = c := by simp [hc]
      have hadd : add64 s.downloaded_ (d.length : Int) = s.downloaded_ + (d.length : Int) :=
        add64_eq _ _ (by omega) (by omega)
      have hfit : add64 s.downloaded_ (d.length : Int) ≤ kMaxDownloadBytes := by
        rw [hadd]; omega
      have hroom : ((s.disk s.fileName).getD []).length + d.length ≤ s.deviceLimit := by
        rw [hgetD]; omega
      obtain ⟨e1, e2, e3, -, e5, e6, e7, -⟩ := handleReadyRead_accept d s hr ho hdn hfit hroom
      obtain ⟨f1, f2, f3, -, f5, -, f7, f8, f9, f10, f11, f12, f13, -⟩ :=
        handleReadyRead_accept_frame d s hr ho hdn hfit hroom
      have hc2 : (handleReadyRead d s).disk (handleReadyRead d s).fileName = some (c ++ d) := by
        rw [e1, e6, hgetD]; exact setFile_same _ _ _
      have hd2 : (handleReadyRead d s).downloaded_ = ((c ++ d).length : Int) := by
        rw [e2, hadd, hd, List.length_append]; push_cast; rfl
      obtain ⟨g1, g2, g3, g4, g5, g6, g7, g8, g9, g10, g11, g12, g13, g14, g15, g16, g17, g18⟩ :=
        ih (handleReadyRead d s) (c ++ d) (by rw [e7]; exact hr) e5 hc2 hd2
          (by rw [List.length_append]; push_cast at hcap ⊢; omega)
          (by rw [List.length_append, f9]; omega)
      rw [e6] at g1 g2
      refine ⟨?_, ?_, ?_, ?_, g5, ?_, ?_, ?_, ?_, ?_, ?_, ?_, ?_, ?_, ?_, ?_, ?_, ?_⟩
      · rw [g1]; simp
      · intro q hq
        rw [g2 q hq, e1, setFile_other _ _ _ _ hq]
      · rw [g3, List.length_append, List.flatten_cons, List.length_append]; push_cast; omega
      · rw [g4, e7]
      · rw [g6, e6]
      · rw [g7, e3]
      · rw [g8, f1]
      · rw [g9, f2]
      · rw [g10, f3]
      · rw [g11, f5]
      · rw [g12, f7]
      · rw [g13, f8]
      · rw [g14, f9]
      · rw [g15, f10]
      · rw [g16, f11]
      · rw [g17, f12]
      · rw [g18, f13]

theorem toDouble_zero : toDouble 0 = 0 := by decide

/-- What `handleMetaDataChanged` does on an active engine with an open file when the
status is 200 and the start offset is positive. -/
theorem handleMetaDataChanged_reset (len : Option Int) (s : DownloadItem)
    (hr : s.reply_.isSome = true) (ho : s.fileOpen = true) (hoff : 0 < s.startOffset_) :
    (handleMetaDataChanged 200 len s).disk = setFile s.disk s.fileName [] ∧
    (handleMetaDataChanged 200 len s).downloaded_ = 0 ∧
    (handleMetaDataChanged 200 len s).startOffset_ = 0 ∧
    (handleMetaDataChanged 200 len s).stateFile =
      (if s.configWritable = true then
        StateFile.object (JsonValue.string s.url_) (JsonValue.string s.targetPath_)
          (JsonValue.number 0)
       else s.stateFile) ∧
    (handleMetaDataChanged 200 len s).fileOpen = true ∧
    (handleMetaDataChanged 200 len s).fileName = s.fileName ∧
    (handleMetaDataChanged 200 len s).deviceLimit = s.deviceLimit ∧
    (handleMetaDataChanged 200 len s).reply_.isSome = true := by
  have hrn : ¬ s.reply_ = none := by
    intro hn; simp [hn] at hr
  cases len <;> simp only [handleMetaDataChanged] <;> split_ifs <;>
    simp_all [toDouble_zero]

/-- C3, amended.  On an active engine with an open file and a positive start offset,
whatever the file holds, a metadata event with status 200 makes `handleMetaDataChanged`
empty the file and set the downloaded counter and the start offset to zero, and, when
the record file can be written, store the record with byte count 0.  After any sequence
of data chunks that follows, of total length at most 2^30 and within the room of the
device, the file holds exactly the concatenation of these chunks and the counter is
their total length. -/
theorem full_response_restarts_file (s : DownloadItem) (len : Option Int)
    (chunks : List QByteArray)
    (hact : isActive s = true) (ho : s.fileOpen = true) (hoff : 0 < s.startOffset_)
    (hcap : (chunks.flatten.length : Int) ≤ kMaxDownloadBytes)
    (hdev : chunks.flatten.length ≤ s.deviceLimit) :
    (handleMetaDataChanged 200 len s).disk s.fileName = some [] ∧
    (handleMetaDataChanged 200 len s).downloaded_ = 0 ∧
    (handleMetaDataChanged 200 len s).startOffset_ = 0 ∧
    (s.configWritable = true →
      (handleMetaDataChanged 200 len s).stateFile =
        StateFile.object (JsonValue.string s.url_) (JsonValue.string s.targetPath_)
          (JsonValue.number 0)) ∧
    (run (chunks.map Action.readyRead) (handleMetaDataChanged 200 len s)).disk s.fileName =
      some chunks.flatten ∧
    (run (chunks.map Action.readyRead) (handleMetaDataChanged 200 len s)).downloaded_ =
      (chunks.flatten.length : Int) := by
  obtain ⟨e1, e2, e3, e4, e5, e6, e7, e8⟩ := handleMetaDataChanged_reset len s hact ho hoff
  have hc : (handleMetaDataChanged 200 len s).disk (handleMetaDataChanged 200 len s).fileName
      = some [] := by
    rw [e1, e6]; exact setFile_same _ _ _
  obtain ⟨g1, -, g3, -⟩ := stream_appends chunks (handleMetaDataChanged 200 len s) [] e8 e5 hc
    (by rw [e2]; rfl) (by simpa using hcap) (by rw [e7]; simpa using hdev)
  rw [e6] at g1
  refine ⟨?_, e2, e3, ?_, ?_, ?_⟩
  · rw [e1]; exact setFile_same _ _ _
  · intro hw; rw [e4, if_pos hw]
  · simpa using g1
  · simpa using g3

theorem full_response_restarts_file_witness :
    isActive resumedAtThree = true ∧ resumedAtThree.fileOpen = true ∧
    0 < resumedAtThree.startOffset_ ∧
    resumedAtThree.disk "/home/u/Downloads/f.bin" = some [1, 2, 3] ∧
    (run ([[4], [5]].map Action.readyRead)
      (handleMetaDataChanged 200 (some 2) resumedAtThree)).disk resumedAtThree.fileName =
      some [4, 5] :=
  ⟨by decide, by decide, by decide, by decide,
    (full_response_restarts_file resumedAtThree (some 2) [[4], [5]] (by decide) (by decide)
      (by decide) (by decide) (by decide)).2.2.2.2.1⟩

/-- After the reset a chunk of 2^30 + 1 bytes is received and not written: the file stays
empty although a chunk has been received on this attempt. -/
theorem oversize_chunk_not_appended :
    isActive resumedAtThree = true ∧ resumedAtThree.fileOpen = true ∧
    0 < resumedAtThree.startOffset_ ∧
    (run ([oversize].map Action.readyRead)
      (handleMetaDataChanged 200 none resumedAtThree)).disk resumedAtThree.fileName = some [] ∧
    [oversize].flatten ≠ ([] : QByteArray) := by
  have hact : isActive resumedAtThree = true := by decide
  have ho : resumedAtThree.fileOpen = true := by decide
  have hoff : 0 < resumedAtThree.startOffset_ := by decide
  obtain ⟨e1, e2, -, -, e5, e6, -, e8⟩ := handleMetaDataChanged_reset none resumedAtThree hact ho hoff
  have hne : oversize ≠ [] := by
    intro h
    have := oversize_length
    rw [h] at this
    exact absurd this (by decide)
  have hbig : kMaxDownloadBytes <
      add64 (handleMetaDataChanged 200 none resumedAtThree).downloaded_ (oversize.length : Int) := by
    rw [e2, oversize_length]; decide
  obtain ⟨r1, -⟩ := handleReadyRead_reject oversize _ e8 e5 hne hbig
  refine ⟨hact, ho, hoff, ?_, ?_⟩
  · rw [List.map_cons, List.map_nil, run_cons, run_nil, step_readyRead _ _ e8, r1, e1]
    exact setFile_same _ _ _
  · simpa using hne

/-! ## C4: records outside the allow-listed directories -/

theorem splitSlash_ne_nil (p : List Char) : splitSlash p ≠ [] := by
  cases p with
  | nil => simp [splitSlash]
  | cons c cs =>
    unfold splitSlash
    split_ifs
    · simp
    · split <;> simp

theorem splitSlash_append (a b : List Char) :
    splitSlash (a ++ '/' :: b) = splitSlash a ++ splitSlash b := by
  induction a with
  | nil => simp [splitSlash]
  | cons c cs ih =>
    by_cases hc : c = '/'
    · simp [splitSlash, hc, ih]
    · rw [List.cons_append]
      cases hs : splitSlash cs with
      | nil => exact absurd hs (splitSlash_ne_nil cs)
      | cons seg rest =>
        have e2 : splitSlash (c :: cs) = (c :: seg) :: rest := by
          rw [splitSlash]; simp [hc, hs]
        have e1 : splitSlash (c :: (cs ++ '/' :: b)) = (c :: seg) :: (rest ++ splitSlash b) := by
          rw [splitSlash]; simp [hc, ih, hs]
        rw [e1, e2]; rfl

theorem components_of_startsWith (d p : String) (h : startsWith p (d ++ "/") = true) :
    components d <+: components p := by
  unfold startsWith at h
  rw [ List.isPrefixOf_iff_prefix] at h
  obtain ⟨t, ht⟩ := h
  have hd : (d ++ "/").data = d.data ++ ['/'] := by
    rw [String.data_append]
  unfold components
  rw [← ht, hd, List.append_assoc, List.singleton_append, splitSlash_append, List.filter_append]
  exact List.prefix_append _ _

/-- The test of the source implies the policy of the specification on cleaned paths. -/
theorem components_of_isUnder (d p : String) (h : isUnder d p = true) :
    components d <+: components p := by
  unfold isUnder at h
  rw [Bool.or_eq_true] at h
  rcases h with h | h
  · exact components_of_startsWith d p h
  · have : p = d := by simpa using h
    rw [this]

theorem isUnder_false_of_not_nested (dir path : String) (h : nestedUnder dir path = false) :
    isUnder (cleanPath dir) (cleanPath path) = false := by
  by_contra hne
  have hu : isUnder (cleanPath dir) (cleanPath path) = true := by simpa using hne
  have hp := components_of_isUnder _ _ hu
  unfold nestedUnder at h
  rw [← List.isPrefixOf_iff_prefix] at hp
  rw [hp] at h
  exact absurd h (by simp)

/-- C4.  For every home directory, downloads directory and record file that is a JSON
object: if the path of the record is not absolute, or its cleaned form is nested,
component by component, neither under the cleaned home directory nor under the cleaned
downloads directory (the home directory when no downloads directory is reported), then
`loadSavedState` returns the empty record, which is not valid.  In particular, with home
`/home/u` and the downloads directory unset or `/home/u/Downloads`, the paths
`/home/u2/f.bin` and `/home/u/../../etc/passwd` are rejected. -/
theorem loadSavedState_rejects_outside :
    (∀ (s : DownloadItem) (u f b : JsonValue), s.stateFile = StateFile.object u f b →
      (isAbsolute f.toString = false ∨
        (nestedUnder s.homePath f.toString = false ∧
          nestedUnder (downloadDirOf s) f.toString = false)) →
      loadSavedState s = {} ∧ (loadSavedState s).isValid s.urlValid = false) ∧
    (∀ (s : DownloadItem) (u b : JsonValue),
      s.stateFile = StateFile.object u (JsonValue.string "/home/u2/f.bin") b →
      s.homePath = "/home/u" →
      (s.downloadLocation = "" ∨ s.downloadLocation = "/home/u/Downloads") →
      loadSavedState s = {}) ∧
    (∀ (s : DownloadItem) (u b : JsonValue),
      s.stateFile = StateFile.object u (JsonValue.string "/home/u/../../etc/passwd") b →
      s.homePath = "/home/u" →
      (s.downloadLocation = "" ∨ s.downloadLocation = "/home/u/Downloads") →
      loadSavedState s = {}) := by
  have hgen : ∀ (s : DownloadItem) (u f b : JsonValue), s.stateFile = StateFile.object u f b →
      (isAbsolute f.toString = false ∨
        (nestedUnder s.homePath f.toString = false ∧
          nestedUnder (downloadDirOf s) f.toString = false)) →
      loadSavedState s = {} := by
    intro s u f b hs h
    apply loadSavedState_reject s u f b hs
    rcases h with h | ⟨h1, h2⟩
    · exact Or.inl h
    · exact Or.inr ⟨isUnder_false_of_not_nested _ _ h1, isUnder_false_of_not_nested _ _ h2⟩
  refine ⟨?_, ?_, ?_⟩
  · intro s u f b hs h
    have := hgen s u f b hs h
    exact ⟨this, by rw [this]; simp [ResumeData.isValid]⟩
  · intro s u b hs hh hd
    apply hgen s u _ b hs
    right
    rcases hd with hd | hd <;> simp only [downloadDirOf, hh, hd] <;> decide
  · intro s u b hs hh hd
    apply hgen s u _ b hs
    right
    rcases hd with hd | hd <;> simp only [downloadDirOf, hh, hd] <;> decide

theorem loadSavedState_rejects_outside_witness :
    nestedUnder strayRecord.homePath "/etc/passwd" = false ∧
    nestedUnder (downloadDirOf strayRecord) "/etc/passwd" = false ∧
    loadSavedState strayRecord = {} :=
  ⟨by decide, by decide,
    (loadSavedState_rejects_outside.1 strayRecord (JsonValue.string "https://a.example/f.bin")
      (JsonValue.string "/etc/passwd") (JsonValue.number 7) rfl
      (Or.inr ⟨by decide, by decide⟩)).1⟩

/-! ## The directory test of the source from the policy of the specification -/

theorem splitSlash_noslash (seg : List Char) (h : '/' ∉ seg) : splitSlash seg = [seg] := by
  induction seg with
  | nil => rfl
  | cons c cs ih =>
    have hc : c ≠ '/' := fun e => h (by simp [e])
    have hcs : '/' ∉ cs := fun e => h (List.mem_cons_of_mem c e)
    rw [splitSlash]
    simp [hc, ih hcs]

theorem splitSlash_mem_noslash (p : List Char) : ∀ seg ∈ splitSlash p, '/' ∉ seg := by
  induction p with
  | nil => intro seg hseg; simp [splitSlash] at hseg; simp [hseg]
  | cons c cs ih =>
    intro seg hseg
    rw [splitSlash] at hseg
    by_cases hc : c = '/'
    · simp only [hc, if_true, List.mem_cons] at hseg
      rcases hseg with rfl | hseg
      · simp
      · exact ih seg hseg
    · simp only [hc, if_false] at hseg
      cases hs : splitSlash cs with
      | nil => exact absurd hs (splitSlash_ne_nil cs)
      | cons first rest =>
        rw [hs] at hseg ih
        simp only [List.mem_cons] at hseg
        rcases hseg with rfl | hseg
        · intro hmem
          simp only [List.mem_cons] at hmem
          rcases hmem with e | e
          · exact hc e.symm
          · exact ih first (by simp) e
        · exact ih seg (by simp [hseg])

theorem normalizeSegments_mem (absolute : Bool) (segs acc : List (List Char)) :
    ∀ x ∈ normalizeSegments absolute acc segs, x ∈ acc ∨ (x ∈ segs ∧ x ≠ []) := by
  induction segs generalizing acc with
  | nil => intro x hx; simp [normalizeSegments] at hx; exact Or.inl hx
  | cons seg rest ih =>
    intro x hx
    have lift : ∀ acc2 : List (List Char), (∀ y ∈ acc2, y ∈ acc ∨ (y = seg ∧ seg ≠ [])) →
        x ∈ normalizeSegments absolute acc2 rest → x ∈ acc ∨ (x ∈ seg :: rest ∧ x ≠ []) := by
      intro acc2 hacc hmem
      rcases ih acc2 x hmem with h | h
      · rcases hacc x h with h3 | ⟨h3, h4⟩
        · exact Or.inl h3
        · exact Or.inr ⟨by simp [h3], by rw [h3]; exact h4⟩
      · exact Or.inr ⟨List.mem_cons_of_mem seg h.1, h.2⟩
    by_cases h1 : seg = [] ∨ seg = ['.']
    · have e : normalizeSegments absolute acc (seg :: rest) =
          normalizeSegments absolute acc rest := by
        simp only [normalizeSegments, h1, if_true]
      rw [e] at hx
      exact lift acc (fun y hy => Or.inl hy) hx
    · by_cases h2 : seg = ['.', '.']
      · have hne : seg ≠ [] := by rw [h2]; simp
        cases acc with
        | nil =>
          by_cases ha : absolute = true
          · have e : normalizeSegments absolute [] (seg :: rest) =
                normalizeSegments absolute [] rest := by
              simp [normalizeSegments, h2, ha]
            rw [e] at hx
            exact lift [] (fun y hy => Or.inl hy) hx
          · have e : normalizeSegments absolute [] (seg :: rest) =
                normalizeSegments absolute [seg] rest := by
              simp [normalizeSegments, h2, ha]
            rw [e] at hx
            exact lift [seg] (fun y hy => Or.inr ⟨by simpa using hy, hne⟩) hx
        | cons top below =>
          by_cases ht : top = ['.', '.']
          · have e : normalizeSegments absolute (top :: below) (seg :: rest) =
                normalizeSegments absolute (seg :: top :: below) rest := by
              simp [normalizeSegments, h2, ht]
            rw [e] at hx
            refine lift (seg :: top :: below) ?_ hx
            intro y hy
            simp only [List.mem_cons] at hy
            rcases hy with hy | hy | hy
            · exact Or.inr ⟨hy, hne⟩
            · exact Or.inl (by simp [hy])
            · exact Or.inl (by simp [hy])
          · have e : normalizeSegments absolute (top :: below) (seg :: rest) =
                normalizeSegments absolute below rest := by
              simp [normalizeSegments, h2, ht]
            rw [e] at hx
            exact lift below (fun y hy => Or.inl (List.mem_cons_of_mem top hy)) hx
      · have e : normalizeSegments absolute acc (seg :: rest) =
            normalizeSegments absolute (seg :: acc) rest := by
          simp only [normalizeSegments, h1, h2, if_false]
        rw [e] at hx
        refine lift (seg :: acc) ?_ hx
        intro y hy
        simp only [List.mem_cons] at hy
        rcases hy with hy | hy
        · exact Or.inr ⟨hy, fun e2 => h1 (Or.inl e2)⟩
        · exact Or.inl hy

theorem intercalate_cons_cons (x y : List Char) (r : List (List Char)) :
    List.intercalate ['/'] (x :: y :: r) = x ++ '/' :: List.intercalate ['/'] (y :: r) := by
  simp [List.intercalate]

theorem intercalate_single (x : List Char) : List.intercalate ['/'] [x] = x := by
  simp [List.intercalate]

theorem intercalate_append (a : List (List Char)) (y : List Char) (r : List (List Char))
    (ha : a ≠ []) :
    List.intercalate ['/'] (a ++ y :: r) =
      List.intercalate ['/'] a ++ '/' :: List.intercalate ['/'] (y :: r) := by
  induction a with
  | nil => exact absurd rfl ha
  | cons x rest ih =>
    cases rest with
    | nil =>
      rw [intercalate_single]
      exact intercalate_cons_cons x y r
    | cons z more =>
      have e : (x :: z :: more) ++ y :: r = x :: z :: (more ++ y :: r) := rfl
      rw [e, intercalate_cons_cons, intercalate_cons_cons]
      have ih2 := ih (by simp)
      have e2 : z :: (more ++ y :: r) = (z :: more) ++ y :: r := rfl
      rw [e2, ih2]
      simp

/-- The components of a cleaned absolute path are the segments it was joined from. -/
theorem filter_splitSlash_intercalate (segs : List (List Char))
    (hg : ∀ x ∈ segs, x ≠ [] ∧ '/' ∉ x) :
    (splitSlash (List.intercalate ['/'] segs)).filter (fun seg => !seg.isEmpty) = segs := by
  induction segs with
  | nil => simp [List.intercalate, splitSlash]
  | cons x rest ih =>
    obtain ⟨hx1, hx2⟩ := hg x (by simp)
    have hrest : ∀ y ∈ rest, y ≠ [] ∧ '/' ∉ y := fun y hy => hg y (List.mem_cons_of_mem x hy)
    have hfx : List.filter (fun seg : List Char => !seg.isEmpty) [x] = [x] := by
      cases x with
      | nil => exact absurd rfl hx1
      | cons c cs => rfl
    cases rest with
    | nil =>
      rw [intercalate_single, splitSlash_noslash x hx2]
      exact hfx
    | cons y r =>
      rw [intercalate_cons_cons, splitSlash_append, List.filter_append, splitSlash_noslash x hx2,
        hfx, ih hrest]
      rfl

theorem cleanChars_absolute (p : List Char) (h : p.head? = some '/') :
    cleanChars p = '/' :: List.intercalate ['/'] (normalizeSegments true [] (splitSlash p)) := by
  have hne : p ≠ [] := by
    intro e; rw [e] at h; simp at h
  simp [cleanChars, hne, h]

theorem cleanSegments_good (p : List Char) :
    ∀ x ∈ normalizeSegments true [] (splitSlash p), x ≠ [] ∧ '/' ∉ x := by
  intro x hx
  rcases normalizeSegments_mem true (splitSlash p) [] x hx with h | ⟨h1, h2⟩
  · simp at h
  · exact ⟨h2, splitSlash_mem_noslash p x h1⟩

/-- The components of the cleaned form of an absolute path. -/
theorem components_cleanPath (p : String) (h : isAbsolute p = true) :
    components (cleanPath p) = normalizeSegments true [] (splitSlash p.data) := by
  have hh : p.data.head? = some '/' := by simpa [isAbsolute] using h
  unfold components cleanPath
  simp only
  rw [cleanChars_absolute p.data hh]
  have e : splitSlash ('/' :: List.intercalate ['/'] (normalizeSegments true [] (splitSlash p.data)))
      = [] :: splitSlash (List.intercalate ['/'] (normalizeSegments true [] (splitSlash p.data))) := by
    rw [splitSlash]; simp
  rw [e, List.filter_cons]
  simp only [List.isEmpty_nil, Bool.not_true, Bool.false_eq_true, if_false]
  exact filter_splitSlash_intercalate _ (cleanSegments_good p.data)

/-- The policy of the specification implies the test of the source for an absolute
directory other than the root. -/
theorem isUnder_of_nested (dir path : String) (hd : isAbsolute dir = true)
    (hp : isAbsolute path = true) (hroot : cleanPath dir ≠ "/")
    (h : nestedUnder dir path = true) :
    isUnder (cleanPath dir) (cleanPath path) = true := by
  have hdh : dir.data.head? = some '/' := by simpa [isAbsolute] using hd
  have hph : path.data.head? = some '/' := by simpa [isAbsolute] using hp
  unfold nestedUnder at h
  rw [ List.isPrefixOf_iff_prefix, components_cleanPath dir hd, components_cleanPath path hp] at h
  obtain ⟨t, ht⟩ := h
  have hdne : normalizeSegments true [] (splitSlash dir.data) ≠ [] := by
    intro e
    apply hroot
    unfold cleanPath
    rw [cleanChars_absolute dir.data hdh, e]
    rfl
  unfold isUnder
  rw [Bool.or_eq_true]
  cases t with
  | nil =>
    right
    rw [List.append_nil] at ht
    have : cleanPath path = cleanPath dir := by
      unfold cleanPath
      rw [cleanChars_absolute dir.data hdh, cleanChars_absolute path.data hph, ht]
    simp [this]
  | cons y r =>
    left
    unfold startsWith
    rw [ List.isPrefixOf_iff_prefix]
    have e1 : (cleanPath dir ++ "/").data = (cleanPath dir).data ++ ['/'] := by
      rw [String.data_append]
    rw [e1]
    unfold cleanPath
    simp only
    rw [cleanChars_absolute dir.data hdh, cleanChars_absolute path.data hph, ← ht,
      intercalate_append _ y r hdne]
    exact ⟨List.intercalate ['/'] (y :: r), by simp⟩

/-- The record `loadSavedState` returns when the path of the record is nested under a
directory of the allow-list that is absolute and not the root: the record is valid and
carries the url and the path of the file, with the size of the destination file when it
exists and the stored count otherwise. -/
theorem loadSavedState_accepts_nested (s : DownloadItem) (u f b : JsonValue)
    (hs : s.stateFile = StateFile.object u f b) (hurl : s.urlValid u.toString = true)
    (habs : isAbsolute f.toString = true)
    (hnest : (isAbsolute s.homePath = true ∧ cleanPath s.homePath ≠ "/" ∧
        nestedUnder s.homePath f.toString = true) ∨
      (isAbsolute (downloadDirOf s) = true ∧ cleanPath (downloadDirOf s) ≠ "/" ∧
        nestedUnder (downloadDirOf s) f.toString = true)) :
    (loadSavedState s).isValid s.urlValid = true ∧
    (loadSavedState s).url = u.toString ∧
    (loadSavedState s).filePath = f.toString ∧
    (loadSavedState s).bytesDownloaded =
      (if fileExists s f.toString = true then fileSize s f.toString
        else doubleToInt64 b.toDouble) := by
  have hunder : isUnder (cleanPath s.homePath) (cleanPath f.toString) = true ∨
      isUnder (cleanPath (downloadDirOf s)) (cleanPath f.toString) = true := by
    rcases hnest with ⟨h1, h2, h3⟩ | ⟨h1, h2, h3⟩
    · exact Or.inl (isUnder_of_nested _ _ h1 habs h2 h3)
    · exact Or.inr (isUnder_of_nested _ _ h1 habs h2 h3)
  rw [loadSavedState_accept s u f b hs habs hunder]
  refine ⟨?_, rfl, rfl, rfl⟩
  have hne : f.toString ≠ "" := by
    intro e; rw [e] at habs; exact absurd habs (by decide)
  simp [ResumeData.isValid, hurl, hne]

/-! ## C5: resuming from the size on disk -/

theorem toString_natCast (n : Nat) : toString ((n : Nat) : Int) = toString n := rfl

theorem rangeHeader_pos (n : Nat) (h : 0 < n) :
    rangeHeader ((n : Nat) : Int) = some ("bytes=" ++ toString n ++ "-") := by
  have : (0 : Int) < (n : Int) := by exact_mod_cast h
  simp [rangeHeader, this, toString_natCast]

theorem fileSize_of_some (s : DownloadItem) (path : String) (c : QByteArray)
    (h : s.disk path = some c) : fileSize s path = (c.length : Int) := by
  simp [fileSize, h]

/-- What `handleMetaDataChanged` does with a Content-Length header when no reset applies:
it stores the wrapped sum and aborts exactly when the wrapped sum exceeds the cap. -/
theorem handleMetaDataChanged_length (status : Int) (declared : Int) (s : DownloadItem)
    (hr : s.reply_.isSome = true) (hno : ¬ (status = 200 ∧ s.startOffset_ > 0)) :
    (handleMetaDataChanged status (some declared) s).totalBytes_ =
      add64 s.startOffset_ declared ∧
    (kMaxDownloadBytes < add64 s.startOffset_ declared →
      (handleMetaDataChanged status (some declared) s).signals =
        s.signals ++ [Signal.statusTextChanged "Aborted: file too large",
          Signal.downloadFailed "Content length exceeds limit"] ∧
      (handleMetaDataChanged status (some declared) s).suppressErrors_ = true ∧
      (handleMetaDataChanged status (some declared) s).reply_ =
        s.reply_.map (fun r => QNetworkReply.mk r.request true)) ∧
    (¬ kMaxDownloadBytes < add64 s.startOffset_ declared →
      (handleMetaDataChanged status (some declared) s).signals = s.signals ∧
      (handleMetaDataChanged status (some declared) s).suppressErrors_ = s.suppressErrors_ ∧
      (handleMetaDataChanged status (some declared) s).reply_ = s.reply_) := by
  have hrn : ¬ s.reply_ = none := by
    intro hn; simp [hn] at hr
  simp only [handleMetaDataChanged]
  by_cases hbig : kMaxDownloadBytes < add64 s.startOffset_ declared <;>
    simp [hrn, hno, hbig]

theorem chunksOf_cons (a : Action) (rest : List Action) :
    chunksOf (a :: rest) = chunksOf [a] ++ chunksOf rest := by
  cases a <;> simp [chunksOf]

theorem chunksOf_map_readyRead (chunks : List QByteArray) :
    chunksOf (chunks.map Action.readyRead) = chunks := by
  induction chunks with
  | nil => rfl
  | cons d rest ih => simp [chunksOf, ih]

/-- One event of a partial response on an engine that is streaming to its file: the
chunk of a data event is appended and counted, the other events leave the file and the
counter alone, and no failure is emitted. -/
theorem partial_response_step (a : Action) (s : DownloadItem) (c : QByteArray) (n : Int)
    (f : String) (limit : Nat)
    (hr : s.reply_.isSome = true) (ho : s.fileOpen = true) (hfn : s.fileName = f)
    (hc : s.disk f = some c) (hd : s.downloaded_ = (c.length : Int))
    (hoff : s.startOffset_ = n) (hn : 0 ≤ n) (hdl : s.deviceLimit = limit)
    (ha : PartialResponseEvent n a)
    (hcap : ((c.length + (chunksOf [a]).flatten.length : Nat) : Int) ≤ kMaxDownloadBytes)
    (hdev : c.length + (chunksOf [a]).flatten.length ≤ limit) :
    (step a s).reply_.isSome = true ∧ (step a s).fileOpen = true ∧
    (step a s).fileName = f ∧
    (step a s).disk f = some (c ++ (chunksOf [a]).flatten) ∧
    (step a s).downloaded_ = ((c ++ (chunksOf [a]).flatten).length : Int) ∧
    (step a s).startOffset_ = n ∧ (step a s).deviceLimit = limit ∧
    failures (step a s).signals = failures s.signals := by
  have hk : kMaxDownloadBytes = 2 ^ 30 := by decide
  have hrn : ¬ s.reply_ = none := by
    intro h; simp [h] at hr
  cases a with
  | readyRead d =>
    simp only [chunksOf, List.flatten_cons, List.flatten_nil, List.append_nil] at hcap hdev ⊢
    rw [step_readyRead d s hr]
    by_cases hdn : d = []
    · subst hdn
      rw [handleReadyRead_nil]
      simp [hr, ho, hfn, hc, hd, hoff, hdl]
    · have hgetD : (s.disk s.fileName).getD [] = c := by simp [hfn, hc]
      have hadd : add64 s.downloaded_ (d.length : Int) = s.downloaded_ + (d.length : Int) :=
        add64_eq _ _ (by omega) (by omega)
      have hfit : add64 s.downloaded_ (d.length : Int) ≤ kMaxDownloadBytes := by
        rw [hadd]; omega
      have hroom : ((s.disk s.fileName).getD []).length + d.length ≤ s.deviceLimit := by
        rw [hgetD, hdl]; exact hdev
      obtain ⟨e1, e2, e3, -, e5, e6, e7, -⟩ := handleReadyRead_accept d s hr ho hdn hfit hroom
      obtain ⟨-, -, f3, -, -, -, -, -, f9, -⟩ :=
        handleReadyRead_accept_frame d s hr ho hdn hfit hroom
      refine ⟨by rw [e7]; exact hr, e5, by rw [e6, hfn], ?_, ?_, by rw [f3, hoff],
        by rw [f9, hdl], by rw [e3]⟩
      · rw [e1, hgetD, hfn]; exact setFile_same _ _ _
      · rw [e2, hadd, hd, List.length_append]; push_cast; rfl
  | downloadProgress r t =>
    simp only [chunksOf, List.flatten_nil, List.append_nil]
    simp [step, hr, handleDownloadProgress, ho, hfn, hc, hd, hoff, hdl, failures, isFailure]
  | timeout =>
    simp only [chunksOf, List.flatten_nil, List.append_nil]
    simp only [step]
    split_ifs <;>
      simp [updateSpeed, hr, ho, hfn, hc, hd, hoff, hdl, failures, isFailure]
  | metaDataChanged st len =>
    simp only [chunksOf, List.flatten_nil, List.append_nil]
    obtain ⟨hst, hlen⟩ := ha
    have hno : ¬ (st = 200 ∧ s.startOffset_ > 0) := fun h => hst h.1
    have hno2 : ¬ (st = 200 ∧ s.startOffset_ > 0 ∧ s.fileOpen = true) := fun h => hst h.1
    obtain ⟨g1, g2, g3, g4, g5, g6, g7⟩ := handleMetaDataChanged_storage st len s hr
    rw [if_neg hno2] at g1
    rw [if_neg hno] at g2 g3
    have hstep : step (Action.metaDataChanged st len) s = handleMetaDataChanged st len s := by
      simp [step, hr]
    rw [hstep]
    refine ⟨g7, by rw [g4]; exact ho, by rw [g5]; exact hfn, by rw [g1]; exact hc,
      by rw [g2]; exact hd, by rw [g3]; exact hoff, by rw [g6]; exact hdl, ?_⟩
    cases len with
    | none =>
      simp only [handleMetaDataChanged]
      simp [hrn, hno]
    | some declared =>
      obtain ⟨h0, hle⟩ := hlen declared rfl
      have hadd : add64 s.startOffset_ declared = s.startOffset_ + declared :=
        add64_eq _ _ (by omega) (by omega)
      have hfit : ¬ kMaxDownloadBytes < add64 s.startOffset_ declared := by
        rw [hadd, hoff]; omega
      obtain ⟨-, -, h3⟩ := handleMetaDataChanged_length st declared s hr hno
      rw [(h3 hfit).1]
  | startNew u p => exact absurd ha (by simp [PartialResponseEvent])
  | resumeFromSaved => exact absurd ha (by simp [PartialResponseEvent])
  | pause => exact absurd ha (by simp [PartialResponseEvent])
  | clearSavedState => exact absurd ha (by simp [PartialResponseEvent])
  | finished t e => exact absurd ha (by simp [PartialResponseEvent])
  | errorOccurred e t => exact absurd ha (by simp [PartialResponseEvent])
  | sslErrors errs => exact absurd ha (by simp [PartialResponseEvent])

/-- The events of a partial response on an engine that is streaming to its file: the
chunks delivered are appended in order, the counter follows the length of the file and
no failure is emitted. -/
theorem partial_response_appends (events : List Action) (s : DownloadItem) (c : QByteArray)
    (n : Int) (f : String) (limit : Nat)
    (hr : s.reply_.isSome = true) (ho : s.fileOpen = true) (hfn : s.fileName = f)
    (hc : s.disk f = some c) (hd : s.downloaded_ = (c.length : Int))
    (hoff : s.startOffset_ = n) (hn : 0 ≤ n) (hdl : s.deviceLimit = limit)
    (hev : ∀ a ∈ events, PartialResponseEvent n a)
    (hcap : ((c.length + (chunksOf events).flatten.length : Nat) : Int) ≤ kMaxDownloadBytes)
    (hdev : c.length + (chunksOf events).flatten.length ≤ limit) :
    (run events s).disk f = some (c ++ (chunksOf events).flatten) ∧
    (run events s).downloaded_ = ((c.length + (chunksOf events).flatten.length : Nat) : Int) ∧
    failures (run events s).signals = failures s.signals ∧
    isActive (run events s) = true := by
  induction events generalizing s c with
  | nil => simp [run_nil, chunksOf, hc, hd, isActive, hr]
  | cons a rest ih =>
    rw [chunksOf_cons, List.flatten_append, List.length_append] at hcap hdev
    obtain ⟨p1, p2, p3, p4, p5, p6, p7, p8⟩ :=
      partial_response_step a s c n f limit hr ho hfn hc hd hoff hn hdl
        (hev a (List.mem_cons_self a rest)) (by push_cast at hcap ⊢; omega) (by omega)
    obtain ⟨q1, q2, q3, q4⟩ := ih (step a s) (c ++ (chunksOf [a]).flatten) p1 p2 p3 p4 p5 p6 p7
      (fun b hb => hev b (List.mem_cons_of_mem a hb))
      (by rw [List.length_append]; push_cast at hcap ⊢; omega)
      (by rw [List.length_append]; omega)
    rw [run_cons, chunksOf_cons, List.flatten_append]
    refine ⟨by rw [q1, List.append_assoc], ?_, by rw [q3, p8], q4⟩
    rw [q2, List.length_append, List.length_append]; push_cast; omega

/-- A record file that is an object and for which `loadSavedState` returns a valid
record: its url is well-formed, its path is absolute and the path passes one of the two
directory tests. -/
theorem loadSavedState_of_valid (s : DownloadItem) (u f b : JsonValue)
    (hs : s.stateFile = StateFile.object u f b)
    (hv : (loadSavedState s).isValid s.urlValid = true) :
    s.urlValid u.toString = true ∧ isAbsolute f.toString = true ∧
    (isUnder (cleanPath s.homePath) (cleanPath f.toString) = true ∨
      isUnder (cleanPath (downloadDirOf s)) (cleanPath f.toString) = true) := by
  have hempty : ¬ (({} : ResumeData).isValid s.urlValid = true) := by
    simp [ResumeData.isValid]
  by_cases habs : isAbsolute f.toString = true
  · by_cases h1 : isUnder (cleanPath s.homePath) (cleanPath f.toString) = true
    · have hl := loadSavedState_accept s u f b hs habs (Or.inl h1)
      rw [hl] at hv
      simp only [ResumeData.isValid, Bool.and_eq_true] at hv
      exact ⟨hv.1, habs, Or.inl h1⟩
    · by_cases h2 : isUnder (cleanPath (downloadDirOf s)) (cleanPath f.toString) = true
      · have hl := loadSavedState_accept s u f b hs habs (Or.inr h2)
        rw [hl] at hv
        simp only [ResumeData.isValid, Bool.and_eq_true] at hv
        exact ⟨hv.1, habs, Or.inr h2⟩
      · rw [loadSavedState_reject s u f b hs
          (Or.inr ⟨by simpa using h1, by simpa using h2⟩)] at hv
        exact absurd hv hempty
  · rw [loadSavedState_reject s u f b hs (Or.inl (by simpa using habs))] at hv
    exact absurd hv hempty

/-- C5, amended.  Let the record file be an object that names the url u and the path f,
whatever byte count it stores, let `loadSavedState` return a valid record for it, and let
the destination file hold n > 0 bytes and open for writing.  Then `resumeFromSaved` sets
the downloaded counter and the start offset to n, the size of the file on disk, and sends
exactly one request, whose Range header is `bytes=n-` with n in decimal.  If the events
of a partial response follow (metadata with a status other than 200 and a declared
length, if any, that keeps the total within 2^30 bytes; progress notifications; timer
ticks; data) whose chunks keep the file within 2^30 bytes and within the room of the
device, the file afterwards holds the n bytes it held followed by exactly those chunks in
order, the counter is the length of the file and no failure has been emitted. -/
theorem resume_continues_from_disk (s : DownloadItem) (u f : String) (b : JsonValue)
    (content : QByteArray)
    (hs : s.stateFile = StateFile.object (JsonValue.string u) (JsonValue.string f) b)
    (hvalid : (loadSavedState s).isValid s.urlValid = true)
    (hfile : s.disk f = some content) (hn : 0 < content.length)
    (hopen : s.openable f = true) :
    (resumeFromSaved s).downloaded_ = (content.length : Int) ∧
    (resumeFromSaved s).startOffset_ = (content.length : Int) ∧
    (resumeFromSaved s).sent = s.sent ++
      [{ url := u, userAgent := kUserAgent, manualRedirect := true,
         range := some ("bytes=" ++ toString content.length ++ "-") }] ∧
    isActive (resumeFromSaved s) = true ∧
    ∀ events : List Action,
      (∀ a ∈ events, PartialResponseEvent (content.length : Int) a) →
      ((content.length + (chunksOf events).flatten.length : Nat) : Int) ≤ kMaxDownloadBytes →
      content.length + (chunksOf events).flatten.length ≤ s.deviceLimit →
      (run events (resumeFromSaved s)).disk f = some (content ++ (chunksOf events).flatten) ∧
      (run events (resumeFromSaved s)).downloaded_ =
        ((content.length + (chunksOf events).flatten.length : Nat) : Int) ∧
      failures (run events (resumeFromSaved s)).signals =
        failures (resumeFromSaved s).signals := by
  obtain ⟨hu, habs, hunder⟩ :=
    loadSavedState_of_valid s (JsonValue.string u) (JsonValue.string f) b hs hvalid
  simp only [JsonValue.toString] at hu habs hunder
  have hload := loadSavedState_accept s (JsonValue.string u) (JsonValue.string f) b hs habs hunder
  simp only [JsonValue.toString] at hload
  have hpath : (loadSavedState s).filePath = f := by rw [hload]
  have hurl : (loadSavedState s).url = u := by rw [hload]
  have hf0 : f ≠ "" := by
    intro h0; rw [h0] at habs; exact absurd habs (by decide)
  have hv : (loadSavedState s).isValid s.urlValid = true := by
    simp [ResumeData.isValid, hurl, hpath, hu, hf0]
  obtain ⟨e1, e2, -, e4, e5, -, -, e8, e9, e10, -, -, -, -, e15, -⟩ :=
    resumeFromSaved_ok s hv (by rw [hpath]; exact hopen)
  rw [hpath] at e1 e2 e5 e8 e9 e10
  rw [hurl] at e2
  have hsz := fileSize_of_some s f content hfile
  rw [hsz] at e2 e8 e9
  rw [rangeHeader_pos _ hn] at e2
  have hgetD : (s.disk f).getD [] = content := by simp [hfile]
  rw [hgetD] at e10
  have hc : (resumeFromSaved s).disk f = some content := by
    rw [e10]; exact setFile_same _ _ _
  have hr : (resumeFromSaved s).reply_.isSome = true := by rw [e1]; rfl
  refine ⟨e8, e9, e2, hr, ?_⟩
  intro events hev hcap hdev
  obtain ⟨g1, g2, g3, -⟩ := partial_response_appends events (resumeFromSaved s) content
    (content.length : Int) f s.deviceLimit hr e4 e5 hc e8 e9 (by omega) e15 hev hcap hdev
  exact ⟨g1, g2, g3⟩

theorem resume_continues_from_disk_witness :
    (run pausedAtThree emptyHome).disk "/home/u/Downloads/f.bin" = some [1, 2, 3] ∧
    (resumeFromSaved (run pausedAtThree emptyHome)).sent =
      (run pausedAtThree emptyHome).sent ++
        [{ url := "https://a.example/f.bin", userAgent := kUserAgent, manualRedirect := true,
           range := some "bytes=3-" }] ∧
    (run [Action.metaDataChanged 206 (some 3), Action.readyRead [4],
        Action.downloadProgress 1 3, Action.readyRead [5, 6]]
      (resumeFromSaved (run pausedAtThree emptyHome))).disk "/home/u/Downloads/f.bin" =
      some [1, 2, 3, 4, 5, 6] :=
  ⟨by decide,
   (resume_continues_from_disk (run pausedAtThree emptyHome) "https://a.example/f.bin"
      "/home/u/Downloads/f.bin" (JsonValue.number 3) [1, 2, 3]
      (by decide) (by decide) (by decide) (by decide) (by decide)).2.2.1,
   ((resume_continues_from_disk (run pausedAtThree emptyHome) "https://a.example/f.bin"
      "/home/u/Downloads/f.bin" (JsonValue.number 3) [1, 2, 3]
      (by decide) (by decide) (by decide) (by decide) (by decide)).2.2.2.2
      [Action.metaDataChanged 206 (some 3), Action.readyRead [4],
        Action.downloadProgress 1 3, Action.readyRead [5, 6]]
      (by
        intro a ha
        simp only [List.mem_cons, List.mem_singleton, List.not_mem_nil, or_false] at ha
        rcases ha with rfl | rfl | rfl | rfl
        · refine ⟨by decide, ?_⟩
          intro declared hdecl
          cases hdecl
          decide
        · trivial
        · trivial
        · trivial)
      (by decide) (by decide)).1⟩

/-- C5, counterexample.  A transfer paused with three bytes on disk is resumed.  When the
server delivers a chunk of 2^30 + 1 bytes, the chunk is skipped and the file still holds
the three bytes.  When the server answers with status 200 and delivers the chunk `[4]`,
the file is emptied first and holds `[4]` afterwards.  In neither case is the file the
three bytes followed by the chunks delivered. -/
theorem resumed_file_not_continued :
    (run pausedAtThree emptyHome).disk "/home/u/Downloads/f.bin" = some [1, 2, 3] ∧
    isActive resumedAtThree = true ∧
    (run ([oversize].map Action.readyRead) resumedAtThree).disk "/home/u/Downloads/f.bin" =
      some [1, 2, 3] ∧
    ([1, 2, 3] : QByteArray) ++ [oversize].flatten ≠ [1, 2, 3] ∧
    (run [Action.metaDataChanged 200 (some 1), Action.readyRead [4]] resumedAtThree).disk
      "/home/u/Downloads/f.bin" = some [4] ∧
    (run [Action.metaDataChanged 206 (some 1), Action.readyRead [4]] resumedAtThree).disk
      "/home/u/Downloads/f.bin" = some [1, 2, 3, 4] := by
  have hact : resumedAtThree.reply_.isSome = true := by decide
  have ho : resumedAtThree.fileOpen = true := by decide
  have hdl : resumedAtThree.downloaded_ = 3 := by decide
  have hdisk : resumedAtThree.disk "/home/u/Downloads/f.bin" = some [1, 2, 3] := by decide
  have hne : oversize ≠ [] := by
    intro h
    have := oversize_length
    rw [h] at this
    exact absurd this (by decide)
  have hbig : kMaxDownloadBytes < add64 resumedAtThree.downloaded_ (oversize.length : Int) := by
    rw [hdl, oversize_length]; decide
  obtain ⟨r1, -⟩ := handleReadyRead_reject oversize _ hact ho hne hbig
  refine ⟨by decide, hact, ?_, ?_, by decide, by decide⟩
  · rw [List.map_cons, List.map_nil, run_cons, run_nil, step_readyRead _ _ hact, r1]
    exact hdisk
  · simpa using hne

/-! ## C6: completion without error -/

/-- C6.  On an active engine, a completion with no redirect target, with
error-suppression clear and no transport error makes `handleFinished` remove the record
file, so that `loadSavedState` returns the empty, invalid record; it emits the status text
"Completed", one `downloadFinished` carrying the destination path of the attempt and a
zero rate, and nothing else, hence no failure; the file is closed and the engine is
inactive. -/
theorem completion_clears_record (s : DownloadItem)
    (hact : isActive s = true) (hsup : s.suppressErrors_ = false) :
    (handleFinished none NetworkError.NoError s).stateFile = StateFile.missing ∧
    loadSavedState (handleFinished none NetworkError.NoError s) = {} ∧
    (loadSavedState (handleFinished none NetworkError.NoError s)).isValid s.urlValid = false ∧
    (handleFinished none NetworkError.NoError s).signals =
      s.signals ++ [Signal.statusTextChanged "Completed",
        Signal.downloadFinished s.targetPath_, Signal.speedUpdated 0] ∧
    (handleFinished none NetworkError.NoError s).fileOpen = false ∧
    isActive (handleFinished none NetworkError.NoError s) = false ∧
    (handleFinished none NetworkError.NoError s).disk = s.disk := by
  have hrn : ¬ s.reply_ = none := by
    intro hn; simp [isActive, hn] at hact
  have hst : (handleFinished none NetworkError.NoError s).stateFile = StateFile.missing := by
    simp only [handleFinished]
    simp [hrn, hsup]
  have hload : loadSavedState (handleFinished none NetworkError.NoError s) = {} := by
    simp only [loadSavedState, hst]
  refine ⟨hst, hload, ?_, ?_, ?_, ?_, ?_⟩
  · rw [hload]; simp [ResumeData.isValid]
  all_goals
    simp only [handleFinished]
    simp [hrn, hsup, isActive]

theorem completion_clears_record_witness :
    isActive (run threeBytes emptyHome) = true ∧
    (run threeBytes emptyHome).suppressErrors_ = false ∧
    (handleFinished none NetworkError.NoError (run threeBytes emptyHome)).stateFile =
      StateFile.missing :=
  ⟨by decide, by decide,
    (completion_clears_record (run threeBytes emptyHome) (by decide) (by decide)).1⟩

/-! ## C7: the declared content length -/

/-- C7, the code at the failing input.  The engine has been resumed with one byte on
disk, so the start offset is 1, and the metadata event carries status 206 and
Content-Length 2^63 - 1.  The true sum 2^63 exceeds 2^30, yet `handleMetaDataChanged`
stores the wrapped sum -2^63 as the total, emits nothing, leaves error-suppression clear
and does not abort the reply. -/
theorem content_length_sum_wraps :
    isActive resumedAtOne = true ∧ resumedAtOne.startOffset_ = 1 ∧
    kMaxDownloadBytes < resumedAtOne.startOffset_ + 9223372036854775807 ∧
    (handleMetaDataChanged 206 (some 9223372036854775807) resumedAtOne).totalBytes_ =
      -9223372036854775808 ∧
    (handleMetaDataChanged 206 (some 9223372036854775807) resumedAtOne).signals =
      resumedAtOne.signals ∧
    (handleMetaDataChanged 206 (some 9223372036854775807) resumedAtOne).suppressErrors_ =
      false ∧
    (handleMetaDataChanged 206 (some 9223372036854775807) resumedAtOne).reply_ =
      resumedAtOne.reply_ := by
  have hact : resumedAtOne.reply_.isSome = true := by decide
  have hoff : resumedAtOne.startOffset_ = 1 := by decide
  have hsup : resumedAtOne.suppressErrors_ = false := by decide
  have hw : add64 resumedAtOne.startOffset_ 9223372036854775807 = -9223372036854775808 := by
    rw [hoff]; decide
  obtain ⟨e1, -, e3⟩ := handleMetaDataChanged_length 206 9223372036854775807 resumedAtOne hact
    (by intro h; exact absurd h.1 (by decide))
  have hnb : ¬ kMaxDownloadBytes < add64 resumedAtOne.startOffset_ 9223372036854775807 := by
    rw [hw]; decide
  obtain ⟨f1, f2, f3⟩ := e3 hnb
  refine ⟨hact, hoff, ?_, ?_, f1, ?_, f3⟩
  · rw [hoff]; decide
  · rw [e1, hw]
  · rw [f2, hsup]

/-! ## C8: progress in overall terms -/

/-- What `handleDownloadProgress` forwards, in the arithmetic of the machine.  For every
engine state, with start offset s and header-derived total t, and every progress
notification (r, b), it emits exactly one signal, `progressChanged`, whose first figure is
s + r as the machine adds.  Its second figure is s + b as the machine adds when b > 0, it
is -1 when b < 0 and t < 0, and it is t when b < 0 and t is known, as also when b = 0.
The machine sum of s and x is the true sum whenever the true sum is a 64-bit value. -/
theorem progress_in_overall_terms (s : DownloadItem) (r b : Int) :
    (0 < b → (handleDownloadProgress r b s).signals =
      s.signals ++ [Signal.progressChanged (add64 s.startOffset_ r) (add64 s.startOffset_ b)]) ∧
    (b < 0 → s.totalBytes_ < 0 → (handleDownloadProgress r b s).signals =
      s.signals ++ [Signal.progressChanged (add64 s.startOffset_ r) (-1)]) ∧
    (b < 0 → 0 ≤ s.totalBytes_ → (handleDownloadProgress r b s).signals =
      s.signals ++ [Signal.progressChanged (add64 s.startOffset_ r) s.totalBytes_]) ∧
    (b = 0 → (handleDownloadProgress r b s).signals =
      s.signals ++ [Signal.progressChanged (add64 s.startOffset_ r) s.totalBytes_]) ∧
    (∀ x : Int, -(2 : Int) ^ 63 ≤ s.startOffset_ + x → s.startOffset_ + x < 2 ^ 63 →
      add64 s.startOffset_ x = s.startOffset_ + x) := by
  refine ⟨?_, ?_, ?_, ?_, fun x h1 h2 => add64_eq _ _ h1 h2⟩
  · intro hb
    have h1 : ¬ b < 0 := by omega
    simp [handleDownloadProgress, hb, h1]
  · intro hb ht
    simp [handleDownloadProgress, hb, ht]
  · intro hb ht
    have h1 : ¬ s.totalBytes_ < 0 := by omega
    have h2 : ¬ 0 < b := by omega
    simp [handleDownloadProgress, hb, h1, h2]
  · intro hb
    simp [handleDownloadProgress, hb]

theorem progress_in_overall_terms_witness :
    resumedAtThree.startOffset_ = 3 ∧
    (handleDownloadProgress 2 5 resumedAtThree).signals =
      resumedAtThree.signals ++ [Signal.progressChanged 5 8] :=
  ⟨by decide,
    ((progress_in_overall_terms resumedAtThree 2 5).1 (by decide)).trans (by decide)⟩

/-- C8, the code at the failing input.  The engine has been resumed with one byte on
disk, so the start offset is 1, and the progress notification reports a total of
2^63 - 1 bytes for the attempt.  The true sum is 2^63; `handleDownloadProgress` adds in
64 bits and forwards the total -2^63. -/
theorem progress_total_wraps :
    isActive resumedAtOne = true ∧ resumedAtOne.startOffset_ = 1 ∧
    (handleDownloadProgress 0 9223372036854775807 resumedAtOne).signals =
      resumedAtOne.signals ++ [Signal.progressChanged 1 (-9223372036854775808)] ∧
    resumedAtOne.startOffset_ + 9223372036854775807 = 9223372036854775808 ∧
    (step (Action.downloadProgress 0 9223372036854775807) resumedAtOne).signals =
      resumedAtOne.signals ++ [Signal.progressChanged 1 (-9223372036854775808)] := by
  decide

/-! ## C9: pause -/

theorem toDouble_exact (d : Int) (h0 : 0 ≤ d) (h1 : d < 2 ^ 53) : toDouble d = d := by
  have hn : d.natAbs < 2 ^ 53 := by omega
  have hneg : ¬ d < 0 := by omega
  unfold toDouble
  rw [if_neg hneg]
  unfold roundToDoubleNat
  rw [if_pos hn]
  exact Int.natAbs_of_nonneg h0

theorem pause_idle (s : DownloadItem) (h : isActive s = false) : pause s = s := by
  have hn : s.reply_ = none := by
    simpa [isActive] using h
  simp [pause, hn]

/-- What `pause` does on an active engine. -/
theorem pause_active (s : DownloadItem) (h : isActive s = true) :
    (pause s).paused_ = true ∧ (pause s).bytesThisSecond_ = 0 ∧
    (pause s).timerRunning = false ∧
    (pause s).stateFile =
      (if s.configWritable = true then
        StateFile.object (JsonValue.string s.url_) (JsonValue.string s.targetPath_)
          (JsonValue.number (toDouble s.downloaded_))
       else s.stateFile) ∧
    (pause s).signals =
      s.signals ++ [Signal.speedUpdated 0, Signal.statusTextChanged "Paused"] ∧
    (pause s).reply_ = s.reply_.map (fun r => QNetworkReply.mk r.request true) ∧
    (pause s).suppressErrors_ = s.suppressErrors_ ∧
    (pause s).url_ = s.url_ ∧ (pause s).targetPath_ = s.targetPath_ ∧
    (pause s).downloaded_ = s.downloaded_ ∧ (pause s).configWritable = s.configWritable ∧
    (pause s).fileOpen = s.fileOpen ∧ (pause s).disk = s.disk := by
  have hrn : ¬ s.reply_ = none := by
    intro hn; simp [isActive, hn] at h
  simp only [pause]
  simp [hrn]

/-- Pause followed by a completion without redirect target.  When no attempt is active
`pause` changes nothing: the state, the record file and the signals stay as they are.
On an active engine with error-suppression clear, `pause` sets the paused flag, zeroes
the throughput accumulator and, when the record file can be written, stores the record of
the url, the path and the downloaded counter (as a double, which is the counter itself
below 2^53).  The cancellation that follows, a connection error with the cancellation
code and then a completion without redirect target carrying that code, adds the signal
`paused` and no failure, leaves the stored record in place with the current counter and
leaves the engine inactive with its file closed. -/
theorem pause_then_cancellation :
    (∀ s : DownloadItem, isActive s = false → pause s = s) ∧
    (∀ (s : DownloadItem) (text : String), isActive s = true → s.suppressErrors_ = false →
      (pause s).paused_ = true ∧ (pause s).bytesThisSecond_ = 0 ∧
      (s.configWritable = true →
        (pause s).stateFile =
          StateFile.object (JsonValue.string s.url_) (JsonValue.string s.targetPath_)
            (JsonValue.number (toDouble s.downloaded_))) ∧
      (handleFinished none NetworkError.OperationCanceledError
          (handleError NetworkError.OperationCanceledError text (pause s))).signals =
        s.signals ++ [Signal.speedUpdated 0, Signal.statusTextChanged "Paused", Signal.paused,
          Signal.speedUpdated 0] ∧
      (s.configWritable = true →
        (handleFinished none NetworkError.OperationCanceledError
            (handleError NetworkError.OperationCanceledError text (pause s))).stateFile =
          StateFile.object (JsonValue.string s.url_) (JsonValue.string s.targetPath_)
            (JsonValue.number (toDouble s.downloaded_))) ∧
      (handleFinished none NetworkError.OperationCanceledError
          (handleError NetworkError.OperationCanceledError text (pause s))).downloaded_ =
        s.downloaded_ ∧
      isActive (handleFinished none NetworkError.OperationCanceledError
          (handleError NetworkError.OperationCanceledError text (pause s))) = false ∧
      (handleFinished none NetworkError.OperationCanceledError
          (handleError NetworkError.OperationCanceledError text (pause s))).fileOpen = false) ∧
    (∀ d : Int, 0 ≤ d → d < 2 ^ 53 → toDouble d = d) := by
  refine ⟨pause_idle, ?_, toDouble_exact⟩
  intro s text hact hsup
  obtain ⟨e1, e2, -, e4, e5, e6, e7, e8, e9, e10, e11, -, -⟩ := pause_active s hact
  have hrn : ¬ s.reply_ = none := by
    intro hn; simp [isActive, hn] at hact
  have herr : handleError NetworkError.OperationCanceledError text (pause s) =
      emit Signal.paused (pause s) := by
    simp only [handleError]
    simp [e7, hsup, e1]
  have hrn2 : ¬ (pause s).reply_ = none := by
    rw [e6]; cases hs : s.reply_ with
    | none => exact absurd hs hrn
    | some r => simp
  rw [herr]
  refine ⟨e1, e2, ?_, ?_, ?_, ?_, ?_, ?_⟩
  · intro hw; rw [e4, if_pos hw]
  · simp only [handleFinished]
    simp [hrn2, e7, hsup, e1, e5]
  · intro hw
    simp only [handleFinished]
    simp [hrn2, e7, hsup, e1, e4, e8, e9, e10, e11, hw]
  · simp only [handleFinished]
    simp [hrn2, e7, hsup, e1, e10]
  · simp only [handleFinished]
    simp [hrn2, e7, hsup, e1, isActive]
  · simp only [handleFinished]
    simp [hrn2, e7, hsup, e1]

theorem pause_then_cancellation_witness :
    isActive (run threeBytes emptyHome) = true ∧
    (run threeBytes emptyHome).suppressErrors_ = false ∧
    (run threeBytes emptyHome).configWritable = true ∧
    (handleFinished none NetworkError.OperationCanceledError
      (handleError NetworkError.OperationCanceledError "Operation canceled"
        (pause (run threeBytes emptyHome)))).stateFile =
      StateFile.object (JsonValue.string "https://a.example/f.bin")
        (JsonValue.string "/home/u/Downloads/f.bin") (JsonValue.number 3) :=
  ⟨by decide, by decide, by decide,
    ((pause_then_cancellation.2.1 (run threeBytes emptyHome) "Operation canceled" (by decide)
      (by decide)).2.2.2.2.1 (by decide)).trans (by decide)⟩

/-- The engine has rejected a download for its declared length and is still active, with
error-suppression set, when the user pauses: the cancellation that follows is swallowed
and no `paused` signal is emitted. -/
theorem pause_while_suppressed_emits_no_paused :
    isActive (run rejectedByLength emptyHome) = true ∧
    (run rejectedByLength emptyHome).suppressErrors_ = true ∧
    Signal.paused ∉ (run (rejectedByLength ++ [Action.pause] ++ cancellation) emptyHome).signals := by
  refine ⟨by decide, by decide, by decide⟩

/-- C9, the code at the failing input.  The user pauses while a redirect response is
being received, with error-suppression clear.  `handleError` emits `paused` for the
cancellation, but `handleFinished` tests the redirect target before the paused flag.
After five redirects it emits the failure "Redirect limit reached", so the pause is
followed by a failure event.  Before that it follows the redirect: a second request is
sent and the engine is active again, its paused flag cleared by `startRequest`. -/
theorem pause_during_redirect_response :
    isActive (run pauseDuringSixthRedirect emptyHome) = true ∧
    (run pauseDuringSixthRedirect emptyHome).paused_ = true ∧
    (run pauseDuringSixthRedirect emptyHome).suppressErrors_ = false ∧
    failures (run pauseDuringSixthRedirect emptyHome).signals = 0 ∧
    Signal.paused ∈ (run (pauseDuringSixthRedirect ++ cancellationWithTarget) emptyHome).signals ∧
    (run (pauseDuringSixthRedirect ++ cancellationWithTarget) emptyHome).signals.filter isFailure =
      [Signal.downloadFailed "Redirect limit reached"] ∧
    isActive (run pauseDuringRedirect emptyHome) = true ∧
    (run pauseDuringRedirect emptyHome).suppressErrors_ = false ∧
    Signal.paused ∈ (run (pauseDuringRedirect ++ cancellationWithTarget) emptyHome).signals ∧
    failures (run (pauseDuringRedirect ++ cancellationWithTarget) emptyHome).signals = 0 ∧
    isActive (run (pauseDuringRedirect ++ cancellationWithTarget) emptyHome) = true ∧
    isPaused (run (pauseDuringRedirect ++ cancellationWithTarget) emptyHome) = false ∧
    (run (pauseDuringRedirect ++ cancellationWithTarget) emptyHome).sent.length = 2 := by
  decide

/-! ## C10: the record after a connection error -/

/-- The fields that `handleReadyRead` never changes. -/
theorem handleReadyRead_frame (data : QByteArray) (s : DownloadItem) :
    (handleReadyRead data s).url_ = s.url_ ∧
    (handleReadyRead data s).targetPath_ = s.targetPath_ ∧
    (handleReadyRead data s).fileName = s.fileName ∧
    (handleReadyRead data s).fileOpen = s.fileOpen ∧
    (handleReadyRead data s).reply_.isSome = s.reply_.isSome ∧
    (handleReadyRead data s).openable = s.openable ∧
    (handleReadyRead data s).deviceLimit = s.deviceLimit ∧
    (handleReadyRead data s).configWritable = s.configWritable ∧
    (handleReadyRead data s).homePath = s.homePath ∧
    (handleReadyRead data s).downloadLocation = s.downloadLocation ∧
    (handleReadyRead data s).urlValid = s.urlValid ∧
    (handleReadyRead data s).sent = s.sent := by
  simp only [handleReadyRead, pause]
  split_ifs <;> simp <;> cases s.reply_ <;> simp_all <;> split_ifs <;> rfl

/-- Streaming of arbitrary bounded chunks on a device that can hold a file of the size of
the cap: the counter stays the length of the file. -/
theorem stream_keeps_count (chunks : List QByteArray) (s : DownloadItem) (c : QByteArray)
    (hr : s.reply_.isSome = true) (ho : s.fileOpen = true)
    (hc : s.disk s.fileName = some c) (hd : s.downloaded_ = (c.length : Int))
    (hcap : (c.length : Int) ≤ kMaxDownloadBytes)
    (hdev : kMaxDownloadBytes ≤ (s.deviceLimit : Int))
    (hb : ∀ d ∈ chunks, (d.length : Int) < 2 ^ 62) :
    ∃ c2 : QByteArray,
      (run (chunks.map Action.readyRead) s).disk s.fileName = some c2 ∧
      (run (chunks.map Action.readyRead) s).downloaded_ = (c2.length : Int) ∧
      (c2.length : Int) ≤ kMaxDownloadBytes ∧
      (run (chunks.map Action.readyRead) s).reply_.isSome = true ∧
      (run (chunks.map Action.readyRead) s).url_ = s.url_ ∧
      (run (chunks.map Action.readyRead) s).targetPath_ = s.targetPath_ ∧
      (run (chunks.map Action.readyRead) s).openable = s.openable ∧
      (run (chunks.map Action.readyRead) s).configWritable = s.configWritable ∧
      (run (chunks.map Action.readyRead) s).homePath = s.homePath ∧
      (run (chunks.map Action.readyRead) s).downloadLocation = s.downloadLocation ∧
      (run (chunks.map Action.readyRead) s).urlValid = s.urlValid ∧
      (run (chunks.map Action.readyRead) s).sent = s.sent := by
  induction chunks generalizing s c with
  | nil => exact ⟨c, by simp [run_nil, hc, hd, hr, hcap]⟩
  | cons d rest ih =>
    rw [List.map_cons, run_cons, step_readyRead d s hr]
    have hk : kMaxDownloadBytes = 2 ^ 30 := by decide
    have hdb := hb d (List.mem_cons_self d rest)
    have hrest : ∀ x ∈ rest, (x.length : Int) < 2 ^ 62 :=
      fun x hx => hb x (List.mem_cons_of_mem d hx)
    obtain ⟨f1, f2, f3, f4, f5, f6, f7, f8, f9, f10, f11, f12⟩ := handleReadyRead_frame d s
    have key : ∃ c1 : QByteArray, (handleReadyRead d s).disk s.fileName = some c1 ∧
        (handleReadyRead d s).downloaded_ = (c1.length : Int) ∧
        (c1.length : Int) ≤ kMaxDownloadBytes := by
      by_cases hdn : d = []
      · subst hdn
        rw [handleReadyRead_nil]
        exact ⟨c, hc, hd, hcap⟩
      · have hgetD : (s.disk s.fileName).getD [] = c := by simp [hc]
        have hadd : add64 s.downloaded_ (d.length : Int) = s.downloaded_ + (d.length : Int) :=
          add64_eq _ _ (by omega) (by omega)
        by_cases hfit : add64 s.downloaded_ (d.length : Int) ≤ kMaxDownloadBytes
        · have hroom : ((s.disk s.fileName).getD []).length + d.length ≤ s.deviceLimit := by
            rw [hgetD]; rw [hadd] at hfit; omega
          obtain ⟨e1, e2, -⟩ := handleReadyRead_accept d s hr ho hdn hfit hroom
          refine ⟨c ++ d, ?_, ?_, ?_⟩
          · rw [e1, hgetD]; exact setFile_same _ _ _
          · rw [e2, hadd, hd, List.length_append]; push_cast; rfl
          · rw [hadd] at hfit; rw [List.length_append]; push_cast; omega
        · obtain ⟨e1, e2, -⟩ := handleReadyRead_reject d s hr ho hdn (not_le.mp hfit)
          exact ⟨c, by rw [e1]; exact hc, by rw [e2]; exact hd, hcap⟩
    obtain ⟨c1, k1, k2, k3⟩ := key
    obtain ⟨c2, g1, g2, gb, g3, g4, g5, g6, g7, g8, g9, g10, g11⟩ :=
      ih (handleReadyRead d s) c1 (by rw [f5]; exact hr) (by rw [f4]; exact ho)
        (by rw [f3]; exact k1) k2 k3 (by rw [f7]; exact hdev) hrest
    rw [f3] at g1
    exact ⟨c2, g1, g2, gb, g3, by rw [g4, f1], by rw [g5, f2], by rw [g6, f6], by rw [g7, f8],
      by rw [g8, f9], by rw [g9, f10], by rw [g10, f11], by rw [g11, f12]⟩

/-- What `handleError` does with an error that is not a cancellation. -/
theorem handleError_genuine (error : NetworkError) (text : String) (s : DownloadItem)
    (he : error ≠ NetworkError.OperationCanceledError) :
    handleError error text s =
      persistResumeData
        (emit (Signal.downloadFailed text)
          (emit (Signal.statusTextChanged ("Error: " ++ text))
            (emit (Signal.speedUpdated 0)
              { s with timerRunning := false, bytesThisSecond_ := 0 }))) := by
  simp only [handleError]
  simp [he]

/-- The record after a genuine error when the destination passes the directory test of
`loadSavedState`.  Let `startNew` be called with a well-formed url and a destination that
is absolute and passes that test, let the file open, the record file be writable and the
device have room for a file of the size of the cap.  After any sequence of data chunks
(each shorter than 2^62 bytes) and a connection error that is not a cancellation, the
record file holds the url, the destination and the number of bytes written to the file;
`loadSavedState` returns that record and it is valid; and `resumeFromSaved` then emits no
failure, only the status text, and sends one request from that byte count. -/
theorem error_record_when_test_passes (s : DownloadItem) (url dest text : String)
    (error : NetworkError) (chunks : List QByteArray)
    (hopen : s.openable dest = true) (hw : s.configWritable = true)
    (hu : s.urlValid url = true) (habs : isAbsolute dest = true)
    (hunder : isUnder (cleanPath s.homePath) (cleanPath dest) = true ∨
      isUnder (cleanPath (downloadDirOf s)) (cleanPath dest) = true)
    (hdev : kMaxDownloadBytes ≤ (s.deviceLimit : Int))
    (hb : ∀ d ∈ chunks, (d.length : Int) < 2 ^ 62)
    (he : error ≠ NetworkError.OperationCanceledError) :
    ∃ written : QByteArray,
      (handleError error text
        (run (chunks.map Action.readyRead) (startNew url dest s))).disk dest = some written ∧
      (handleError error text
        (run (chunks.map Action.readyRead) (startNew url dest s))).stateFile =
        StateFile.object (JsonValue.string url) (JsonValue.string dest)
          (JsonValue.number (written.length : Int)) ∧
      loadSavedState (handleError error text
        (run (chunks.map Action.readyRead) (startNew url dest s))) =
        { url := url, filePath := dest, bytesDownloaded := (written.length : Int) } ∧
      (loadSavedState (handleError error text
        (run (chunks.map Action.readyRead) (startNew url dest s)))).isValid s.urlValid = true ∧
      (resumeFromSaved (handleError error text
        (run (chunks.map Action.readyRead) (startNew url dest s)))).signals =
        (handleError error text
          (run (chunks.map Action.readyRead) (startNew url dest s))).signals ++
          [Signal.statusTextChanged "Resuming..."] ∧
      (resumeFromSaved (handleError error text
        (run (chunks.map Action.readyRead) (startNew url dest s)))).sent =
        (handleError error text
          (run (chunks.map Action.readyRead) (startNew url dest s))).sent ++
          [{ url := url, userAgent := kUserAgent, manualRedirect := true,
             range := rangeHeader (written.length : Int) }] ∧
      (resumeFromSaved (handleError error text
        (run (chunks.map Action.readyRead) (startNew url dest s)))).downloaded_ =
        (written.length : Int) := by
  obtain ⟨a1, a2, a3, a4, a5, a6, -, a8, -, a10, a11, a12, a13, a14, a15⟩ :=
    startNew_ok url dest s hopen
  have hc0 : (startNew url dest s).disk (startNew url dest s).fileName = some [] := by
    rw [a8, a3]; exact setFile_same _ _ _
  obtain ⟨written, g1, g2, gb, g3, g4, g5, g6, g7, g8, g9, g10, -⟩ :=
    stream_keeps_count chunks (startNew url dest s) [] a1 a2 hc0 (by rw [a6]; rfl)
      (by decide) (by rw [a11]; exact hdev) hb
  rw [a3] at g1
  rw [a4] at g4
  rw [a5] at g5
  rw [a10] at g6
  rw [a12] at g7
  rw [a13] at g8
  rw [a14] at g9
  rw [a15] at g10
  have hk : kMaxDownloadBytes = 2 ^ 30 := by decide
  have hexact : toDouble (written.length : Int) = (written.length : Int) :=
    toDouble_exact _ (by omega) (by omega)
  rw [handleError_genuine error text _ he]
  generalize hT : run (chunks.map Action.readyRead) (startNew url dest s) = T at *
  have hst : (persistResumeData (emit (Signal.downloadFailed text)
      (emit (Signal.statusTextChanged ("Error: " ++ text)) (emit (Signal.speedUpdated 0)
        { T with timerRunning := false, bytesThisSecond_ := 0 })))).stateFile =
      StateFile.object (JsonValue.string url) (JsonValue.string dest)
        (JsonValue.number (written.length : Int)) := by
    simp [g7, hw, g4, g5, g2, hexact]
  generalize hE : persistResumeData (emit (Signal.downloadFailed text)
      (emit (Signal.statusTextChanged ("Error: " ++ text)) (emit (Signal.speedUpdated 0)
        { T with timerRunning := false, bytesThisSecond_ := 0 }))) = E at *
  have hdisk : E.disk = T.disk := by rw [← hE]; simp
  have hhome : E.homePath = s.homePath := by rw [← hE]; simp [g8]
  have hdl : E.downloadLocation = s.downloadLocation := by rw [← hE]; simp [g9]
  have hval : E.urlValid = s.urlValid := by rw [← hE]; simp [g10]
  have hop : E.openable = s.openable := by rw [← hE]; simp [g6]
  have hEdisk : E.disk dest = some written := by rw [hdisk]; exact g1
  have hdd : downloadDirOf E = downloadDirOf s := by
    simp only [downloadDirOf, hhome, hdl]
  have hload := loadSavedState_accept E (JsonValue.string url) (JsonValue.string dest)
    (JsonValue.number (written.length : Int)) hst habs (by rw [hhome, hdd]; exact hunder)
  simp only [JsonValue.toString, fileExists, fileSize, hEdisk] at hload
  simp only [Option.isSome_some, if_true, Option.getD_some] at hload
  have hf0 : dest ≠ "" := by
    intro h0; rw [h0] at habs; exact absurd habs (by decide)
  have hv : (loadSavedState E).isValid E.urlValid = true := by
    rw [hload, hval]; simp [ResumeData.isValid, hu, hf0]
  obtain ⟨-, r2, r3, -, -, -, -, r8, -⟩ := resumeFromSaved_ok E hv
    (by rw [hload, hop]; exact hopen)
  rw [hload] at r2 r8
  simp only [fileSize_of_some E dest written hEdisk] at r2 r8
  refine ⟨written, hEdisk, hst, hload, ?_, r3, r2, r8⟩
  rw [← hval]; exact hv

/-- C10, amended.  Let `startNew` be called with a well-formed url and a destination that
is absolute and, after canonicalization, equal to or nested under the home directory or
the downloads directory (the home directory when none is reported), that directory being
absolute and not the root.  Let the file open, the record file be writable and the
device have room for a file of the size of the cap.  After any sequence of data chunks
(each shorter than 2^62 bytes) and a connection error that is not a cancellation, the
record file holds the url, the destination and the number of bytes written to the file;
`loadSavedState` returns that record and it is valid; and `resumeFromSaved` then emits no
failure, only the status text, and sends one request from that byte count. -/
theorem genuine_error_leaves_resumable_record (s : DownloadItem) (url dest text : String)
    (error : NetworkError) (chunks : List QByteArray)
    (hopen : s.openable dest = true) (hw : s.configWritable = true)
    (hu : s.urlValid url = true) (habs : isAbsolute dest = true)
    (hnest : (isAbsolute s.homePath = true ∧ cleanPath s.homePath ≠ "/" ∧
        nestedUnder s.homePath dest = true) ∨
      (isAbsolute (downloadDirOf s) = true ∧ cleanPath (downloadDirOf s) ≠ "/" ∧
        nestedUnder (downloadDirOf s) dest = true))
    (hdev : kMaxDownloadBytes ≤ (s.deviceLimit : Int))
    (hb : ∀ d ∈ chunks, (d.length : Int) < 2 ^ 62)
    (he : error ≠ NetworkError.OperationCanceledError) :
    ∃ written : QByteArray,
      (handleError error text
        (run (chunks.map Action.readyRead) (startNew url dest s))).disk dest = some written ∧
      (handleError error text
        (run (chunks.map Action.readyRead) (startNew url dest s))).stateFile =
        StateFile.object (JsonValue.string url) (JsonValue.string dest)
          (JsonValue.number (written.length : Int)) ∧
      loadSavedState (handleError error text
        (run (chunks.map Action.readyRead) (startNew url dest s))) =
        { url := url, filePath := dest, bytesDownloaded := (written.length : Int) } ∧
      (loadSavedState (handleError error text
        (run (chunks.map Action.readyRead) (startNew url dest s)))).isValid s.urlValid = true ∧
      (resumeFromSaved (handleError error text
        (run (chunks.map Action.readyRead) (startNew url dest s)))).signals =
        (handleError error text
          (run (chunks.map Action.readyRead) (startNew url dest s))).signals ++
          [Signal.statusTextChanged "Resuming..."] ∧
      (resumeFromSaved (handleError error text
        (run (chunks.map Action.readyRead) (startNew url dest s)))).sent =
        (handleError error text
          (run (chunks.map Action.readyRead) (startNew url dest s))).sent ++
          [{ url := url, userAgent := kUserAgent, manualRedirect := true,
             range := rangeHeader (written.length : Int) }] ∧
      (resumeFromSaved (handleError error text
        (run (chunks.map Action.readyRead) (startNew url dest s)))).downloaded_ =
        (written.length : Int) := by
  have hunder : isUnder (cleanPath s.homePath) (cleanPath dest) = true ∨
      isUnder (cleanPath (downloadDirOf s)) (cleanPath dest) = true := by
    rcases hnest with ⟨h1, h2, h3⟩ | ⟨h1, h2, h3⟩
    · exact Or.inl (isUnder_of_nested _ _ h1 habs h2 h3)
    · exact Or.inr (isUnder_of_nested _ _ h1 habs h2 h3)
  exact error_record_when_test_passes s url dest text error chunks hopen hw hu habs
    hunder hdev hb he

theorem genuine_error_leaves_resumable_record_witness :
    emptyHome.openable "/home/u/Downloads/f.bin" = true ∧
    isAbsolute "/home/u/Downloads/f.bin" = true ∧
    nestedUnder emptyHome.homePath "/home/u/Downloads/f.bin" = true ∧
    (resumeFromSaved (handleError NetworkError.TimeoutError "Timed out"
      (run ([[1, 2], [3]].map Action.readyRead)
        (startNew "https://a.example/f.bin" "/home/u/Downloads/f.bin" emptyHome)))).downloaded_
      = 3 := by
  obtain ⟨written, h1, -, -, -, -, -, h7⟩ :=
    genuine_error_leaves_resumable_record emptyHome "https://a.example/f.bin"
      "/home/u/Downloads/f.bin" "Timed out" NetworkError.TimeoutError [[1, 2], [3]]
      (by decide) (by decide) (by decide) (by decide)
      (Or.inl ⟨by decide, by decide, by decide⟩) (by decide) (by decide) (by decide)
  have hw : written = [1, 2, 3] := by
    have h2 : (handleError NetworkError.TimeoutError "Timed out"
      (run ([[1, 2], [3]].map Action.readyRead)
        (startNew "https://a.example/f.bin" "/home/u/Downloads/f.bin" emptyHome))).disk
        "/home/u/Downloads/f.bin" = some [1, 2, 3] := by decide
    rw [h2] at h1
    exact (Option.some.inj h1).symm
  refine ⟨by decide, by decide, by decide, ?_⟩
  rw [h7, hw]; rfl

/-- C10, counterexample.  A download started with the destination `/tmp/f.bin`, outside
the home directory `/home/u` and its downloads directory, streams three bytes and then
fails with a refused connection: the record is stored, but `loadSavedState` does not
return a valid record and `resumeFromSaved` fails with "No download to resume." and
sends no request.  The same happens when the home directory is the root and the
destination is `/data/f.bin`, although that path is nested under the home directory. -/
theorem error_outside_home_not_resumable :
    nestedUnder emptyHome.homePath "/tmp/f.bin" = false ∧
    nestedUnder (downloadDirOf emptyHome) "/tmp/f.bin" = false ∧
    (run (failsAfterThree "/tmp/f.bin") emptyHome).stateFile =
      StateFile.object (JsonValue.string "https://a.example/f.bin") (JsonValue.string "/tmp/f.bin")
        (JsonValue.number 3) ∧
    (loadSavedState (run (failsAfterThree "/tmp/f.bin") emptyHome)).isValid
      emptyHome.urlValid = false ∧
    (run (failsAfterThree "/tmp/f.bin" ++ [Action.resumeFromSaved]) emptyHome).signals =
      [Signal.statusTextChanged "Downloading...", Signal.speedUpdated 0,
        Signal.statusTextChanged "Error: Connection refused",
        Signal.downloadFailed "Connection refused",
        Signal.downloadFailed "No download to resume."] ∧
    (run (failsAfterThree "/tmp/f.bin" ++ [Action.resumeFromSaved]) emptyHome).sent.length = 1 ∧
    nestedUnder rootHome.homePath "/data/f.bin" = true ∧
    (run (failsAfterThree "/data/f.bin") rootHome).stateFile =
      StateFile.object (JsonValue.string "https://a.example/f.bin")
        (JsonValue.string "/data/f.bin") (JsonValue.number 3) ∧
    (loadSavedState (run (failsAfterThree "/data/f.bin") rootHome)).isValid
      rootHome.urlValid = false ∧
    (run (failsAfterThree "/data/f.bin" ++ [Action.resumeFromSaved]) rootHome).signals =
      [Signal.statusTextChanged "Downloading...", Signal.speedUpdated 0,
        Signal.statusTextChanged "Error: Connection refused",
        Signal.downloadFailed "Connection refused",
        Signal.downloadFailed "No download to resume."] ∧
    (run (failsAfterThree "/data/f.bin" ++ [Action.resumeFromSaved]) rootHome).sent.length = 1 := by
  decide

/-! ## C11: the Range header -/

theorem rangeHeader_isSome (d : Int) : (rangeHeader d).isSome = true ↔ 0 < d := by
  unfold rangeHeader
  split_ifs with h
  · simpa using h
  · simpa using h

theorem rangeHeader_zero : rangeHeader 0 = none := by
  simp [rangeHeader]

theorem noRangeInv_startRequest (s : DownloadItem) (h : NoRangeInv s) :
    NoRangeInv (startRequest s) := by
  obtain ⟨h0, hs⟩ := h
  refine ⟨by simpa using h0, ?_⟩
  intro r hr
  by_cases ho : s.fileOpen = true
  · simp [ho] at hr
    rcases hr with hr | hr
    · exact hs r hr
    · rw [hr]; simp [buildRequest, h0, rangeHeader_zero]
  · simp [ho] at hr
    exact hs r hr

theorem noRangeInv_startNew (u p : String) (s : DownloadItem)
    (h : ∀ r ∈ s.sent, r.range = none) : NoRangeInv (startNew u p s) := by
  simp only [startNew]
  by_cases ho : s.openable p = true
  · simp only [openFile_fst, ho]
    refine ⟨by simp [ho], ?_⟩
    intro r hr
    simp [ho] at hr
    rcases hr with hr | hr
    · exact h r hr
    · rw [hr]; simp [buildRequest, ho, rangeHeader_zero]
  · refine ⟨by simp [ho], ?_⟩
    intro r hr
    simp [ho] at hr
    exact h r hr

theorem noRangeInv_finished (t : Option String) (e : NetworkError) (s : DownloadItem)
    (h : NoRangeInv s) : NoRangeInv (handleFinished t e s) := by
  cases t with
  | none =>
    unfold NoRangeInv at *
    simp only [handleFinished]
    split_ifs <;> simpa using h
  | some target =>
    simp only [handleFinished]
    split_ifs with h1 h2
    · simpa [NoRangeInv] using h
    · simpa [NoRangeInv] using h
    · apply noRangeInv_startRequest
      simpa [NoRangeInv] using h

theorem noRangeInv_meta (st : Int) (len : Option Int) (s : DownloadItem)
    (h : NoRangeInv s) : NoRangeInv (handleMetaDataChanged st len s) := by
  obtain ⟨h0, hs⟩ := h
  unfold NoRangeInv
  cases len <;> simp only [handleMetaDataChanged] <;> split_ifs <;> simp [h0] <;> exact hs

theorem noRangeInv_step (a : Action) (s : DownloadItem) (h : NoRangeInv s)
    (ha : movesCounter a = false) : NoRangeInv (step a s) := by
  cases a with
  | startNew u p => exact noRangeInv_startNew u p s h.2
  | resumeFromSaved => simp [movesCounter] at ha
  | pause =>
    simp only [step, pause]
    split_ifs
    · exact h
    · simpa [NoRangeInv] using h
  | clearSavedState => simpa [step, NoRangeInv] using h
  | readyRead d => simp [movesCounter] at ha
  | downloadProgress r t =>
    simp only [step]; split_ifs
    · simpa [NoRangeInv, handleDownloadProgress] using h
    · exact h
  | metaDataChanged st len => simp only [step]; split_ifs; exacts [noRangeInv_meta st len s h, h]
  | finished t e => simp only [step]; split_ifs; exacts [noRangeInv_finished t e s h, h]
  | errorOccurred e t =>
    simp only [step]; split_ifs
    · simp only [handleError]
      split_ifs <;> simpa [NoRangeInv] using h
    · exact h
  | sslErrors errs =>
    simp only [step]; split_ifs
    · simp only [handleSslErrors]
      split_ifs <;> simpa [NoRangeInv] using h
    · exact h
  | timeout =>
    simp only [step]; split_ifs
    · simpa [NoRangeInv, updateSpeed] using h
    · exact h

theorem noRangeInv_run (actions : List Action) (s : DownloadItem) (h : NoRangeInv s)
    (ha : ∀ a ∈ actions, movesCounter a = false) : NoRangeInv (run actions s) := by
  induction actions generalizing s with
  | nil => exact h
  | cons a rest ih =>
    exact ih (step a s) (noRangeInv_step a s h (ha a (List.mem_cons_self a rest)))
      (fun b hb => ha b (List.mem_cons_of_mem a hb))

/-- The rule of the Range header.  A request carries a Range header exactly when the
downloaded counter is positive at the moment `startRequest` builds it, and the header is
then `bytes=n-` for the counter n.  Hence: the request sent by `startNew` carries none;
from the constructed engine, as long as no data event and no resume has occurred, no
request carries one, whatever redirects are followed; a request re-issued by
`handleFinished` after a redirect carries one exactly when data has been written before
the redirect; and a request sent by `resumeFromSaved` carries one exactly when the
confirmed byte count is positive. -/
theorem range_header_follows_counter :
    (∀ s : DownloadItem, s.fileOpen = true →
      ∃ request : QNetworkRequest, (startRequest s).sent = s.sent ++ [request] ∧
        (request.range.isSome = true ↔ 0 < s.downloaded_) ∧
        (∀ n : Nat, s.downloaded_ = (n : Int) → 0 < n →
          request.range = some ("bytes=" ++ toString n ++ "-"))) ∧
    (∀ (s : DownloadItem) (url filePath : String), s.openable filePath = true →
      (startNew url filePath s).sent = s.sent ++
        [{ url := url, userAgent := kUserAgent, manualRedirect := true, range := none }]) ∧
    (∀ (disk : String → Option QByteArray) (openable : String → Bool) (deviceLimit : Nat)
      (stateFile : StateFile) (configWritable : Bool) (homePath downloadLocation : String)
      (urlValid : String → Bool) (resolved : String → String → String)
      (actions : List Action),
      (∀ a ∈ actions, movesCounter a = false) →
      ∀ request ∈ (run actions (fresh disk openable deviceLimit stateFile configWritable
          homePath downloadLocation urlValid resolved)).sent, request.range = none) ∧
    (∀ (s : DownloadItem) (target : String) (error : NetworkError),
      isActive s = true → s.fileOpen = true → s.redirectCount_ < kMaxRedirects →
      ∃ request : QNetworkRequest,
        (handleFinished (some target) error s).sent = s.sent ++ [request] ∧
        (request.range.isSome = true ↔ 0 < s.downloaded_)) ∧
    (∀ s : DownloadItem, (loadSavedState s).isValid s.urlValid = true →
      s.openable (loadSavedState s).filePath = true →
      ∃ request : QNetworkRequest, (resumeFromSaved s).sent = s.sent ++ [request] ∧
        (request.range.isSome = true ↔ 0 < (resumeFromSaved s).downloaded_)) := by
  refine ⟨?_, ?_, ?_, ?_, ?_⟩
  · intro s ho
    refine ⟨buildRequest s, by simp [ho], ?_, ?_⟩
    · simpa [buildRequest] using rangeHeader_isSome s.downloaded_
    · intro n hn hpos
      simp only [buildRequest, hn]
      exact rangeHeader_pos n hpos
  · intro s url filePath ho
    exact (startNew_ok url filePath s ho).2.2.2.2.2.2.2.2.1
  · intro disk openable deviceLimit stateFile configWritable homePath downloadLocation urlValid
      resolved actions ha
    have h0 : NoRangeInv (fresh disk openable deviceLimit stateFile configWritable homePath
        downloadLocation urlValid resolved) := by
      simp [NoRangeInv, fresh]
    exact (noRangeInv_run actions _ h0 ha).2
  · intro s target error hact ho hlt
    have hrn : ¬ s.reply_ = none := by
      intro hn; simp [isActive, hn] at hact
    have hn5 : ¬ s.redirectCount_ ≥ kMaxRedirects := not_le.mpr hlt
    refine ⟨QNetworkRequest.mk (s.resolved s.url_ target) kUserAgent true
      (rangeHeader s.downloaded_), ?_, ?_⟩
    · simp only [handleFinished]
      simp [hrn, hn5, ho, buildRequest]
    · exact rangeHeader_isSome s.downloaded_
  · intro s hv ho
    obtain ⟨-, e2, -, -, -, -, -, e8, -⟩ := resumeFromSaved_ok s hv ho
    exact ⟨_, e2, by rw [e8]; exact rangeHeader_isSome _⟩

theorem range_header_follows_counter_witness :
    isActive (run threeBytes emptyHome) = true ∧
    (run threeBytes emptyHome).downloaded_ = 3 ∧
    ∃ request : QNetworkRequest,
      (handleFinished (some "https://b.example/f.bin") NetworkError.NoError
        (run threeBytes emptyHome)).sent = (run threeBytes emptyHome).sent ++ [request] ∧
      (request.range.isSome = true ↔ 0 < (run threeBytes emptyHome).downloaded_) :=
  ⟨by decide, by decide,
    range_header_follows_counter.2.2.2.1 (run threeBytes emptyHome) "https://b.example/f.bin"
      NetworkError.NoError (by decide) (by decide) (by decide)⟩

/-- A download begun by `startNew` writes three bytes and is redirected: the request
re-issued for the redirect carries the header `Range: bytes=3-`. -/
theorem redirect_after_data_sends_range :
    (run redirectAfterData emptyHome).sent =
      [{ url := "https://a.example/f.bin", userAgent := kUserAgent, manualRedirect := true,
         range := none },
       { url := "https://b.example/f.bin", userAgent := kUserAgent, manualRedirect := true,
         range := some "bytes=3-" }] := by
  decide

/-- C11, the code at the failing input.  A download begun by `startNew` is answered by a
redirect whose body has three bytes.  `handleReadyRead` writes the body to the
destination file and counts it, and the request that `handleFinished` re-issues for the
target therefore carries `Range: bytes=3-`, although nothing is being resumed.  The
target answers with the partial content asked for, two bytes, and completes: the file
holds the three bytes of the redirect body followed by the two bytes, and the engine
reports the download as finished, with no failure event. -/
theorem redirect_body_is_kept_and_range_sent :
    (run redirectBodyThenPartial emptyHome).sent =
      [{ url := "https://a.example/f.bin", userAgent := kUserAgent, manualRedirect := true,
         range := none },
       { url := "https://b.example/f.bin", userAgent := kUserAgent, manualRedirect := true,
         range := some "bytes=3-" }] ∧
    (run redirectBodyThenPartial emptyHome).disk "/home/u/Downloads/f.bin" =
      some [60, 104, 62, 9, 9] ∧
    Signal.downloadFinished "/home/u/Downloads/f.bin" ∈
      (run redirectBodyThenPartial emptyHome).signals ∧
    failures (run redirectBodyThenPartial emptyHome).signals = 0 ∧
    isActive (run redirectBodyThenPartial emptyHome) = false := by
  decide

/-! ## C12: start offset and counter -/

/-- No operation and no slot changes which paths can be opened. -/
theorem step_openable (a : Action) (s : DownloadItem) : (step a s).openable = s.openable := by
  cases a with
  | startNew u p =>
    simp only [step, startNew]
    split_ifs <;> simp
  | resumeFromSaved =>
    simp only [step, resumeFromSaved]
    split_ifs <;> simp
  | pause =>
    simp only [step, pause]
    split_ifs <;> simp
  | clearSavedState => simp [step]
  | readyRead d =>
    simp only [step]
    split_ifs
    · exact (handleReadyRead_frame d s).2.2.2.2.2.1
    · rfl
  | downloadProgress r t =>
    simp only [step, handleDownloadProgress]
    split_ifs <;> simp
  | metaDataChanged st len =>
    cases len <;> simp only [step, handleMetaDataChanged] <;> split_ifs <;> simp
  | finished t e =>
    cases t <;> simp only [step, handleFinished] <;> split_ifs <;> simp
  | errorOccurred e t =>
    simp only [step, handleError]
    split_ifs <;> simp
  | sslErrors errs =>
    simp only [step, handleSslErrors]
    split_ifs <;> simp
  | timeout =>
    simp only [step, updateSpeed]
    split_ifs <;> simp

theorem handleReadyRead_startOffset (data : QByteArray) (s : DownloadItem) :
    (handleReadyRead data s).startOffset_ = s.startOffset_ := by
  simp only [handleReadyRead, pause]
  split_ifs <;> simp

theorem offsetInv_of_eq (s t : DownloadItem) (h : OffsetInv s)
    (h1 : t.startOffset_ = s.startOffset_) (h2 : t.downloaded_ = s.downloaded_)
    (h3 : t.openable = s.openable) (h4 : t.reply_.isSome = true → s.reply_.isSome = true) :
    OffsetInv t := by
  intro hp
  rw [h1, h2]
  apply h
  rcases hp with hp | hp
  · exact Or.inl (h4 hp)
  · exact Or.inr (by rw [← h3]; exact hp)

theorem offsetInv_startNew (u p : String) (s : DownloadItem) : OffsetInv (startNew u p s) := by
  by_cases ho : s.openable p = true
  · obtain ⟨-, -, -, -, -, a6, a7, -⟩ := startNew_ok u p s ho
    intro _
    rw [a6, a7]
  · obtain ⟨a1, -, -, -, -, -, -, a8⟩ := startNew_unopened u p s ho
    intro hp
    rcases hp with hp | hp
    · rw [a1] at hp; exact absurd hp (by simp)
    · rw [a8] at hp; exact absurd (hp p) ho

theorem resumeFromSaved_openable (s : DownloadItem) :
    (resumeFromSaved s).openable = s.openable := step_openable Action.resumeFromSaved s

theorem offsetInv_resume (s : DownloadItem) (h : OffsetInv s) :
    OffsetInv (resumeFromSaved s) := by
  by_cases hv : (loadSavedState s).isValid s.urlValid = true
  · by_cases ho : s.openable (loadSavedState s).filePath = true
    · obtain ⟨-, -, -, -, -, -, -, e8, e9, -⟩ := resumeFromSaved_ok s hv ho
      intro _
      rw [e8, e9]
    · obtain ⟨e1, -⟩ := resumeFromSaved_unopened s hv ho
      intro hp
      rcases hp with hp | hp
      · rw [e1] at hp; exact absurd hp (by simp)
      · rw [resumeFromSaved_openable] at hp; exact absurd (hp _) ho
  · rw [resumeFromSaved_invalid s hv]
    exact offsetInv_of_eq s _ h (by simp) (by simp) (by simp) (by simp)

theorem offsetInv_readyRead (data : QByteArray) (s : DownloadItem) (hw : WideInv s)
    (h : OffsetInv s) (hb : (data.length : Int) < 2 ^ 62) :
    OffsetInv (handleReadyRead data s) := by
  obtain ⟨-, -, f3, f4, f5, f6, -⟩ := handleReadyRead_frame data s
  have fo := handleReadyRead_startOffset data s
  by_cases hr : s.reply_.isSome = true
  swap
  · have : handleReadyRead data s = s := by
      simp only [handleReadyRead]
      simp [Option.not_isSome_iff_eq_none.mp hr]
    rw [this]; exact h
  by_cases ho : s.fileOpen = true
  swap
  · have : handleReadyRead data s = s := by
      simp only [handleReadyRead]
      simp [ho]
    rw [this]; exact h
  by_cases hd : data = []
  · rw [hd, handleReadyRead_nil]; exact h
  obtain ⟨hall, hro, hfile⟩ := hw
  obtain ⟨c, hc, h0, hle, hdisj⟩ := hfile ho
  have hcap := hall _ _ hc
  have hk : kMaxDownloadBytes = 2 ^ 30 := by decide
  have hwb : wideBound = 2 ^ 62 := by decide
  have hadd : add64 s.downloaded_ (data.length : Int) = s.downloaded_ + (data.length : Int) :=
    add64_eq _ _ (by omega) (by omega)
  have hso := h (Or.inl hr)
  by_cases hfit : add64 s.downloaded_ (data.length : Int) ≤ kMaxDownloadBytes
  · by_cases hroom : ((s.disk s.fileName).getD []).length + data.length ≤ s.deviceLimit
    · obtain ⟨-, e2, -⟩ := handleReadyRead_accept data s hr ho hd hfit hroom
      intro _
      rw [fo, e2, hadd]; omega
    · obtain ⟨-, e2, -⟩ := handleReadyRead_short data s hr ho hd hfit (by omega)
      intro _
      rw [fo, e2]; exact hso
  · obtain ⟨-, e2, -⟩ := handleReadyRead_reject data s hr ho hd (not_le.mp hfit)
    intro _
    rw [fo, e2]; exact hso

theorem offsetInv_finished (t : Option String) (e : NetworkError) (s : DownloadItem)
    (h : OffsetInv s) : OffsetInv (handleFinished t e s) := by
  cases t with
  | none =>
    simp only [handleFinished]
    split_ifs <;> exact offsetInv_of_eq s _ h (by simp) (by simp) (by simp) (by simp)
  | some target =>
    simp only [handleFinished]
    split_ifs with h1 h2
    · exact offsetInv_of_eq s _ h (by simp) (by simp) (by simp) (by simp)
    · exact offsetInv_of_eq s _ h (by simp) (by simp) (by simp) (by simp)
    · by_cases ho : s.fileOpen = true
      · intro _
        simp [ho]
      · exact offsetInv_of_eq s _ h (by simp [ho]) (by simp) (by simp) (by simp [ho])

theorem offsetInv_meta (st : Int) (len : Option Int) (s : DownloadItem)
    (h : OffsetInv s) : OffsetInv (handleMetaDataChanged st len s) := by
  by_cases hr : s.reply_.isSome = true
  swap
  · have : handleMetaDataChanged st len s = s := by
      simp only [handleMetaDataChanged]
      simp [Option.not_isSome_iff_eq_none.mp hr]
    rw [this]; exact h
  obtain ⟨-, e2, e3, -⟩ := handleMetaDataChanged_storage st len s hr
  intro _
  rw [e2, e3]
  split_ifs
  · exact le_refl _
  · exact h (Or.inl hr)

theorem offsetInv_step (a : Action) (s : DownloadItem) (hw : WideInv s) (h : OffsetInv s)
    (hb : ChunkBounded a) : OffsetInv (step a s) := by
  cases a with
  | startNew u p => exact offsetInv_startNew u p s
  | resumeFromSaved => exact offsetInv_resume s h
  | pause =>
    simp only [step, pause]
    split_ifs
    · exact h
    · refine offsetInv_of_eq s _ h (by simp) (by simp) (by simp) ?_
      intro hp
      cases hs : s.reply_ with
      | none => simp [hs] at hp
      | some r => rfl
  | clearSavedState =>
    exact offsetInv_of_eq s _ h (by simp [step]) (by simp [step]) (by simp [step])
      (by simp [step])
  | readyRead d => simp only [step]; split_ifs; exacts [offsetInv_readyRead d s hw h hb, h]
  | downloadProgress r t =>
    simp only [step]; split_ifs
    · exact offsetInv_of_eq s _ h (by simp [handleDownloadProgress])
        (by simp [handleDownloadProgress]) (by simp [handleDownloadProgress])
        (by simp [handleDownloadProgress])
    · exact h
  | metaDataChanged st len => simp only [step]; split_ifs; exacts [offsetInv_meta st len s h, h]
  | finished t e => simp only [step]; split_ifs; exacts [offsetInv_finished t e s h, h]
  | errorOccurred e t =>
    simp only [step]; split_ifs with hr
    · simp only [handleError]
      split_ifs <;> exact offsetInv_of_eq s _ h (by simp) (by simp) (by simp) (fun _ => hr)
    · exact h
  | sslErrors errs =>
    simp only [step]; split_ifs with hr
    · simp only [handleSslErrors]
      split_ifs <;> exact offsetInv_of_eq s _ h (by simp) (by simp) (by simp) (fun _ => hr)
    · exact h
  | timeout =>
    simp only [step]; split_ifs
    · exact offsetInv_of_eq s _ h (by simp [updateSpeed]) (by simp [updateSpeed])
        (by simp [updateSpeed]) (by simp [updateSpeed])
    · exact h

theorem offsetInv_run (actions : List Action) (s : DownloadItem) (hw : WideInv s)
    (h : OffsetInv s) (hb : ∀ a ∈ actions, ChunkBounded a) :
    WideInv (run actions s) ∧ OffsetInv (run actions s) := by
  induction actions generalizing s with
  | nil => exact ⟨hw, h⟩
  | cons a rest ih =>
    have ha := hb a (List.mem_cons_self a rest)
    exact ih (step a s) (wideInv_step a s hw ha) (offsetInv_step a s hw h ha)
      (fun b hmem => hb b (List.mem_cons_of_mem a hmem))

theorem run_openable (actions : List Action) (s : DownloadItem) :
    (run actions s).openable = s.openable := by
  induction actions generalizing s with
  | nil => rfl
  | cons a rest ih => rw [run_cons, ih, step_openable]

theorem offsetInv_fresh (disk : String → Option QByteArray) (openable : String → Bool)
    (deviceLimit : Nat) (stateFile : StateFile) (configWritable : Bool)
    (homePath downloadLocation : String) (urlValid : String → Bool)
    (resolved : String → String → String) :
    OffsetInv (fresh disk openable deviceLimit stateFile configWritable homePath
      downloadLocation urlValid resolved) := by
  intro _
  simp [fresh]

/-- C12, amended.  Let the engine be constructed on a disk none of whose files is longer
than 2^62 bytes, and let every chunk delivered be shorter than 2^62 bytes.  Then after any
sequence of operations and events: while the engine is active the start offset is at most
the downloaded counter; and if every path of the file system can be opened, the start
offset is at most the downloaded counter in every reachable state, active or not. -/
theorem start_offset_at_most_counter (disk : String → Option QByteArray)
    (openable : String → Bool) (deviceLimit : Nat) (stateFile : StateFile)
    (configWritable : Bool) (homePath downloadLocation : String) (urlValid : String → Bool)
    (resolved : String → String → String) (actions : List Action)
    (hd : ∀ p c, disk p = some c → (c.length : Int) ≤ wideBound)
    (hb : ∀ a ∈ actions, ChunkBounded a) :
    (isActive (run actions (fresh disk openable deviceLimit stateFile configWritable homePath
        downloadLocation urlValid resolved)) = true →
      (run actions (fresh disk openable deviceLimit stateFile configWritable homePath
        downloadLocation urlValid resolved)).startOffset_ ≤
      (run actions (fresh disk openable deviceLimit stateFile configWritable homePath
        downloadLocation urlValid resolved)).downloaded_) ∧
    ((∀ p, openable p = true) →
      (run actions (fresh disk openable deviceLimit stateFile configWritable homePath
        downloadLocation urlValid resolved)).startOffset_ ≤
      (run actions (fresh disk openable deviceLimit stateFile configWritable homePath
        downloadLocation urlValid resolved)).downloaded_) := by
  have hinv := (offsetInv_run actions _
    (wideInv_fresh disk openable deviceLimit stateFile configWritable homePath
      downloadLocation urlValid resolved hd)
    (offsetInv_fresh disk openable deviceLimit stateFile configWritable homePath
      downloadLocation urlValid resolved) hb).2
  constructor
  · intro hact
    exact hinv (Or.inl hact)
  · intro hop
    apply hinv
    right
    rw [run_openable]
    exact hop

theorem start_offset_at_most_counter_witness :
    (∀ a ∈ pausedAtThree ++ [Action.resumeFromSaved], ChunkBounded a) ∧
    isActive resumedAtThree = true ∧
    resumedAtThree.startOffset_ = 3 ∧
    resumedAtThree.startOffset_ ≤ resumedAtThree.downloaded_ :=
  ⟨(by intro a ha
       simp [pausedAtThree] at ha
       rcases ha with rfl | rfl | rfl | rfl | rfl | rfl <;> simp [ChunkBounded]),
   (by decide), (by decide),
   (start_offset_at_most_counter (fun _ => none) (fun _ => true) (2 ^ 40) StateFile.missing true
     "/home/u" "/home/u/Downloads" (fun u => u != "") (fun _ target => target)
     (pausedAtThree ++ [Action.resumeFromSaved])
     (fun _ _ h => (by cases h))
     (by intro a ha
         simp [pausedAtThree] at ha
         rcases ha with rfl | rfl | rfl | rfl | rfl | rfl <;> simp [ChunkBounded])).2
     (fun _ => rfl)⟩

/-- C12, counterexample.  A download is paused after three bytes and resumed, which sets
the start offset to three; a new download is then started whose destination cannot be
opened.  That operation resets the downloaded counter and returns before a request is
built, so the engine is left inactive with the counter at zero and the start offset at
three. -/
theorem failed_start_leaves_offset_above_counter :
    (run startAfterResumeFails lockedHome).downloaded_ = 0 ∧
    (run startAfterResumeFails lockedHome).startOffset_ = 3 ∧
    isActive (run startAfterResumeFails lockedHome) = false ∧
    ¬ ((run startAfterResumeFails lockedHome).startOffset_ ≤
        (run startAfterResumeFails lockedHome).downloaded_) := by
  decide

/-! ## C13: a policy rejection is reported once -/

theorem failures_append (xs ys : List Signal) :
    failures (xs ++ ys) = failures xs + failures ys := by
  simp [failures]

/-- The slot `handleFinished` on a completion without redirect target emits no failure
event and leaves the engine inactive. -/
theorem handleFinished_plain (err : NetworkError) (s : DownloadItem) :
    failures (handleFinished none err s).signals = failures s.signals ∧
    (handleFinished none err s).reply_ = none := by
  simp only [handleFinished]
  split_ifs with h1 <;> simp [failures, isFailure, emit]
  simpa using h1

/-- The slot `handleError` with suppression set and the cancellation code emits nothing
and clears the suppression flag. -/
theorem handleError_suppressed (text : String) (s : DownloadItem)
    (hs : s.suppressErrors_ = true) :
    handleError NetworkError.OperationCanceledError text s = { s with suppressErrors_ := false } := by
  simp [handleError, hs]

/-- What a rejecting event does: it emits the status text and exactly one failure
event, sets the suppression flag and keeps the reply. -/
theorem step_rejects (rej : Action) (s : DownloadItem) (hr : isActive s = true)
    (hrej : Rejects rej s) :
    failures (step rej s).signals = failures s.signals + 1 ∧
    (step rej s).suppressErrors_ = true ∧
    (step rej s).reply_.isSome = true := by
  have hr2 : s.reply_.isSome = true := hr
  have hrn : ¬ s.reply_ = none := by
    intro hn; simp [hn] at hr2
  cases rej with
  | readyRead data =>
    obtain ⟨ho, hd, hbig⟩ := hrej
    obtain ⟨-, -, e3, e4, -, -, e7, -⟩ := handleReadyRead_reject data s hr2 ho hd hbig
    simp only [step, hr2, if_true]
    refine ⟨?_, e4, ?_⟩
    · rw [e3, failures_append]; simp [failures, isFailure]
    · rw [e7]; cases hs : s.reply_ with
      | none => exact absurd hs hrn
      | some r => rfl
  | metaDataChanged status len =>
    cases len with
    | none => exact absurd hrej (by simp [Rejects])
    | some declared =>
      simp only [Rejects] at hrej
      simp only [step, hr2, if_true]
      simp only [handleMetaDataChanged]
      by_cases hreset : status = 200 ∧ s.startOffset_ > 0
      · rw [if_pos hreset] at hrej
        simp [hrn, hreset, hrej, failures, isFailure, emit, abort]
        split_ifs <;> exact ⟨rfl, hr2⟩
      · rw [if_neg hreset] at hrej
        simp [hrn, hreset, hrej, failures, isFailure, emit, abort]
        exact hr2
  | startNew u p => exact absurd hrej (by simp [Rejects])
  | resumeFromSaved => exact absurd hrej (by simp [Rejects])
  | pause => exact absurd hrej (by simp [Rejects])
  | clearSavedState => exact absurd hrej (by simp [Rejects])
  | downloadProgress r t => exact absurd hrej (by simp [Rejects])
  | finished t e => exact absurd hrej (by simp [Rejects])
  | errorOccurred e t => exact absurd hrej (by simp [Rejects])
  | sslErrors errs => exact absurd hrej (by simp [Rejects])
  | timeout => exact absurd hrej (by simp [Rejects])

theorem step_errorOccurred (e : NetworkError) (text : String) (s : DownloadItem)
    (hr : s.reply_.isSome = true) :
    step (Action.errorOccurred e text) s = handleError e text s := by
  simp [step, hr]

theorem step_finished (target : Option String) (e : NetworkError) (s : DownloadItem)
    (hr : s.reply_.isSome = true) :
    step (Action.finished target e) s = handleFinished target e s := by
  simp [step, hr]

/-- The report of a policy rejection when the completion carries no redirect target.
Let the engine be active and let a connection event make it abort its own connection for
the size policy.  Then the event emits exactly one failure event; `handleError` with the
cancellation code emits nothing and clears the suppression flag; and after the
completion, whatever its error code, one failure event has been emitted in total and the
engine is inactive. -/
theorem rejection_reported_once_without_target (s : DownloadItem) (rej : Action)
    (text : String) (err : NetworkError) (hr : isActive s = true) (hrej : Rejects rej s) :
    failures (step rej s).signals = failures s.signals + 1 ∧
    (handleError NetworkError.OperationCanceledError text (step rej s)).signals =
      (step rej s).signals ∧
    (handleError NetworkError.OperationCanceledError text (step rej s)).suppressErrors_ = false ∧
    failures (run [rej, Action.errorOccurred NetworkError.OperationCanceledError text,
      Action.finished none err] s).signals = failures s.signals + 1 ∧
    isActive (run [rej, Action.errorOccurred NetworkError.OperationCanceledError text,
      Action.finished none err] s) = false := by
  obtain ⟨h1, h2, h3⟩ := step_rejects rej s hr hrej
  have he := handleError_suppressed text (step rej s) h2
  have hrun : run [rej, Action.errorOccurred NetworkError.OperationCanceledError text,
      Action.finished none err] s =
      handleFinished none err
        (handleError NetworkError.OperationCanceledError text (step rej s)) := by
    have h4 : (handleError NetworkError.OperationCanceledError text (step rej s)).reply_.isSome
        = true := by
      rw [he]; exact h3
    rw [run_cons, run_cons, run_cons, run_nil, step_errorOccurred _ _ _ h3,
      step_finished _ _ _ h4]
  obtain ⟨f1, f2⟩ := handleFinished_plain err
    (handleError NetworkError.OperationCanceledError text (step rej s))
  refine ⟨h1, by rw [he], by rw [he], ?_, ?_⟩
  · rw [hrun, f1, he]; exact h1
  · rw [hrun]; unfold isActive; rw [f2]; rfl

/-- C13, the code at the failing input.  The response to the first request is a redirect
that declares 2 GiB.  The metadata event emits the failure "Content length exceeds limit",
sets the suppression flag and aborts the connection; the error event with the
cancellation code is swallowed and clears the flag.  The completion carries the redirect
target, and `handleFinished` tests the target before anything else: it follows the
redirect, so a second request is sent and the engine ends active.  When five redirects
have been followed before, the same completion emits "Redirect limit reached": two
failure events in total. -/
theorem rejected_redirect_is_followed :
    isActive (run oversizeRedirect emptyHome) = true ∧
    (run oversizeRedirect emptyHome).suppressErrors_ = true ∧
    failures (run oversizeRedirect emptyHome).signals = 1 ∧
    failures (run (oversizeRedirect ++ cancellationWithTarget) emptyHome).signals = 1 ∧
    isActive (run (oversizeRedirect ++ cancellationWithTarget) emptyHome) = true ∧
    (run (oversizeRedirect ++ cancellationWithTarget) emptyHome).sent.length = 2 ∧
    isActive (run oversizeSixthRedirect emptyHome) = true ∧
    (run oversizeSixthRedirect emptyHome).suppressErrors_ = true ∧
    failures (run oversizeSixthRedirect emptyHome).signals = 1 ∧
    (run (oversizeSixthRedirect ++ cancellationWithTarget) emptyHome).signals.filter isFailure =
      [Signal.downloadFailed "Content length exceeds limit",
       Signal.downloadFailed "Redirect limit reached"] ∧
    failures (run (oversizeSixthRedirect ++ cancellationWithTarget) emptyHome).signals = 2 := by
  decide

/-! ## C14: records under the allow-listed directories -/

/-- With the root as directory the test of the source fails for every absolute path
whose cleaned form is not the root itself. -/
theorem isUnder_root_false (path : String) (hp : isAbsolute path = true)
    (hne : cleanPath path ≠ "/") : isUnder "/" (cleanPath path) = false := by
  have hph : path.data.head? = some '/' := by simpa [isAbsolute] using hp
  have hgood := cleanSegments_good path.data
  unfold isUnder
  rw [Bool.or_eq_false_iff]
  constructor
  · unfold startsWith cleanPath
    simp only
    rw [cleanChars_absolute path.data hph]
    cases hsegs : normalizeSegments true [] (splitSlash path.data) with
    | nil =>
      exfalso
      apply hne
      unfold cleanPath
      rw [cleanChars_absolute path.data hph, hsegs]
      rfl
    | cons x r =>
      rw [hsegs] at hgood
      obtain ⟨hx1, hx2⟩ := hgood x (by simp)
      cases x with
      | nil => exact absurd rfl hx1
      | cons c cs =>
        have hc : c ≠ '/' := fun e => hx2 (by simp [e])
        have hc2 : ('/' == c) = false := by simpa using fun e => hc e.symm
        cases r with
        | nil =>
          rw [intercalate_single]
          have e : ("/" ++ "/").data = ['/', '/'] := rfl
          rw [e]
          simp [List.isPrefixOf, hc2]
        | cons y more =>
          rw [intercalate_cons_cons]
          have e : ("/" ++ "/").data = ['/', '/'] := rfl
          rw [e]
          simp [List.isPrefixOf, hc2]
  · simpa using hne

/-- The record `loadSavedState` returns when the home directory is the root and the
downloads location is unset or the root: the empty record, for every absolute path but
the root itself. -/
theorem loadSavedState_root_home (s : DownloadItem) (u f b : JsonValue)
    (hs : s.stateFile = StateFile.object u f b) (hh : s.homePath = "/")
    (hd : s.downloadLocation = "" ∨ s.downloadLocation = "/")
    (habs : isAbsolute f.toString = true) (hne : cleanPath f.toString ≠ "/") :
    loadSavedState s = {} := by
  have hc : cleanPath "/" = "/" := by decide
  have hdd : downloadDirOf s = "/" := by
    rcases hd with hd | hd <;> simp [downloadDirOf, hh, hd]
  apply loadSavedState_reject s u f b hs
  right
  rw [hh, hdd, hc]
  exact ⟨isUnder_root_false _ habs hne, isUnder_root_false _ habs hne⟩

/-- C14, the code at the failing input.  The home directory is `/`, no downloads
location is reported, and the record holds a well-formed url, the absolute path
`/data/f.bin` and the count 7.  The path is nested under the home directory, which is
also the directory standing for the downloads location.  `loadSavedState` compares the
cleaned path with the cleaned home directory followed by a separator, which is `//`, and
with the cleaned home directory itself, `/`; both tests fail, and it returns the empty
record, which is not valid. -/
theorem root_home_record_is_rejected :
    rootHomeRecord.urlValid "https://a.example/f.bin" = true ∧
    isAbsolute "/data/f.bin" = true ∧
    cleanPath rootHomeRecord.homePath = "/" ∧
    downloadDirOf rootHomeRecord = "/" ∧
    nestedUnder rootHomeRecord.homePath "/data/f.bin" = true ∧
    nestedUnder (downloadDirOf rootHomeRecord) "/data/f.bin" = true ∧
    cleanPath "/data/f.bin" = "/data/f.bin" ∧
    isUnder (cleanPath rootHomeRecord.homePath) (cleanPath "/data/f.bin") = false ∧
    loadSavedState rootHomeRecord = {} ∧
    (loadSavedState rootHomeRecord).isValid rootHomeRecord.urlValid = false ∧
    (loadSavedState rootHomeRecord).filePath ≠ "/data/f.bin" := by
  decide

end Downman
